import Mathlib

/-!
# Scene-graph transform propagation and triangle gathering

A shallow embedding of `src/src/sceneGraph.hpp` and of the per-frame passes
`updateNodeTransformations` and `gatherTriangles` of `src/src/gamelogic.cpp`,
together with the pieces of the GLM library these passes call, the end of
`updateFrame`, the branch of `keyCallback` for the key T and `loadOBJ` of
`src/src/utilities/objLoader.cpp`; of the node creations of `initGame`, the
key-frame search and the ball step of `updateFrame`, `mouseCallback`, and
`generateTextGeometryBuffer` of `src/src/utilities/glfont.cpp`.

Conventions of the embedding.

* The scalar type `F` stands for C++ `float`.  The definitions use nothing but
  the arithmetic operations of `F`, so they can be read over any arithmetic.
  Theorems that need algebraic laws are stated over a field: there the
  arithmetic is exact, rounding is not modelled, and `1 / 0` is `0`.
* `cos`, `sin` and `inversesqrt` are library functions; they are passed to the
  definitions in a record `FloatFns` and the theorems hold for every choice of
  them (with side conditions where a value of one of them matters).
* GLM matrices are column major: `m.c0 .. m.c3` are the columns `m[0] .. m[3]`.
* `std::vector` is `List`; an out-of-range `operator[]` (undefined behaviour in
  C++) makes the embedded function return `none`.
* The two passes mutate the tree and two global vectors; the embedding passes
  the tree and the vectors in and out explicitly.
* `unsigned int` values are natural numbers taken modulo 2^32 (`u32`) where the
  code computes them; `std::vector::at` past the end (an exception in C++) makes
  the embedded function return `none`.
* `double` values of the game logic are elements of a linearly ordered field:
  comparisons are exact and there is no NaN.
-/

namespace glm

/-- Two component vector `glm::vec2`. -/
structure vec2 (F : Type) where
  x : F
  y : F
deriving DecidableEq, Repr

/-- Three component vector `glm::vec3`. -/
structure vec3 (F : Type) where
  x : F
  y : F
  z : F
deriving DecidableEq, Repr

/-- Four component vector `glm::vec4`. -/
structure vec4 (F : Type) where
  x : F
  y : F
  z : F
  w : F
deriving DecidableEq, Repr

/-- Column-major 3×3 matrix `glm::mat3`: `c0`, `c1`, `c2` are `m[0]`, `m[1]`, `m[2]`. -/
structure mat3 (F : Type) where
  c0 : vec3 F
  c1 : vec3 F
  c2 : vec3 F
deriving DecidableEq, Repr

/-- Column-major 4×4 matrix `glm::mat4`: `c0 .. c3` are `m[0] .. m[3]`. -/
structure mat4 (F : Type) where
  c0 : vec4 F
  c1 : vec4 F
  c2 : vec4 F
  c3 : vec4 F
deriving DecidableEq, Repr

/-- The library functions on scalars that GLM calls. -/
structure FloatFns (F : Type) where
  cos : F → F
  sin : F → F
  inversesqrt : F → F

section Operations

variable {F : Type} [Zero F] [One F] [Add F] [Sub F] [Mul F] [Neg F] [Div F]

/-- Unary minus on a `vec3` (`-node->referencePoint`). -/
def vec3.neg (v : vec3 F) : vec3 F := ⟨-v.x, -v.y, -v.z⟩

/-- Product `vec3 * scalar`. -/
def vec3.smul (v : vec3 F) (s : F) : vec3 F := ⟨v.x * s, v.y * s, v.z * s⟩

/-- Product `scalar * vec3`. -/
def vec3.lsmul (s : F) (v : vec3 F) : vec3 F := ⟨s * v.x, s * v.y, s * v.z⟩

/-- Sum of two `vec3`. -/
def vec3.add (a b : vec3 F) : vec3 F := ⟨a.x + b.x, a.y + b.y, a.z + b.z⟩

/-- Product `vec4 * scalar`. -/
def vec4.smul (v : vec4 F) (s : F) : vec4 F := ⟨v.x * s, v.y * s, v.z * s, v.w * s⟩

/-- Sum of two `vec4`. -/
def vec4.add (a b : vec4 F) : vec4 F := ⟨a.x + b.x, a.y + b.y, a.z + b.z, a.w + b.w⟩

/-- Constructor `glm::vec3(s)`: all components equal to `s`. -/
def vec3.splat (s : F) : vec3 F := ⟨s, s, s⟩

/-- Conversion `glm::vec4(v, w)`. -/
def vec4.ofVec3 (v : vec3 F) (w : F) : vec4 F := ⟨v.x, v.y, v.z, w⟩

/-- Conversion `glm::vec3(v)` of a `vec4`: the `w` component is dropped. -/
def vec4.xyz (v : vec4 F) : vec3 F := ⟨v.x, v.y, v.z⟩

/-- Inner product `glm::dot` on `vec3`. -/
def dot (a b : vec3 F) : F := a.x * b.x + a.y * b.y + a.z * b.z

/-- Function `glm::normalize`: `v * inversesqrt(dot(v, v))`. -/
def normalize (fns : FloatFns F) (v : vec3 F) : vec3 F :=
  v.smul (fns.inversesqrt (dot v v))

/-- Constructor `glm::mat4(1.0f)`: the identity matrix. -/
def mat4.identity : mat4 F :=
  ⟨⟨1, 0, 0, 0⟩, ⟨0, 1, 0, 0⟩, ⟨0, 0, 1, 0⟩, ⟨0, 0, 0, 1⟩⟩

/-- The identity matrix `glm::mat3(1.0f)`. -/
def mat3.identity : mat3 F :=
  ⟨⟨1, 0, 0⟩, ⟨0, 1, 0⟩, ⟨0, 0, 1⟩⟩

/-- Product `mat4 * vec4`: the combination of the columns of `m` weighted by `v`. -/
def mat4.mulVec (m : mat4 F) (v : vec4 F) : vec4 F :=
  ((m.c0.smul v.x).add (m.c1.smul v.y)).add ((m.c2.smul v.z).add (m.c3.smul v.w))

/-- One column of `mat4 * mat4`:
`SrcA0 * b[0] + SrcA1 * b[1] + SrcA2 * b[2] + SrcA3 * b[3]`. -/
def mat4.mulCol (a : mat4 F) (b : vec4 F) : vec4 F :=
  (((a.c0.smul b.x).add (a.c1.smul b.y)).add (a.c2.smul b.z)).add (a.c3.smul b.w)

/-- Product `mat4 * mat4`. -/
def mat4.mul (a b : mat4 F) : mat4 F :=
  ⟨a.mulCol b.c0, a.mulCol b.c1, a.mulCol b.c2, a.mulCol b.c3⟩

instance : Mul (mat4 F) := ⟨mat4.mul⟩

/-- Product `mat3 * vec3`. -/
def mat3.mulVec (m : mat3 F) (v : vec3 F) : vec3 F :=
  ⟨m.c0.x * v.x + m.c1.x * v.y + m.c2.x * v.z,
   m.c0.y * v.x + m.c1.y * v.y + m.c2.y * v.z,
   m.c0.z * v.x + m.c1.z * v.y + m.c2.z * v.z⟩

/-- Product `mat3 * mat3`, column by column. -/
def mat3.mul (a b : mat3 F) : mat3 F :=
  ⟨a.mulVec b.c0, a.mulVec b.c1, a.mulVec b.c2⟩

/-- Conversion `glm::mat3(m)` of a `mat4`: the upper-left 3×3 block. -/
def mat3.ofMat4 (m : mat4 F) : mat3 F := ⟨m.c0.xyz, m.c1.xyz, m.c2.xyz⟩

/-- Function `glm::transpose` on `mat3`. -/
def transpose (m : mat3 F) : mat3 F :=
  ⟨⟨m.c0.x, m.c1.x, m.c2.x⟩, ⟨m.c0.y, m.c1.y, m.c2.y⟩, ⟨m.c0.z, m.c1.z, m.c2.z⟩⟩

/-- The determinant as `glm::inverse` computes it for a `mat3`. -/
def determinant (m : mat3 F) : F :=
  m.c0.x * (m.c1.y * m.c2.z - m.c2.y * m.c1.z)
    - m.c1.x * (m.c0.y * m.c2.z - m.c2.y * m.c0.z)
    + m.c2.x * (m.c0.y * m.c1.z - m.c1.y * m.c0.z)

/-- Function `glm::inverse` on `mat3`: the cofactors times `1 / determinant`.
There is no test for a zero determinant. -/
def inverse (m : mat3 F) : mat3 F :=
  let OneOverDeterminant : F := 1 / determinant m
  ⟨⟨(m.c1.y * m.c2.z - m.c2.y * m.c1.z) * OneOverDeterminant,
    -(m.c0.y * m.c2.z - m.c2.y * m.c0.z) * OneOverDeterminant,
    (m.c0.y * m.c1.z - m.c1.y * m.c0.z) * OneOverDeterminant⟩,
   ⟨-(m.c1.x * m.c2.z - m.c2.x * m.c1.z) * OneOverDeterminant,
    (m.c0.x * m.c2.z - m.c2.x * m.c0.z) * OneOverDeterminant,
    -(m.c0.x * m.c1.z - m.c1.x * m.c0.z) * OneOverDeterminant⟩,
   ⟨(m.c1.x * m.c2.y - m.c2.x * m.c1.y) * OneOverDeterminant,
    -(m.c0.x * m.c2.y - m.c2.x * m.c0.y) * OneOverDeterminant,
    (m.c0.x * m.c1.y - m.c1.x * m.c0.y) * OneOverDeterminant⟩⟩

/-- Function `glm::translate(m, v)`: `m` with its last column replaced by
`m[0] * v[0] + m[1] * v[1] + m[2] * v[2] + m[3]`. -/
def translateOn (m : mat4 F) (v : vec3 F) : mat4 F :=
  ⟨m.c0, m.c1, m.c2, (((m.c0.smul v.x).add (m.c1.smul v.y)).add (m.c2.smul v.z)).add m.c3⟩

/-- Function `glm::translate(v)` of `glm/gtx/transform.hpp`: `translate(mat4(1), v)`. -/
def translate (v : vec3 F) : mat4 F := translateOn mat4.identity v

/-- Function `glm::scale(m, v)`: the first three columns of `m` scaled by `v`. -/
def scaleOn (m : mat4 F) (v : vec3 F) : mat4 F :=
  ⟨m.c0.smul v.x, m.c1.smul v.y, m.c2.smul v.z, m.c3⟩

/-- Function `glm::scale(v)` of `glm/gtx/transform.hpp`: `scale(mat4(1), v)`. -/
def scale (v : vec3 F) : mat4 F := scaleOn mat4.identity v

/-- Function `glm::rotate(m, angle, v)`: `m` times the rotation by `angle` about the
normalized axis `v`. -/
def rotateOn (fns : FloatFns F) (m : mat4 F) (angle : F) (v : vec3 F) : mat4 F :=
  let c : F := fns.cos angle
  let s : F := fns.sin angle
  let axis : vec3 F := normalize fns v
  let temp : vec3 F := vec3.lsmul (1 - c) axis
  let r00 : F := c + temp.x * axis.x
  let r01 : F := temp.x * axis.y + s * axis.z
  let r02 : F := temp.x * axis.z - s * axis.y
  let r10 : F := temp.y * axis.x - s * axis.z
  let r11 : F := c + temp.y * axis.y
  let r12 : F := temp.y * axis.z + s * axis.x
  let r20 : F := temp.z * axis.x + s * axis.y
  let r21 : F := temp.z * axis.y - s * axis.x
  let r22 : F := c + temp.z * axis.z
  ⟨((m.c0.smul r00).add (m.c1.smul r01)).add (m.c2.smul r02),
   ((m.c0.smul r10).add (m.c1.smul r11)).add (m.c2.smul r12),
   ((m.c0.smul r20).add (m.c1.smul r21)).add (m.c2.smul r22),
   m.c3⟩

/-- Function `glm::rotate(angle, v)` of `glm/gtx/transform.hpp`:
`rotate(mat4(1), angle, v)`. -/
def rotate (fns : FloatFns F) (angle : F) (v : vec3 F) : mat4 F :=
  rotateOn fns mat4.identity angle v

end Operations

end glm

open glm

/-- The node type tag of `sceneGraph.hpp`. -/
inductive SceneNodeType where
  | GEOMETRY
  | POINT_LIGHT
  | SPOT_LIGHT
  | GEOMETRY_2D
  | NORMAL_MAPPED_GEOMETRY
deriving DecidableEq, Repr

/-- The tree element `SceneNode` of `sceneGraph.hpp`.  The child pointers are the
owned subtrees, in insertion order. -/
structure SceneNode (F : Type) where
  children : List (SceneNode F)
  position : vec3 F
  rotation : vec3 F
  scale : vec3 F
  lightColor : vec3 F
  currentTransformationMatrix : mat4 F
  modelMatrix : mat4 F
  normalMatrix : mat3 F
  referencePoint : vec3 F
  vertexArrayObjectID : Int
  VAOIndexCount : Nat
  nodeType : SceneNodeType
  id : Int
  textureID : Nat
  normalMapID : Nat
  roughnessMapID : Nat
  materialID : Nat

/-- The record `LightSourceData` of `gamelogic.cpp`. -/
structure LightSourceData (F : Type) where
  position : vec3 F
  color : vec3 F
deriving DecidableEq, Repr

/-- The record `Triangle` of `gamelogic.cpp`, without its padding floats. -/
structure Triangle (F : Type) where
  v0 : vec3 F
  v1 : vec3 F
  v2 : vec3 F
  n0 : vec3 F
  n1 : vec3 F
  n2 : vec3 F
  materialID : Nat
deriving DecidableEq, Repr

/-- The mesh record of `utilities/mesh.h`, with the members the sources use. -/
structure Mesh (F : Type) where
  vertices : List (vec3 F)
  normals : List (vec3 F)
  textureCoordinates : List (vec2 F)
  indices : List Nat
  tangents : List (vec3 F)
  bitangents : List (vec3 F)

namespace tinyobj

/-- The record `tinyobj::index_t`: positions into the attribute arrays, negative when
the OBJ file gives none. -/
structure index_t where
  vertex_index : Int
  normal_index : Int
  texcoord_index : Int
deriving DecidableEq, Repr

/-- The record `tinyobj::attrib_t`, with the flat arrays that `loadOBJ` reads. -/
structure attrib_t (F : Type) where
  vertices : List F
  normals : List F
  texcoords : List F

/-- The record `tinyobj::mesh_t`, with its index list. -/
structure mesh_t where
  indices : List index_t

/-- The record `tinyobj::shape_t`. -/
structure shape_t where
  mesh : mesh_t

end tinyobj

section Passes

variable {F : Type} [Zero F] [One F] [Add F] [Sub F] [Mul F] [Neg F] [Div F]

/-- The local transform that `updateNodeTransformations` builds from the fields of
a node, the seven factors multiplied from left to right. -/
def localTransform (fns : FloatFns F) (node : SceneNode F) : mat4 F :=
  translate node.position
    * translate node.referencePoint
    * rotate fns node.rotation.y ⟨0, 1, 0⟩
    * rotate fns node.rotation.x ⟨1, 0, 0⟩
    * rotate fns node.rotation.z ⟨0, 0, 1⟩
    * glm.scale node.scale
    * translate node.referencePoint.neg

mutual
/-- The pass `updateNodeTransformations(node, transformationThusFar, VP)`.  It
returns the updated node and the global vector `lightsData` after the call. -/
def updateNodeTransformations (fns : FloatFns F) (node : SceneNode F)
    (transformationThusFar VP : mat4 F) (lightsData : List (LightSourceData F)) :
    SceneNode F × List (LightSourceData F) :=
  match node with
  | .mk children .. =>
    let modelMatrix : mat4 F := transformationThusFar * localTransform fns node
    let normalMatrix : mat3 F := transpose (inverse (mat3.ofMat4 modelMatrix))
    let currentTransformationMatrix : mat4 F := VP * modelMatrix
    let lightsData1 : List (LightSourceData F) :=
      if node.nodeType = SceneNodeType.POINT_LIGHT then
        lightsData ++ [⟨(modelMatrix.mulVec ⟨0, 0, 0, 1⟩).xyz, node.lightColor⟩]
      else lightsData
    let rest := updateChildren fns children modelMatrix VP lightsData1
    ({ node with
        children := rest.1
        modelMatrix := modelMatrix
        normalMatrix := normalMatrix
        currentTransformationMatrix := currentTransformationMatrix }, rest.2)
/-- The loop `for (SceneNode* child : node->children)` of
`updateNodeTransformations`, over the children that are still to be visited. -/
def updateChildren (fns : FloatFns F) (children : List (SceneNode F))
    (modelMatrix VP : mat4 F) (lightsData : List (LightSourceData F)) :
    List (SceneNode F) × List (LightSourceData F) :=
  match children with
  | [] => ([], lightsData)
  | child :: others =>
    let first := updateNodeTransformations fns child modelMatrix VP lightsData
    let rest := updateChildren fns others modelMatrix VP first.2
    (first.1 :: rest.1, rest.2)
end

/-- The body of the loop of `gatherTriangles` at position `i` of the index list:
the triangle it pushes.  A read past the end of `indices`, `vertices` or `normals`
gives `none`. -/
def gatherLoopBody (fns : FloatFns F) (node : SceneNode F) (mesh : Mesh F) (i : Nat) :
    Option (Triangle F) :=
  match mesh.indices[i + 0]?, mesh.indices[i + 1]?, mesh.indices[i + 2]? with
  | some i0, some i1, some i2 =>
    match mesh.vertices[i0]?, mesh.vertices[i1]?, mesh.vertices[i2]? with
    | some p0_local, some p1_local, some p2_local =>
      let p0_world : vec3 F := (node.modelMatrix.mulVec (vec4.ofVec3 p0_local 1)).xyz
      let p1_world : vec3 F := (node.modelMatrix.mulVec (vec4.ofVec3 p1_local 1)).xyz
      let p2_world : vec3 F := (node.modelMatrix.mulVec (vec4.ofVec3 p2_local 1)).xyz
      if !mesh.normals.isEmpty then
        match mesh.normals[i0]?, mesh.normals[i1]?, mesh.normals[i2]? with
        | some n0_local, some n1_local, some n2_local =>
          let n0_world : vec3 F := normalize fns (node.normalMatrix.mulVec n0_local)
          let n1_world : vec3 F := normalize fns (node.normalMatrix.mulVec n1_local)
          let n2_world : vec3 F := normalize fns (node.normalMatrix.mulVec n2_local)
          some ⟨p0_world, p1_world, p2_world, n0_world, n1_world, n2_world, node.materialID⟩
        | _, _, _ => none
      else
        some ⟨p0_world, p1_world, p2_world, vec3.splat 0, vec3.splat 0, vec3.splat 0,
          node.materialID⟩
    | _, _, _ => none
  | _, _, _ => none

/-- The loop `for (size_t i = 0; i < mesh.indices.size(); i += 3)` of
`gatherTriangles`, from position `i` on, pushing onto `output`. -/
def gatherLoop (fns : FloatFns F) (node : SceneNode F) (mesh : Mesh F) (i : Nat)
    (output : List (Triangle F)) : Option (List (Triangle F)) :=
  if i < mesh.indices.length then
    match gatherLoopBody fns node mesh i with
    | some tri => gatherLoop fns node mesh (i + 3) (output ++ [tri])
    | none => none
  else some output
termination_by mesh.indices.length - i
decreasing_by omega

/-- The values of `i` at which the loop `for (size_t i = 0; i < mesh.indices.size();
i += 3)` of `gatherTriangles` enters its body, from the value `i` on, for an index
list of the length `size`. -/
def gatherLoopRounds (size i : Nat) : List Nat :=
  if i < size then i :: gatherLoopRounds size (i + 3) else []
termination_by size - i
decreasing_by omega

mutual
/-- The pass `gatherTriangles(node, output)`, reading the global map `gMeshByVao`.
It returns the vector `output` after the call, or `none` when a read went out of
range. -/
def gatherTriangles (fns : FloatFns F) (gMeshByVao : Int → Option (Mesh F))
    (node : SceneNode F) (output : List (Triangle F)) : Option (List (Triangle F)) :=
  match node with
  | .mk children .. =>
    let own : Option (List (Triangle F)) :=
      if node.nodeType = SceneNodeType.GEOMETRY
          ∨ node.nodeType = SceneNodeType.NORMAL_MAPPED_GEOMETRY then
        match gMeshByVao node.vertexArrayObjectID with
        | some mesh => gatherLoop fns node mesh 0 output
        | none => some output
      else some output
    match own with
    | some output1 => gatherChildren fns gMeshByVao children output1
    | none => none
/-- The loop `for (SceneNode* child : node->children)` of `gatherTriangles`. -/
def gatherChildren (fns : FloatFns F) (gMeshByVao : Int → Option (Mesh F))
    (children : List (SceneNode F)) (output : List (Triangle F)) :
    Option (List (Triangle F)) :=
  match children with
  | [] => some output
  | child :: others =>
    match gatherTriangles fns gMeshByVao child output with
    | some output1 => gatherChildren fns gMeshByVao others output1
    | none => none
end

/-- The part of `updateFrame` that rebuilds the per-frame data: `lightsData.clear()`,
the propagation from the root under the identity, `allTriangles.clear()` and the
gathering pass.  It returns the tree, `lightsData` and `allTriangles`. -/
def rebuildFrame (fns : FloatFns F) (gMeshByVao : Int → Option (Mesh F))
    (rootNode : SceneNode F) (VP : mat4 F) :
    SceneNode F × List (LightSourceData F) × Option (List (Triangle F)) :=
  let updated := updateNodeTransformations fns rootNode mat4.identity VP []
  (updated.1, updated.2, gatherTriangles fns gMeshByVao updated.1 [])

/-- The node reached from `node` by following the child positions in `path`. -/
def nodeAt (node : SceneNode F) (path : List Nat) : Option (SceneNode F) :=
  match path with
  | [] => some node
  | i :: rest =>
    match node.children[i]? with
    | some child => nodeAt child rest
    | none => none

/-- The constructor `SceneNode()` of `sceneGraph.hpp`, with the counter `globalId`
passed in and out.  The members the constructor does not set keep the
indeterminate values given in `indeterminate`. -/
def SceneNode.construct (globalId : Int) (indeterminate : SceneNode F) :
    SceneNode F × Int :=
  ({ indeterminate with
      children := []
      position := ⟨0, 0, 0⟩
      rotation := ⟨0, 0, 0⟩
      scale := ⟨1, 1, 1⟩
      referencePoint := ⟨0, 0, 0⟩
      vertexArrayObjectID := -1
      VAOIndexCount := 0
      nodeType := SceneNodeType.GEOMETRY
      id := globalId
      materialID := 0 }, globalId + 1)

/-- The local transforms of the nodes met on the way from `node` down `path`,
`node` first. -/
def localsAlong (fns : FloatFns F) (node : SceneNode F) (path : List Nat) :
    List (mat4 F) :=
  match path with
  | [] => [localTransform fns node]
  | i :: rest =>
    match node.children[i]? with
    | some child => localTransform fns node :: localsAlong fns child rest
    | none => [localTransform fns node]

/-- The product of a list of matrices, multiplied from left to right, starting
from `start`. -/
def productFrom (start : mat4 F) (ms : List (mat4 F)) : mat4 F :=
  ms.foldl (fun acc m => acc * m) start

mutual
/-- The nodes of a tree in depth-first pre-order, children in child-list order. -/
def preorder (node : SceneNode F) : List (SceneNode F) :=
  match node with
  | .mk children .. => node :: preorderList children
/-- The pre-order listing of a list of trees, one tree after the other. -/
def preorderList (nodes : List (SceneNode F)) : List (SceneNode F) :=
  match nodes with
  | [] => []
  | first :: others => preorder first ++ preorderList others
end

/-- The test `nodeType == GEOMETRY || nodeType == NORMAL_MAPPED_GEOMETRY` of
`gatherTriangles`. -/
def hasGeometryType (node : SceneNode F) : Bool :=
  node.nodeType = SceneNodeType.GEOMETRY
    ∨ node.nodeType = SceneNodeType.NORMAL_MAPPED_GEOMETRY

/-- The triangles `gatherTriangles` pushes for the node itself, its children left
aside. -/
def ownTriangles (fns : FloatFns F) (gMeshByVao : Int → Option (Mesh F))
    (node : SceneNode F) : Option (List (Triangle F)) :=
  if hasGeometryType node then
    match gMeshByVao node.vertexArrayObjectID with
    | some mesh => gatherLoop fns node mesh 0 []
    | none => some []
  else some []

/-- The number of triangles expected of a node: the index count of its mesh
divided by 3 when the node has a geometry type and its handle resolves, else 0. -/
def ownTriangleCount (gMeshByVao : Int → Option (Mesh F)) (node : SceneNode F) : Nat :=
  if hasGeometryType node then
    match gMeshByVao node.vertexArrayObjectID with
    | some mesh => mesh.indices.length / 3
    | none => 0
  else 0

/-- The entry `updateNodeTransformations` pushes onto `lightsData` for a point
light whose matrices are up to date. -/
def lightEntry (node : SceneNode F) : LightSourceData F :=
  ⟨(node.modelMatrix.mulVec ⟨0, 0, 0, 1⟩).xyz, node.lightColor⟩

/-- The call `clear()` of a `std::vector`: whatever the vector held, it is empty
afterwards. -/
def clear {α : Type} (_vector : List α) : List α := []

/-- The end of `updateFrame`, from `lightsData.clear()` on, started with the global
vectors `lightsData` and `allTriangles` as the previous frame left them.  It returns
the tree and the two vectors. -/
def updateFrameRebuild (fns : FloatFns F) (gMeshByVao : Int → Option (Mesh F))
    (rootNode : SceneNode F) (VP : mat4 F) (lightsData : List (LightSourceData F))
    (allTriangles : List (Triangle F)) :
    SceneNode F × List (LightSourceData F) × Option (List (Triangle F)) :=
  let lightsData1 := clear lightsData
  let updated := updateNodeTransformations fns rootNode mat4.identity VP lightsData1
  let allTriangles1 := clear allTriangles
  (updated.1, updated.2, gatherTriangles fns gMeshByVao updated.1 allTriangles1)

/-- The tree after `children.erase(it)` on the node reached by `path`, with `it` at
position `i` of the child list of that node. -/
def eraseChildAt (node : SceneNode F) (path : List Nat) (i : Nat) : SceneNode F :=
  match path with
  | [] => { node with children := node.children.eraseIdx i }
  | j :: rest =>
    match node.children[j]? with
    | some child => { node with children := node.children.set j (eraseChildAt child rest i) }
    | none => node

/-- Modelled from the spec: `addChild` of `sceneGraph.cpp`, which is not among the
sources; it appends the child to the ordered child list of the parent. -/
def addChild (parent child : SceneNode F) : SceneNode F :=
  { parent with children := parent.children ++ [child] }

/-- The branch of `keyCallback` for a press of the key T.  The pointer comparison
of `std::find` with `trophySimpleNode` is the test `isTrophy`; `it` is the position
of the first child that passes it. -/
def keyCallbackTrophy (isTrophy : SceneNode F → Bool)
    (rootNode trophySimpleNode : SceneNode F) : SceneNode F :=
  match rootNode.children.findIdx? isTrophy with
  | some it => { rootNode with children := rootNode.children.eraseIdx it }
  | none => addChild rootNode trophySimpleNode

/-- The entries `updateNodeTransformations` collects from a tree whose matrices are
up to date: those of the point lights, in pre-order. -/
def lightsOf (node : SceneNode F) : List (LightSourceData F) :=
  ((preorder node).filter
    (fun n => decide (n.nodeType = SceneNodeType.POINT_LIGHT))).map lightEntry

/-- The read `values[position]` of a `std::vector` of scalars at a position computed
in `int`; a negative position or one past the end gives `none`. -/
def readAt (values : List F) (position : Int) : Option F :=
  if position < 0 then none else values[position.toNat]?

/-- The body of the inner loop of `loadOBJ`: one more vertex, normal, texture
coordinate and index for the index record `idx`. -/
def loadOBJIndex (attrib : tinyobj.attrib_t F) (mesh : Mesh F) (idx : tinyobj.index_t) :
    Option (Mesh F) :=
  match readAt attrib.vertices (3 * idx.vertex_index + 0),
      readAt attrib.vertices (3 * idx.vertex_index + 1),
      readAt attrib.vertices (3 * idx.vertex_index + 2) with
  | some x, some y, some z =>
    let normal : Option (vec3 F) :=
      if !attrib.normals.isEmpty && decide (idx.normal_index ≥ 0) then
        match readAt attrib.normals (3 * idx.normal_index + 0),
            readAt attrib.normals (3 * idx.normal_index + 1),
            readAt attrib.normals (3 * idx.normal_index + 2) with
        | some nx, some ny, some nz => some ⟨nx, ny, nz⟩
        | _, _, _ => none
      else some ⟨0, 0, 0⟩
    let texCoord : Option (vec2 F) :=
      if !attrib.texcoords.isEmpty && decide (idx.texcoord_index ≥ 0) then
        match readAt attrib.texcoords (2 * idx.texcoord_index + 0),
            readAt attrib.texcoords (2 * idx.texcoord_index + 1) with
        | some u, some v => some ⟨u, v⟩
        | _, _ => none
      else some ⟨0, 0⟩
    match normal, texCoord with
    | some n, some t =>
      some { mesh with
        vertices := mesh.vertices ++ [⟨x, y, z⟩]
        normals := mesh.normals ++ [n]
        textureCoordinates := mesh.textureCoordinates ++ [t]
        indices := mesh.indices ++ [mesh.indices.length % 4294967296] }
    | _, _ => none
  | _, _, _ => none

/-- The inner loop of `loadOBJ` over the indices of one shape. -/
def loadOBJShape (attrib : tinyobj.attrib_t F) (mesh : Mesh F)
    (indices : List tinyobj.index_t) : Option (Mesh F) :=
  match indices with
  | [] => some mesh
  | idx :: rest =>
    match loadOBJIndex attrib mesh idx with
    | some mesh1 => loadOBJShape attrib mesh1 rest
    | none => none

/-- The outer loop of `loadOBJ` over the shapes. -/
def loadOBJShapes (attrib : tinyobj.attrib_t F) (mesh : Mesh F)
    (shapes : List tinyobj.shape_t) : Option (Mesh F) :=
  match shapes with
  | [] => some mesh
  | shape :: rest =>
    match loadOBJShape attrib mesh shape.mesh.indices with
    | some mesh1 => loadOBJShapes attrib mesh1 rest
    | none => none

/-- The function `loadOBJ` of `objLoader.cpp`, given what `tinyobj::LoadObj` returned
(`ret`) and stored (`attrib`, `shapes`).  A read past the end of an attribute array
gives `none`. -/
def loadOBJ (ret : Bool) (attrib : tinyobj.attrib_t F) (shapes : List tinyobj.shape_t) :
    Option (Mesh F) :=
  if !ret then some ⟨[], [], [], [], [], []⟩
  else loadOBJShapes attrib ⟨[], [], [], [], [], []⟩ shapes

/-- The matrix that `glm::inverse` returns, with the factor `OneOverDeterminant`
left open: the cofactors times that factor. -/
def cofactorsTimes (m : mat3 F) (OneOverDeterminant : F) : mat3 F :=
  ⟨⟨(m.c1.y * m.c2.z - m.c2.y * m.c1.z) * OneOverDeterminant,
    -(m.c0.y * m.c2.z - m.c2.y * m.c0.z) * OneOverDeterminant,
    (m.c0.y * m.c1.z - m.c1.y * m.c0.z) * OneOverDeterminant⟩,
   ⟨-(m.c1.x * m.c2.z - m.c2.x * m.c1.z) * OneOverDeterminant,
    (m.c0.x * m.c2.z - m.c2.x * m.c0.z) * OneOverDeterminant,
    -(m.c0.x * m.c1.z - m.c1.x * m.c0.z) * OneOverDeterminant⟩,
   ⟨(m.c1.x * m.c2.y - m.c2.x * m.c1.y) * OneOverDeterminant,
    -(m.c0.x * m.c2.y - m.c2.x * m.c0.y) * OneOverDeterminant,
    (m.c0.x * m.c1.y - m.c1.x * m.c0.y) * OneOverDeterminant⟩⟩

/-- The translation units that run the constructor `SceneNode()`.  The counter is
declared `static int globalId = 0;` in the header `sceneGraph.hpp`, so it has
internal linkage and each translation unit that includes the header has a copy of
its own. -/
inductive TranslationUnit where
  | sceneGraph_cpp
  | gamelogic_cpp
deriving DecidableEq, Repr

/-- The constructor `SceneNode()` run by code of the translation unit `unit`: the
statement `id = globalId++` reads and advances the copy of `globalId` of that unit. -/
def constructIn (unit : TranslationUnit) (globalId : TranslationUnit → Int)
    (indeterminate : SceneNode F) : SceneNode F × (TranslationUnit → Int) :=
  let made := SceneNode.construct (globalId unit) indeterminate
  (made.1, fun u => if u = unit then made.2 else globalId u)

/-- Modelled from the spec: `createSceneNode` of `sceneGraph.cpp`, which is not
among the sources (the header only declares it); it allocates a node with the
constructor, and the call is code of `sceneGraph.cpp`. -/
def createSceneNode (globalId : TranslationUnit → Int) (indeterminate : SceneNode F) :
    SceneNode F × (TranslationUnit → Int) :=
  constructIn TranslationUnit.sceneGraph_cpp globalId indeterminate

/-- The node creations of `initGame` in program order, started with both counters
at 0: `rootNode`, `boxNode`, `padNode`, `ballNode`, `trophyNode`, `trophySimpleNode`,
`sceneLightNode`, `lightNode1`, `padLightNode` through `createSceneNode`, then
`textNode` through `new SceneNode()` in `gamelogic.cpp`. -/
def initGameCreations (indeterminate : SceneNode F) : List (SceneNode F) :=
  let counters0 : TranslationUnit → Int := fun _ => 0
  let rootNode := createSceneNode counters0 indeterminate
  let boxNode := createSceneNode rootNode.2 indeterminate
  let padNode := createSceneNode boxNode.2 indeterminate
  let ballNode := createSceneNode padNode.2 indeterminate
  let trophyNode := createSceneNode ballNode.2 indeterminate
  let trophySimpleNode := createSceneNode trophyNode.2 indeterminate
  let sceneLightNode := createSceneNode trophySimpleNode.2 indeterminate
  let lightNode1 := createSceneNode sceneLightNode.2 indeterminate
  let padLightNode := createSceneNode lightNode1.2 indeterminate
  let textNode := constructIn TranslationUnit.gamelogic_cpp padLightNode.2 indeterminate
  [rootNode.1, boxNode.1, padNode.1, ballNode.1, trophyNode.1, trophySimpleNode.1,
    sceneLightNode.1, lightNode1.1, padLightNode.1, textNode.1]

/-- A unit vector along a coordinate axis, in either direction. -/
def IsUnitAxis (a : vec3 F) : Prop :=
  a = ⟨1, 0, 0⟩ ∨ a = ⟨0, 1, 0⟩ ∨ a = ⟨0, 0, 1⟩
    ∨ a = ⟨-1, 0, 0⟩ ∨ a = ⟨0, -1, 0⟩ ∨ a = ⟨0, 0, -1⟩

/-- Every index of the mesh addresses an existing vertex and, when the mesh has
normals, an existing normal. -/
def Mesh.IndicesInRange (mesh : Mesh F) : Prop :=
  ∀ i ∈ mesh.indices, i < mesh.vertices.length
    ∧ (mesh.normals.isEmpty = false → i < mesh.normals.length)

end Passes

/-- The tag `KeyFrameAction` of `gamelogic.cpp`. -/
inductive KeyFrameAction where
  | BOTTOM
  | TOP
deriving DecidableEq, Repr

/-- The value an `unsigned int` holds for the mathematical value `n`. -/
def u32 (n : Nat) : Nat := n % 4294967296

/-- The assignment `v.at(k) = a` on a `std::vector`: `none` stands for the exception
`std::out_of_range` that `at` throws for a position past the end. -/
def setAt {α : Type} (v : List α) (k : Nat) (a : α) : Option (List α) :=
  if k < v.length then some (v.set k a) else none

/-- The call `v.resize(count)` on an empty `std::vector`: `count` value-initialized
elements. -/
def resize {α : Type} (count : Nat) (zero : α) : List α := List.replicate count zero

section KeyFrames

variable {F : Type} [LT F] [DecidableRel (fun a b : F => a < b)]

/-- The loop `for (unsigned int i = currentKeyFrame; i < keyFrameTimeStamps.size();
i++)` of `updateFrame`, from the counter value `i` on, with `current` the value of
`currentKeyFrame`.  The counter is an `unsigned int` and wraps; `fuel` bounds the
number of rounds, and `none` means that the loop has not ended within it. -/
def keyFrameSearch (keyFrameTimeStamps : List F) (gameElapsedTime : F) :
    Nat → Nat → Nat → Option Nat
  | 0, _, _ => none
  | fuel + 1, i, current =>
    if h : i < keyFrameTimeStamps.length then
      if gameElapsedTime < keyFrameTimeStamps[i] then
        keyFrameSearch keyFrameTimeStamps gameElapsedTime fuel (u32 (i + 1)) current
      else
        keyFrameSearch keyFrameTimeStamps gameElapsedTime fuel (u32 (i + 1)) i
    else some current

/-- The four reads that follow the loop: `keyFrameTimeStamps.at(currentKeyFrame)`,
`keyFrameTimeStamps.at(currentKeyFrame + 1)`, `keyFrameDirections.at(currentKeyFrame)`
and `keyFrameDirections.at(currentKeyFrame + 1)`; `none` stands for the exception of
`at`. -/
def keyFrameReads (keyFrameTimeStamps : List F) (keyFrameDirections : List KeyFrameAction)
    (currentKeyFrame : Nat) : Option (F × F × KeyFrameAction × KeyFrameAction) :=
  match keyFrameTimeStamps[currentKeyFrame]?, keyFrameTimeStamps[u32 (currentKeyFrame + 1)]?,
      keyFrameDirections[currentKeyFrame]?,
      keyFrameDirections[u32 (currentKeyFrame + 1)]? with
  | some frameStart, some frameEnd, some currentOrigin, some currentDestination =>
    some (frameStart, frameEnd, currentOrigin, currentDestination)
  | _, _, _, _ => none

end KeyFrames

section TextGeometry

variable {F : Type} [Zero F] [One F] [Add F] [Mul F] [Div F] [NatCast F] [IntCast F]

/-- The six writes to `mesh.vertices` in the body of the loop of
`generateTextGeometryBuffer`, in program order; the positions are computed in
`unsigned int`. -/
def textLoopVertices (baseXCoordinate characterWidth characterHeight : F)
    (vertices : List (vec3 F)) (i : Nat) : Option (List (vec3 F)) := do
  let v1 ← setAt vertices (u32 (4 * i + 0)) (vec3.mk baseXCoordinate 0 0)
  let v2 ← setAt v1 (u32 (4 * i + 1)) (vec3.mk (baseXCoordinate + characterWidth) 0 0)
  let v3 ← setAt v2 (u32 (4 * i + 2))
    (vec3.mk (baseXCoordinate + characterWidth) characterHeight 0)
  let v4 ← setAt v3 (u32 (4 * i + 0)) (vec3.mk baseXCoordinate 0 0)
  let v5 ← setAt v4 (u32 (4 * i + 2))
    (vec3.mk (baseXCoordinate + characterWidth) characterHeight 0)
  setAt v5 (u32 (4 * i + 3)) (vec3.mk baseXCoordinate characterHeight 0)

/-- The six writes to `mesh.indices` in the body of the loop, in program order. -/
def textLoopIndices (indices : List Nat) (i : Nat) : Option (List Nat) := do
  let x1 ← setAt indices (u32 (6 * i + 0)) (u32 (4 * i + 0))
  let x2 ← setAt x1 (u32 (6 * i + 1)) (u32 (4 * i + 1))
  let x3 ← setAt x2 (u32 (6 * i + 2)) (u32 (4 * i + 2))
  let x4 ← setAt x3 (u32 (6 * i + 3)) (u32 (4 * i + 0))
  let x5 ← setAt x4 (u32 (6 * i + 4)) (u32 (4 * i + 2))
  setAt x5 (u32 (6 * i + 5)) (u32 (4 * i + 3))

/-- The six writes to `mesh.textureCoordinates` in the body of the loop, in program
order. -/
def textLoopTextureCoordinates (baseXTexture textureWidth : F)
    (textureCoordinates : List (vec2 F)) (i : Nat) : Option (List (vec2 F)) := do
  let t1 ← setAt textureCoordinates (u32 (4 * i + 0)) (vec2.mk baseXTexture 0)
  let t2 ← setAt t1 (u32 (4 * i + 1)) (vec2.mk (baseXTexture + textureWidth) 0)
  let t3 ← setAt t2 (u32 (4 * i + 2)) (vec2.mk (baseXTexture + textureWidth) 1)
  let t4 ← setAt t3 (u32 (4 * i + 0)) (vec2.mk baseXTexture 0)
  let t5 ← setAt t4 (u32 (4 * i + 2)) (vec2.mk (baseXTexture + textureWidth) 1)
  setAt t5 (u32 (4 * i + 3)) (vec2.mk baseXTexture 1)

/-- The body of the loop of `generateTextGeometryBuffer` for the character at
position `i`: the vertex writes, then the index writes, then the texture
coordinate writes. -/
def textLoopBody (text : List Int) (characterWidth characterHeight textureWidth : F)
    (mesh : Mesh F) (i : Nat) : Option (Mesh F) :=
  match text[i]? with
  | none => none
  | some character =>
    let baseXCoordinate : F := (i : F) * characterWidth
    let baseXTexture : F := (character : F) * textureWidth
    match textLoopVertices baseXCoordinate characterWidth characterHeight mesh.vertices i with
    | none => none
    | some vertices =>
      match textLoopIndices mesh.indices i with
      | none => none
      | some indices =>
        match textLoopTextureCoordinates baseXTexture textureWidth
            mesh.textureCoordinates i with
        | none => none
        | some textureCoordinates =>
          some { mesh with
            vertices := vertices, indices := indices,
            textureCoordinates := textureCoordinates }

/-- The loop `for (unsigned int i = 0; i < text.length(); i++)` of
`generateTextGeometryBuffer`, from the counter value `i` on.  The counter does not
wrap: a round at a position of 2^30 or more fails at `vertices.at`. -/
def textLoop (text : List Int) (characterWidth characterHeight textureWidth : F)
    (i : Nat) (mesh : Mesh F) : Option (Mesh F) :=
  if i < text.length then
    match textLoopBody text characterWidth characterHeight textureWidth mesh i with
    | some mesh1 => textLoop text characterWidth characterHeight textureWidth (i + 1) mesh1
    | none => none
  else some mesh
termination_by text.length - i
decreasing_by omega

/-- The function `generateTextGeometryBuffer` of `glfont.cpp`, with the text as the
list of its character codes.  It returns `none` when `at` throws. -/
def generateTextGeometryBuffer (text : List Int)
    (characterHeightOverWidth totalTextWidth : F) : Option (Mesh F) :=
  let characterWidth : F := totalTextWidth / (text.length : F)
  let characterHeight : F := characterHeightOverWidth * characterWidth
  let textureWidth : F := 1 / ((128 : Nat) : F)
  let vertexCount : Nat := u32 (4 * text.length)
  let indexCount : Nat := u32 (6 * text.length)
  let mesh : Mesh F :=
    { vertices := resize vertexCount ⟨0, 0, 0⟩
      normals := []
      textureCoordinates := resize vertexCount ⟨0, 0⟩
      indices := resize indexCount 0
      tangents := []
      bitangents := [] }
  textLoop text characterWidth characterHeight textureWidth 0 mesh

end TextGeometry

section GameLogic

variable {F : Type} [LinearOrderedField F]

/-- The steps "Make ball move" and "Make ball bounce" of the running branch of
`updateFrame`: the new `ballPosition` and `ballDirection`. -/
def ballMoveAndBounce (timeDelta ballYCoord ballMinX ballMaxX ballMinZ ballMaxZ : F)
    (ballPosition ballDirection : vec3 F) : vec3 F × vec3 F :=
  let ballSpeed : F := 60
  let movedX : F := ballPosition.x + timeDelta * ballSpeed * ballDirection.x
  let movedZ : F := ballPosition.z + timeDelta * ballSpeed * ballDirection.z
  let bouncedX : F × F :=
    if movedX < ballMinX then (ballMinX, ballDirection.x * -1)
    else if movedX > ballMaxX then (ballMaxX, ballDirection.x * -1)
    else (movedX, ballDirection.x)
  let bouncedZ : F × F :=
    if movedZ < ballMinZ then (ballMinZ, ballDirection.z * -1)
    else if movedZ > ballMaxZ then (ballMaxZ, ballDirection.z * -1)
    else (movedZ, ballDirection.z)
  (⟨bouncedX.1, ballYCoord, bouncedZ.1⟩, ⟨bouncedX.2, ballDirection.y, bouncedZ.2⟩)

/-- The function `mouseCallback`: the new `padPositionX` and `padPositionZ`, given
the window size that `glfwGetWindowSize` reports. -/
def mouseCallback (mouseSensitivity lastMouseX lastMouseY : F)
    (windowWidth windowHeight : Int) (x y : F) (padPositionX padPositionZ : F) : F × F :=
  let deltaX : F := x - lastMouseX
  let deltaY : F := y - lastMouseY
  let movedX : F := padPositionX - mouseSensitivity * deltaX / (windowWidth : F)
  let movedZ : F := padPositionZ - mouseSensitivity * deltaY / (windowHeight : F)
  let clampedX1 : F := if movedX > 1 then 1 else movedX
  let clampedX : F := if clampedX1 < 0 then 0 else clampedX1
  let clampedZ1 : F := if movedZ > 1 then 1 else movedZ
  let clampedZ : F := if clampedZ1 < 0 then 0 else clampedZ1
  (clampedX, clampedZ)

end GameLogic

namespace Demo

/-- A choice of the library functions over the rationals, exact wherever the exact
value is rational: `cos` and `sin` of the half-angle parametrisation of the circle
(so that `cos 0 = 1` and `sin 0 = 0`) and the inverse square root of a square. -/
def fns : FloatFns ℚ where
  cos a := (1 - (a / 2) * (a / 2)) / (1 + (a / 2) * (a / 2))
  sin a := (2 * (a / 2)) / (1 + (a / 2) * (a / 2))
  inversesqrt x := (Nat.sqrt x.den : ℚ) / (Nat.sqrt x.num.toNat : ℚ)

/-- Some values for the members that the constructor leaves unset. -/
def indeterminate : SceneNode ℚ where
  children := []
  position := ⟨3, 1, 4⟩
  rotation := ⟨1, 5, 9⟩
  scale := ⟨2, 6, 5⟩
  lightColor := ⟨1, 1 / 2, 1 / 2⟩
  currentTransformationMatrix := ⟨⟨3, 5, 8, 9⟩, ⟨7, 9, 3, 2⟩, ⟨3, 8, 4, 6⟩, ⟨2, 6, 4, 3⟩⟩
  modelMatrix := ⟨⟨2, 7, 1, 8⟩, ⟨2, 8, 1, 8⟩, ⟨2, 8, 4, 5⟩, ⟨9, 0, 4, 5⟩⟩
  normalMatrix := ⟨⟨1, 4, 1⟩, ⟨4, 2, 1⟩, ⟨3, 5, 6⟩⟩
  referencePoint := ⟨2, 3, 7⟩
  vertexArrayObjectID := 12
  VAOIndexCount := 99
  nodeType := SceneNodeType.SPOT_LIGHT
  id := 41
  textureID := 5
  normalMapID := 6
  roughnessMapID := 7
  materialID := 8

/-- A freshly constructed node. -/
def fresh : SceneNode ℚ := (SceneNode.construct 0 indeterminate).1

/-- A mesh with the single triangle (0,0,0), (1,0,0), (0,1,0) and no normals. -/
def triangleMesh : Mesh ℚ where
  vertices := [⟨0, 0, 0⟩, ⟨1, 0, 0⟩, ⟨0, 1, 0⟩]
  normals := []
  textureCoordinates := []
  indices := [0, 1, 2]
  tangents := []
  bitangents := []

/-- The same triangle with the normal (0,1,0) at each vertex. -/
def normalMesh : Mesh ℚ where
  vertices := [⟨0, 0, 0⟩, ⟨1, 0, 0⟩, ⟨0, 1, 0⟩]
  normals := [⟨0, 1, 0⟩, ⟨0, 1, 0⟩, ⟨0, 1, 0⟩]
  textureCoordinates := []
  indices := [0, 1, 2]
  tangents := []
  bitangents := []

/-- A registry holding `triangleMesh` under handle 7 and `normalMesh` under 8. -/
def registry : Int → Option (Mesh ℚ) :=
  fun handle => if handle = 7 then some triangleMesh
    else if handle = 8 then some normalMesh else none

/-- A node at position (10,0,0) holding `triangleMesh`. -/
def child : SceneNode ℚ :=
  { fresh with position := ⟨10, 0, 0⟩, vertexArrayObjectID := 7, VAOIndexCount := 3 }

/-- A point light at position (0,20,0). -/
def lamp : SceneNode ℚ :=
  { fresh with
      position := ⟨0, 20, 0⟩
      nodeType := SceneNodeType.POINT_LIGHT
      lightColor := ⟨1, 1, 1⟩ }

/-- A root with the single child `child`. -/
def scene : SceneNode ℚ := { fresh with children := [child] }

/-- A root with the children `child` and `lamp`. -/
def root : SceneNode ℚ := { fresh with children := [child, lamp] }

/-- A node with scale (2,1,1) holding `normalMesh`. -/
def stretched : SceneNode ℚ :=
  { fresh with scale := ⟨2, 1, 1⟩, vertexArrayObjectID := 8, VAOIndexCount := 3 }

/-- A point light that carries the handle of `triangleMesh` and has the child
`child`. -/
def lampWithMesh : SceneNode ℚ :=
  { fresh with
      nodeType := SceneNodeType.POINT_LIGHT
      vertexArrayObjectID := 7
      lightColor := ⟨1, 1, 1⟩
      children := [child] }

/-- A mesh with four indices: one triangle and one index left over. -/
def oddMesh : Mesh ℚ where
  vertices := [⟨0, 0, 0⟩, ⟨1, 0, 0⟩, ⟨0, 1, 0⟩]
  normals := []
  textureCoordinates := []
  indices := [0, 1, 2, 0]
  tangents := []
  bitangents := []

/-- A registry holding `oddMesh` under handle 9. -/
def oddRegistry : Int → Option (Mesh ℚ) :=
  fun handle => if handle = 9 then some oddMesh else none

/-- A node holding `oddMesh`, with the model matrix of a fresh node under the
identity. -/
def oddNode : SceneNode ℚ :=
  { fresh with
      vertexArrayObjectID := 9
      VAOIndexCount := 4
      modelMatrix := mat4.identity
      normalMatrix := mat3.identity }

/-- A node with the scale (0,1,1), whose model matrix has a singular upper-left
block. -/
def flat : SceneNode ℚ := { fresh with scale := ⟨0, 1, 1⟩ }

/-- What `tinyobj::LoadObj` stores for an OBJ file with the three vertices of one
triangle and no normals and no texture coordinates. -/
def objAttrib : tinyobj.attrib_t ℚ where
  vertices := [0, 0, 0, 1, 0, 0, 0, 1, 0]
  normals := []
  texcoords := []

/-- The one shape of that file: a face over the vertices 0, 1, 2, without normal or
texture indices. -/
def objShapes : List tinyobj.shape_t :=
  [⟨⟨[⟨0, -1, -1⟩, ⟨1, -1, -1⟩, ⟨2, -1, -1⟩]⟩⟩]

/-- The mesh `loadOBJ` builds from that file: the normal of every vertex is the
zero vector. -/
def loadedMesh : Mesh ℚ where
  vertices := [⟨0, 0, 0⟩, ⟨1, 0, 0⟩, ⟨0, 1, 0⟩]
  normals := [⟨0, 0, 0⟩, ⟨0, 0, 0⟩, ⟨0, 0, 0⟩]
  textureCoordinates := [⟨0, 0⟩, ⟨0, 0⟩, ⟨0, 0⟩]
  indices := [0, 1, 2]
  tangents := []
  bitangents := []

/-- A node with the identifier 5, which `initGame` gives to `trophySimpleNode`. -/
def trophy : SceneNode ℚ := (SceneNode.construct 5 indeterminate).1

/-- The test of `std::find` for the node `trophy`: the nodes of the demo scenes
differ in their identifiers. -/
def isTrophy (n : SceneNode ℚ) : Bool := decide (n.id = 5)

/-- A root with the trophy as first child and a geometry node after it. -/
def hall : SceneNode ℚ := { fresh with children := [trophy, child] }

/-- Four key-frame time stamps, the last one far away. -/
def keyFrameTimeStamps : List ℚ := [0, 1, 2, 1000]

/-- The directions that go with `keyFrameTimeStamps`. -/
def keyFrameDirections : List KeyFrameAction :=
  [KeyFrameAction.BOTTOM, KeyFrameAction.TOP, KeyFrameAction.BOTTOM, KeyFrameAction.BOTTOM]

/-- A view-projection matrix. -/
def VP : mat4 ℚ := ⟨⟨1, 0, 0, 0⟩, ⟨0, 2, 0, 0⟩, ⟨0, 0, 1, -1⟩, ⟨0, 0, 3, 0⟩⟩

end Demo

set_option linter.unusedSectionVars false

section Structural

variable {F : Type} [Zero F] [One F] [Add F] [Sub F] [Mul F] [Neg F] [Div F]

theorem localTransform_congr (fns : FloatFns F) (a b : SceneNode F)
    (hp : a.position = b.position) (hr : a.rotation = b.rotation)
    (hs : a.scale = b.scale) (hq : a.referencePoint = b.referencePoint) :
    localTransform fns a = localTransform fns b := by
  simp only [localTransform, hp, hr, hs, hq]

theorem update_unfold (fns : FloatFns F) (node : SceneNode F) (T VP : mat4 F)
    (lights : List (LightSourceData F)) :
    updateNodeTransformations fns node T VP lights =
      ({ node with
          children := (updateChildren fns node.children (T * localTransform fns node) VP
            (if node.nodeType = SceneNodeType.POINT_LIGHT then
              lights ++ [⟨((T * localTransform fns node).mulVec ⟨0, 0, 0, 1⟩).xyz,
                node.lightColor⟩]
             else lights)).1
          modelMatrix := T * localTransform fns node
          normalMatrix := transpose (inverse (mat3.ofMat4 (T * localTransform fns node)))
          currentTransformationMatrix := VP * (T * localTransform fns node) },
        (updateChildren fns node.children (T * localTransform fns node) VP
            (if node.nodeType = SceneNodeType.POINT_LIGHT then
              lights ++ [⟨((T * localTransform fns node).mulVec ⟨0, 0, 0, 1⟩).xyz,
                node.lightColor⟩]
             else lights)).2) := by
  cases node
  simp only [updateNodeTransformations]

mutual
theorem update_fst_lights (fns : FloatFns F) (node : SceneNode F) (T VP : mat4 F)
    (lights : List (LightSourceData F)) :
    (updateNodeTransformations fns node T VP lights).1
      = (updateNodeTransformations fns node T VP []).1 := by
  match node with
  | .mk children .. =>
    simp only [updateNodeTransformations]
    rw [updateChildren_fst_lights fns children]
    conv => rhs; rw [updateChildren_fst_lights fns children]
theorem updateChildren_fst_lights (fns : FloatFns F) (children : List (SceneNode F))
    (M VP : mat4 F) (lights : List (LightSourceData F)) :
    (updateChildren fns children M VP lights).1
      = (updateChildren fns children M VP []).1 := by
  match children with
  | [] => simp only [updateChildren]
  | child :: others =>
    simp only [updateChildren]
    rw [update_fst_lights fns child, updateChildren_fst_lights fns others]
    conv => rhs; rw [updateChildren_fst_lights fns others]
end


theorem updateChildren_fst_map (fns : FloatFns F) (children : List (SceneNode F))
    (M VP : mat4 F) (lights : List (LightSourceData F)) :
    (updateChildren fns children M VP lights).1
      = children.map (fun c => (updateNodeTransformations fns c M VP []).1) := by
  induction children generalizing lights with
  | nil => simp only [updateChildren, List.map_nil]
  | cons child others ih =>
    simp only [updateChildren, List.map_cons]
    rw [update_fst_lights fns child, ih]

theorem update_children (fns : FloatFns F) (node : SceneNode F) (T VP : mat4 F)
    (lights : List (LightSourceData F)) :
    (updateNodeTransformations fns node T VP lights).1.children
      = node.children.map (fun c =>
          (updateNodeTransformations fns c (T * localTransform fns node) VP []).1) := by
  rw [update_unfold]
  exact updateChildren_fst_map fns _ _ _ _

theorem update_modelMatrix (fns : FloatFns F) (node : SceneNode F) (T VP : mat4 F)
    (lights : List (LightSourceData F)) :
    (updateNodeTransformations fns node T VP lights).1.modelMatrix
      = T * localTransform fns node := by
  rw [update_unfold]

theorem update_normalMatrix (fns : FloatFns F) (node : SceneNode F) (T VP : mat4 F)
    (lights : List (LightSourceData F)) :
    (updateNodeTransformations fns node T VP lights).1.normalMatrix
      = transpose (inverse (mat3.ofMat4 (T * localTransform fns node))) := by
  rw [update_unfold]

theorem update_currentTransformationMatrix (fns : FloatFns F) (node : SceneNode F)
    (T VP : mat4 F) (lights : List (LightSourceData F)) :
    (updateNodeTransformations fns node T VP lights).1.currentTransformationMatrix
      = VP * (T * localTransform fns node) := by
  rw [update_unfold]

theorem update_localTransform (fns : FloatFns F) (node : SceneNode F) (T VP : mat4 F)
    (lights : List (LightSourceData F)) :
    localTransform fns (updateNodeTransformations fns node T VP lights).1
      = localTransform fns node := by
  rw [update_unfold]
  exact localTransform_congr fns _ _ rfl rfl rfl rfl

theorem localsAlong_ne_nil (fns : FloatFns F) (node : SceneNode F) (path : List Nat) :
    localsAlong fns node path ≠ [] := by
  cases path with
  | nil => simp [localsAlong]
  | cons i rest =>
    simp only [localsAlong]
    split <;> simp

theorem productFrom_cons (start m : mat4 F) (ms : List (mat4 F)) :
    productFrom start (m :: ms) = productFrom (start * m) ms := rfl

theorem productFrom_dropLast (fns : FloatFns F) (node : SceneNode F) (path : List Nat)
    (start : mat4 F) (n : SceneNode F) (h : nodeAt node path = some n) :
    productFrom start (localsAlong fns node path)
      = productFrom start (localsAlong fns node path).dropLast * localTransform fns n := by
  induction path generalizing node start with
  | nil =>
    simp only [nodeAt, Option.some.injEq] at h
    subst h
    simp [localsAlong, productFrom]
  | cons i rest ih =>
    simp only [nodeAt] at h
    simp only [localsAlong]
    cases hc : node.children[i]? with
    | none => simp [hc] at h
    | some child =>
      simp only [hc] at h ⊢
      rw [List.dropLast_cons_of_ne_nil (localsAlong_ne_nil fns child rest)]
      rw [productFrom_cons, productFrom_cons]
      exact ih child _ h

/-- The node found at `path` after the pass is the pass applied to the node found
there before, entered with the product of the local transforms of its ancestors. -/
theorem nodeAt_update (fns : FloatFns F) (path : List Nat) (node : SceneNode F)
    (T VP : mat4 F) (lights : List (LightSourceData F)) :
    nodeAt (updateNodeTransformations fns node T VP lights).1 path
      = (nodeAt node path).map (fun n =>
          (updateNodeTransformations fns n
            (productFrom T (localsAlong fns node path).dropLast) VP []).1) := by
  induction path generalizing node T lights with
  | nil =>
    simp only [nodeAt, Option.map_some', localsAlong, List.dropLast_single, productFrom,
      List.foldl_nil]
    rw [update_fst_lights]
  | cons i rest ih =>
    simp only [nodeAt, localsAlong]
    rw [update_children, List.getElem?_map]
    cases hc : node.children[i]? with
    | none => simp
    | some child =>
      simp only [Option.map_some']
      rw [ih, List.dropLast_cons_of_ne_nil (localsAlong_ne_nil fns child rest),
        productFrom_cons]

theorem nodeAt_append (node : SceneNode F) (p q : List Nat) :
    nodeAt node (p ++ q) = (nodeAt node p).bind (fun n => nodeAt n q) := by
  induction p generalizing node with
  | nil => simp [nodeAt]
  | cons i rest ih =>
    simp only [List.cons_append, nodeAt]
    cases node.children[i]? with
    | none => simp
    | some child => simpa using ih child

end Structural

section Algebra

variable {F : Type} [Field F]

theorem mat4.mul_def (a b : mat4 F) : a * b = mat4.mul a b := rfl

theorem mat4.identity_mul (m : mat4 F) : mat4.identity * m = m := by
  obtain ⟨⟨a0, a1, a2, a3⟩, ⟨b0, b1, b2, b3⟩, ⟨c0, c1, c2, c3⟩, ⟨d0, d1, d2, d3⟩⟩ := m
  simp [mat4.mul_def, mat4.mul, mat4.mulCol, mat4.identity, vec4.smul, vec4.add]

theorem mat4.mul_identity (m : mat4 F) : m * mat4.identity = m := by
  obtain ⟨⟨a0, a1, a2, a3⟩, ⟨b0, b1, b2, b3⟩, ⟨c0, c1, c2, c3⟩, ⟨d0, d1, d2, d3⟩⟩ := m
  simp [mat4.mul_def, mat4.mul, mat4.mulCol, mat4.identity, vec4.smul, vec4.add]

theorem mat4.mulVec_eq_mulCol (m : mat4 F) (v : vec4 F) : m.mulVec v = m.mulCol v := by
  simp only [mat4.mulVec, mat4.mulCol, vec4.smul, vec4.add, vec4.mk.injEq]
  refine ⟨?_, ?_, ?_, ?_⟩ <;> ring

theorem mat4.mulCol_mulCol (a b : mat4 F) (v : vec4 F) :
    (a * b).mulCol v = a.mulCol (b.mulCol v) := by
  simp only [mat4.mul_def, mat4.mul, mat4.mulCol, vec4.smul, vec4.add, vec4.mk.injEq]
  refine ⟨?_, ?_, ?_, ?_⟩ <;> ring

theorem mat4.mul_mulVec (a b : mat4 F) (v : vec4 F) :
    (a * b).mulVec v = a.mulVec (b.mulVec v) := by
  rw [mat4.mulVec_eq_mulCol, mat4.mulVec_eq_mulCol, mat4.mulVec_eq_mulCol, mat4.mulCol_mulCol]

theorem mat4.mul_assoc (a b c : mat4 F) : a * b * c = a * (b * c) := by
  have h : ∀ v, (a * b).mulCol v = a.mulCol (b.mulCol v) := mat4.mulCol_mulCol a b
  rw [mat4.mul_def (a * b) c, mat4.mul_def a (b * c), mat4.mul_def b c]
  simp only [mat4.mul, h]

theorem mat4.mulVec_origin (m : mat4 F) : (m.mulVec ⟨0, 0, 0, 1⟩).xyz = m.c3.xyz := by
  simp [mat4.mulVec, vec4.smul, vec4.add, vec4.xyz]

end Algebra

section Gather

variable {F : Type} [Zero F] [One F] [Add F] [Sub F] [Mul F] [Neg F] [Div F]

/-- The loop pushes onto `output` what it pushes onto the empty vector. -/
theorem gatherLoop_prepend (fns : FloatFns F) (node : SceneNode F) (mesh : Mesh F)
    (i : Nat) (output : List (Triangle F)) :
    gatherLoop fns node mesh i output
      = (gatherLoop fns node mesh i []).map (fun own => output ++ own) := by
  refine gatherLoop.induct fns node mesh
    (motive := fun i _ => ∀ output, gatherLoop fns node mesh i output
      = (gatherLoop fns node mesh i []).map (fun own => output ++ own))
    ?_ ?_ ?_ i [] output
  · intro i _ hi tri hbody ih output
    rw [gatherLoop, if_pos hi, hbody]
    conv => rhs; rw [gatherLoop, if_pos hi, hbody]
    simp only
    rw [ih (output ++ [tri]), ih ([] ++ [tri])]
    cases gatherLoop fns node mesh (i + 3) [] <;> simp
  · intro i _ hi hbody output
    rw [gatherLoop, if_pos hi, hbody]
    conv => rhs; rw [gatherLoop, if_pos hi, hbody]
    simp
  · intro i _ hi output
    rw [gatherLoop, if_neg hi]
    conv => rhs; rw [gatherLoop, if_neg hi]
    simp

/-- What a successful run of the loop from position `i` pushes: one triangle for
each third position from `i` on, the `k`-th one built at position `i + 3 * k`. -/
theorem gatherLoop_some (fns : FloatFns F) (node : SceneNode F) (mesh : Mesh F)
    (i : Nat) (own : List (Triangle F)) (h : gatherLoop fns node mesh i [] = some own) :
    own.length = (mesh.indices.length - i + 2) / 3
      ∧ ∀ k, k < own.length → gatherLoopBody fns node mesh (i + 3 * k) = own[k]? := by
  refine gatherLoop.induct fns node mesh
    (motive := fun i _ => ∀ own, gatherLoop fns node mesh i [] = some own →
      own.length = (mesh.indices.length - i + 2) / 3
        ∧ ∀ k, k < own.length → gatherLoopBody fns node mesh (i + 3 * k) = own[k]?)
    ?_ ?_ ?_ i [] own h
  · intro i _ hi tri hbody ih own h
    rw [gatherLoop, if_pos hi, hbody] at h
    simp only at h
    rw [gatherLoop_prepend] at h
    cases hrest : gatherLoop fns node mesh (i + 3) [] with
    | none => simp [hrest] at h
    | some rest =>
      simp only [hrest, Option.map_some', List.nil_append, Option.some.injEq] at h
      subst h
      obtain ⟨hlen, hget⟩ := ih rest hrest
      refine ⟨?_, ?_⟩
      · simp only [List.singleton_append, List.length_cons, hlen]
        omega
      · intro k hk
        cases k with
        | zero => simpa using hbody
        | succ k =>
          have hk' : k < rest.length := by simpa using hk
          have := hget k hk'
          simp only [List.singleton_append, List.getElem?_cons_succ]
          rw [← this]
          congr 1
          omega
  · intro i _ hi hbody own h
    rw [gatherLoop, if_pos hi, hbody] at h
    simp at h
  · intro i _ hi own h
    rw [gatherLoop, if_neg hi] at h
    simp only [Option.some.injEq] at h
    subst h
    refine ⟨?_, ?_⟩
    · simp only [List.length_nil]
      omega
    · intro k hk
      simp at hk


theorem gatherTriangles_unfold (fns : FloatFns F) (gMeshByVao : Int → Option (Mesh F))
    (node : SceneNode F) (output : List (Triangle F)) :
    gatherTriangles fns gMeshByVao node output
      = ((ownTriangles fns gMeshByVao node).map (fun own => output ++ own)).bind
          (fun output1 => gatherChildren fns gMeshByVao node.children output1) := by
  cases node with
  | mk children position rotation scale lightColor currentTransformationMatrix modelMatrix
      normalMatrix referencePoint vertexArrayObjectID VAOIndexCount nodeType id textureID
      normalMapID roughnessMapID materialID =>
    simp only [gatherTriangles, ownTriangles, hasGeometryType, Bool.decide_or,
      Bool.or_eq_true, decide_eq_true_eq]
    by_cases hty : nodeType = SceneNodeType.GEOMETRY
        ∨ nodeType = SceneNodeType.NORMAL_MAPPED_GEOMETRY
    · simp only [if_pos hty]
      cases gMeshByVao vertexArrayObjectID with
      | none => simp
      | some mesh =>
        simp only
        rw [gatherLoop_prepend]
        cases gatherLoop fns _ mesh 0 [] <;> simp
    · simp [if_neg hty]

mutual
theorem gatherTriangles_prepend (fns : FloatFns F) (gMeshByVao : Int → Option (Mesh F))
    (node : SceneNode F) (output : List (Triangle F)) :
    gatherTriangles fns gMeshByVao node output
      = (gatherTriangles fns gMeshByVao node []).map (fun out => output ++ out) := by
  match node with
  | .mk children .. =>
    rw [gatherTriangles_unfold, gatherTriangles_unfold]
    cases ownTriangles fns gMeshByVao _ with
    | none => simp
    | some own =>
      simp only [Option.map_some', Option.some_bind, List.nil_append]
      rw [gatherChildren_prepend fns gMeshByVao children (output ++ own),
        gatherChildren_prepend fns gMeshByVao children own]
      cases gatherChildren fns gMeshByVao children [] <;> simp
theorem gatherChildren_prepend (fns : FloatFns F) (gMeshByVao : Int → Option (Mesh F))
    (children : List (SceneNode F)) (output : List (Triangle F)) :
    gatherChildren fns gMeshByVao children output
      = (gatherChildren fns gMeshByVao children []).map (fun out => output ++ out) := by
  match children with
  | [] => simp [gatherChildren]
  | child :: others =>
    simp only [gatherChildren]
    rw [gatherTriangles_prepend fns gMeshByVao child output]
    cases gatherTriangles fns gMeshByVao child [] with
    | none => simp
    | some first =>
      simp only [Option.map_some', List.nil_append]
      rw [gatherChildren_prepend fns gMeshByVao others (output ++ first),
        gatherChildren_prepend fns gMeshByVao others first]
      cases gatherChildren fns gMeshByVao others [] <;> simp
end

/-- A successful pass over a node yields the triangles of the node itself followed
by those of its children. -/
theorem gatherTriangles_some (fns : FloatFns F) (gMeshByVao : Int → Option (Mesh F))
    (node : SceneNode F) (out : List (Triangle F))
    (h : gatherTriangles fns gMeshByVao node [] = some out) :
    ∃ own below, ownTriangles fns gMeshByVao node = some own
      ∧ gatherChildren fns gMeshByVao node.children [] = some below
      ∧ out = own ++ below := by
  rw [gatherTriangles_unfold] at h
  cases hown : ownTriangles fns gMeshByVao node with
  | none => simp [hown] at h
  | some own =>
    simp only [hown, Option.map_some', List.nil_append, Option.some_bind] at h
    rw [gatherChildren_prepend] at h
    cases hbelow : gatherChildren fns gMeshByVao node.children [] with
    | none => simp [hbelow] at h
    | some below =>
      simp only [hbelow, Option.map_some', Option.some.injEq] at h
      exact ⟨own, below, rfl, rfl, h.symm⟩

/-- A successful pass over a list of children yields the triangles of the first
child followed by those of the others. -/
theorem gatherChildren_cons_some (fns : FloatFns F) (gMeshByVao : Int → Option (Mesh F))
    (child : SceneNode F) (others : List (SceneNode F)) (out : List (Triangle F))
    (h : gatherChildren fns gMeshByVao (child :: others) [] = some out) :
    ∃ first rest, gatherTriangles fns gMeshByVao child [] = some first
      ∧ gatherChildren fns gMeshByVao others [] = some rest
      ∧ out = first ++ rest := by
  simp only [gatherChildren] at h
  cases hfirst : gatherTriangles fns gMeshByVao child [] with
  | none => simp [hfirst] at h
  | some first =>
    simp only [hfirst] at h
    rw [gatherChildren_prepend] at h
    cases hrest : gatherChildren fns gMeshByVao others [] with
    | none => simp [hrest] at h
    | some rest =>
      simp only [hrest, Option.map_some', Option.some.injEq] at h
      exact ⟨first, rest, rfl, rfl, h.symm⟩


theorem gatherLoopBody_isSome (fns : FloatFns F) (node : SceneNode F) (mesh : Mesh F)
    (i : Nat) (hi : i + 2 < mesh.indices.length) (hrange : mesh.IndicesInRange) :
    ∃ tri, gatherLoopBody fns node mesh i = some tri := by
  have h0 : i < mesh.indices.length := by omega
  have h1 : i + 1 < mesh.indices.length := by omega
  have m0 := hrange _ (List.getElem_mem h0)
  have m1 := hrange _ (List.getElem_mem h1)
  have m2 := hrange _ (List.getElem_mem hi)
  simp only [gatherLoopBody, Nat.add_zero, List.getElem?_eq_getElem h0,
    List.getElem?_eq_getElem h1, List.getElem?_eq_getElem hi,
    List.getElem?_eq_getElem m0.1, List.getElem?_eq_getElem m1.1,
    List.getElem?_eq_getElem m2.1]
  by_cases hn : mesh.normals.isEmpty = true
  · simp [hn]
  · have hn' : mesh.normals.isEmpty = false := by simpa using hn
    simp [hn', List.getElem?_eq_getElem (m0.2 hn'), List.getElem?_eq_getElem (m1.2 hn'),
      List.getElem?_eq_getElem (m2.2 hn')]

theorem gatherLoop_isSome (fns : FloatFns F) (node : SceneNode F) (mesh : Mesh F)
    (hrange : mesh.IndicesInRange) (i : Nat) (output : List (Triangle F))
    (hi : (mesh.indices.length - i) % 3 = 0) :
    ∃ out, gatherLoop fns node mesh i output = some out := by
  refine gatherLoop.induct fns node mesh
    (motive := fun i output => (mesh.indices.length - i) % 3 = 0 →
      ∃ out, gatherLoop fns node mesh i output = some out)
    ?_ ?_ ?_ i output hi
  · intro i output hlt tri hbody ih hi
    rw [gatherLoop, if_pos hlt, hbody]
    exact ih (by omega)
  · intro i output hlt hbody hi
    obtain ⟨tri, htri⟩ := gatherLoopBody_isSome fns node mesh i (by omega) hrange
    rw [htri] at hbody
    cases hbody
  · intro i output hlt hi
    rw [gatherLoop, if_neg hlt]
    exact ⟨output, rfl⟩

theorem ownTriangles_isSome (fns : FloatFns F) (gMeshByVao : Int → Option (Mesh F))
    (hthree : ∀ handle mesh, gMeshByVao handle = some mesh → mesh.indices.length % 3 = 0)
    (hrange : ∀ handle mesh, gMeshByVao handle = some mesh → mesh.IndicesInRange)
    (node : SceneNode F) : ∃ own, ownTriangles fns gMeshByVao node = some own := by
  simp only [ownTriangles]
  split
  · cases hm : gMeshByVao node.vertexArrayObjectID with
    | none => exact ⟨[], rfl⟩
    | some mesh =>
      exact gatherLoop_isSome fns node mesh (hrange _ _ hm) 0 []
        (by simpa using hthree _ _ hm)
  · exact ⟨[], rfl⟩

theorem ownTriangles_length (fns : FloatFns F) (gMeshByVao : Int → Option (Mesh F))
    (hthree : ∀ handle mesh, gMeshByVao handle = some mesh → mesh.indices.length % 3 = 0)
    (node : SceneNode F) (own : List (Triangle F))
    (h : ownTriangles fns gMeshByVao node = some own) :
    own.length = ownTriangleCount gMeshByVao node := by
  simp only [ownTriangles, ownTriangleCount] at h ⊢
  split at h
  · rename_i hty
    rw [if_pos hty]
    cases hm : gMeshByVao node.vertexArrayObjectID with
    | none =>
      simp only [hm, Option.some.injEq] at h
      subst h
      rfl
    | some mesh =>
      simp only [hm] at h
      have := (gatherLoop_some fns node mesh 0 own h).1
      have h3 := hthree _ _ hm
      simp only [this]
      omega
  · rename_i hty
    rw [if_neg hty]
    simp only [Option.some.injEq] at h
    subst h
    rfl

mutual
/-- Induction over a scene tree: a property holds of every node when it holds of a
node as soon as it holds of the node's children. -/
theorem SceneNode.induction {motive : SceneNode F → Prop}
    (step : ∀ node : SceneNode F, (∀ c ∈ node.children, motive c) → motive node) :
    (node : SceneNode F) → motive node
  | .mk children position rotation scale lightColor currentTransformationMatrix modelMatrix
      normalMatrix referencePoint vertexArrayObjectID VAOIndexCount nodeType id textureID
      normalMapID roughnessMapID materialID =>
    step (.mk children position rotation scale lightColor currentTransformationMatrix
      modelMatrix normalMatrix referencePoint vertexArrayObjectID VAOIndexCount nodeType id
      textureID normalMapID roughnessMapID materialID)
      (SceneNode.induction_list step children)
theorem SceneNode.induction_list {motive : SceneNode F → Prop}
    (step : ∀ node : SceneNode F, (∀ c ∈ node.children, motive c) → motive node) :
    (nodes : List (SceneNode F)) → ∀ c ∈ nodes, motive c
  | [], c, hc => absurd hc (List.not_mem_nil c)
  | first :: others, c, hc =>
    (List.mem_cons.1 hc).elim (fun h => h ▸ SceneNode.induction step first)
      (fun h => SceneNode.induction_list step others c h)
end

theorem preorder_unfold (node : SceneNode F) :
    preorder node = node :: preorderList node.children := by
  cases node
  simp only [preorder]

theorem gatherChildren_isSome (fns : FloatFns F) (gMeshByVao : Int → Option (Mesh F))
    (children : List (SceneNode F))
    (h : ∀ c ∈ children, ∀ output, ∃ out, gatherTriangles fns gMeshByVao c output = some out)
    (output : List (Triangle F)) :
    ∃ out, gatherChildren fns gMeshByVao children output = some out := by
  induction children generalizing output with
  | nil => exact ⟨output, by simp [gatherChildren]⟩
  | cons child others ih =>
    simp only [gatherChildren]
    obtain ⟨first, hfirst⟩ := h child (List.mem_cons_self _ _) output
    rw [hfirst]
    exact ih (fun c hc => h c (List.mem_cons_of_mem _ hc)) first

/-- The pass succeeds when every registered mesh has a multiple of three indices,
all of them in range. -/
theorem gatherTriangles_isSome (fns : FloatFns F) (gMeshByVao : Int → Option (Mesh F))
    (hthree : ∀ handle mesh, gMeshByVao handle = some mesh → mesh.indices.length % 3 = 0)
    (hrange : ∀ handle mesh, gMeshByVao handle = some mesh → mesh.IndicesInRange)
    (node : SceneNode F) :
    ∀ output, ∃ out, gatherTriangles fns gMeshByVao node output = some out := by
  induction node using SceneNode.induction with
  | step node ih =>
    intro output
    rw [gatherTriangles_unfold]
    obtain ⟨own, hown⟩ := ownTriangles_isSome fns gMeshByVao hthree hrange node
    rw [hown]
    exact gatherChildren_isSome fns gMeshByVao node.children ih _

theorem gatherChildren_length (fns : FloatFns F) (gMeshByVao : Int → Option (Mesh F))
    (children : List (SceneNode F))
    (h : ∀ c ∈ children, ∀ out, gatherTriangles fns gMeshByVao c [] = some out →
      out.length = ((preorder c).map (ownTriangleCount gMeshByVao)).sum)
    (out : List (Triangle F)) (hout : gatherChildren fns gMeshByVao children [] = some out) :
    out.length = ((preorderList children).map (ownTriangleCount gMeshByVao)).sum := by
  induction children generalizing out with
  | nil =>
    simp only [gatherChildren, Option.some.injEq] at hout
    subst hout
    simp [preorderList]
  | cons child others ih =>
    obtain ⟨first, rest, hfirst, hrest, rfl⟩ :=
      gatherChildren_cons_some fns gMeshByVao child others out hout
    simp only [preorderList, List.map_append, List.sum_append, List.length_append]
    rw [h child (List.mem_cons_self _ _) first hfirst,
      ih (fun c hc => h c (List.mem_cons_of_mem _ hc)) rest hrest]

/-- The number of triangles of a successful pass is the sum of the expected counts
over the nodes of the tree. -/
theorem gatherTriangles_length (fns : FloatFns F) (gMeshByVao : Int → Option (Mesh F))
    (hthree : ∀ handle mesh, gMeshByVao handle = some mesh → mesh.indices.length % 3 = 0)
    (node : SceneNode F) :
    ∀ out, gatherTriangles fns gMeshByVao node [] = some out →
      out.length = ((preorder node).map (ownTriangleCount gMeshByVao)).sum := by
  induction node using SceneNode.induction with
  | step node ih =>
    intro out h
    obtain ⟨own, below, hown, hbelow, rfl⟩ := gatherTriangles_some fns gMeshByVao _ out h
    rw [preorder_unfold]
    simp only [List.map_cons, List.sum_cons, List.length_append]
    rw [ownTriangles_length fns gMeshByVao hthree _ own hown,
      gatherChildren_length fns gMeshByVao node.children ih below hbelow]


theorem gatherChildren_infix (fns : FloatFns F) (gMeshByVao : Int → Option (Mesh F))
    (children : List (SceneNode F)) (below : List (Triangle F)) (i : Nat)
    (child : SceneNode F) (hbelow : gatherChildren fns gMeshByVao children [] = some below)
    (hchild : children[i]? = some child) :
    ∃ part, gatherTriangles fns gMeshByVao child [] = some part ∧ part <:+: below := by
  induction children generalizing below i with
  | nil => simp at hchild
  | cons first others ih =>
    obtain ⟨mine, rest, hmine, hrest, rfl⟩ :=
      gatherChildren_cons_some fns gMeshByVao first others below hbelow
    cases i with
    | zero =>
      simp only [List.getElem?_cons_zero, Option.some.injEq] at hchild
      subst hchild
      exact ⟨mine, hmine, (List.prefix_append mine rest).isInfix⟩
    | succ i =>
      simp only [List.getElem?_cons_succ] at hchild
      obtain ⟨part, hpart, hin⟩ := ih rest i hrest hchild
      exact ⟨part, hpart, hin.trans (List.suffix_append mine rest).isInfix⟩

/-- The triangles of a node of the tree form a contiguous part of the output of a
successful pass over the tree. -/
theorem gatherTriangles_infix (fns : FloatFns F) (gMeshByVao : Int → Option (Mesh F))
    (path : List Nat) (node n : SceneNode F) (out : List (Triangle F))
    (hn : nodeAt node path = some n)
    (hout : gatherTriangles fns gMeshByVao node [] = some out) :
    ∃ own, ownTriangles fns gMeshByVao n = some own ∧ own <:+: out := by
  induction path generalizing node out with
  | nil =>
    simp only [nodeAt, Option.some.injEq] at hn
    subst hn
    obtain ⟨own, below, hown, _, rfl⟩ := gatherTriangles_some fns gMeshByVao _ out hout
    exact ⟨own, hown, (List.prefix_append own below).isInfix⟩
  | cons i rest ih =>
    simp only [nodeAt] at hn
    cases hc : node.children[i]? with
    | none => simp [hc] at hn
    | some child =>
      simp only [hc] at hn
      obtain ⟨own, below, _, hbelow, rfl⟩ := gatherTriangles_some fns gMeshByVao _ out hout
      obtain ⟨part, hpart, hin⟩ :=
        gatherChildren_infix fns gMeshByVao node.children below i child hbelow hc
      obtain ⟨mine, hmine, hmin⟩ := ih child part hn hpart
      exact ⟨mine, hmine, (hmin.trans hin).trans (List.suffix_append own below).isInfix⟩

end Gather

section Lights

variable {F : Type} [Zero F] [One F] [Add F] [Sub F] [Mul F] [Neg F] [Div F]

theorem updateChildren_lights (fns : FloatFns F) (children : List (SceneNode F))
    (VP : mat4 F)
    (h : ∀ c ∈ children, ∀ (T : mat4 F) (lights : List (LightSourceData F)),
      (updateNodeTransformations fns c T VP lights).2
        = lights ++ ((preorder (updateNodeTransformations fns c T VP lights).1).filter
            (fun n => decide (n.nodeType = SceneNodeType.POINT_LIGHT))).map lightEntry)
    (M : mat4 F) (lights : List (LightSourceData F)) :
    (updateChildren fns children M VP lights).2
      = lights ++ ((preorderList (updateChildren fns children M VP lights).1).filter
          (fun n => decide (n.nodeType = SceneNodeType.POINT_LIGHT))).map lightEntry := by
  induction children generalizing lights with
  | nil => simp [updateChildren, preorderList]
  | cons child others ih =>
    simp only [updateChildren, preorderList, List.filter_append, List.map_append]
    rw [ih (fun c hc => h c (List.mem_cons_of_mem _ hc)),
      h child (List.mem_cons_self _ _) M lights]
    simp only [List.append_assoc]

/-- The pass appends to `lightsData` one entry for each point light of the tree, in
pre-order. -/
theorem update_lights (fns : FloatFns F) (VP : mat4 F) (node : SceneNode F) :
    ∀ (T : mat4 F) (lights : List (LightSourceData F)),
      (updateNodeTransformations fns node T VP lights).2
        = lights ++ ((preorder (updateNodeTransformations fns node T VP lights).1).filter
            (fun n => decide (n.nodeType = SceneNodeType.POINT_LIGHT))).map lightEntry := by
  induction node using SceneNode.induction with
  | step node ih =>
    intro T lights
    rw [preorder_unfold, update_unfold]
    simp only
    rw [updateChildren_lights fns node.children VP ih]
    by_cases hty : node.nodeType = SceneNodeType.POINT_LIGHT
    · simp [hty, lightEntry]
    · simp [hty]

end Lights

section Idempotence

variable {F : Type} [Zero F] [One F] [Add F] [Sub F] [Mul F] [Neg F] [Div F]

/-- A second run of the pass with the same matrices leaves the tree as the first
run made it, whatever the light lists of the two runs. -/
theorem update_idempotent (fns : FloatFns F) (VP : mat4 F) (node : SceneNode F) :
    ∀ (T : mat4 F) (lights again : List (LightSourceData F)),
      (updateNodeTransformations fns
          (updateNodeTransformations fns node T VP lights).1 T VP again).1
        = (updateNodeTransformations fns node T VP lights).1 := by
  induction node using SceneNode.induction with
  | step node ih =>
    intro T lights again
    have hloc := update_localTransform fns node T VP lights
    have hch := update_children fns node T VP lights
    rw [update_unfold fns (updateNodeTransformations fns node T VP lights).1]
    simp only [hloc, updateChildren_fst_map, hch, List.map_map]
    have hmap : node.children.map
        ((fun c => (updateNodeTransformations fns c (T * localTransform fns node) VP []).1)
          ∘ fun c => (updateNodeTransformations fns c (T * localTransform fns node) VP []).1)
        = node.children.map
          (fun c => (updateNodeTransformations fns c (T * localTransform fns node) VP []).1) :=
      List.map_congr_left (fun c hc => ih c hc _ [] [])
    rw [hmap, update_unfold]
    simp only [updateChildren_fst_map]

end Idempotence

section Paths

variable {F : Type} [Zero F] [One F] [Add F] [Sub F] [Mul F] [Neg F] [Div F]

/-- Every node of the tree after the pass is the pass applied to the node at the
same place before, entered with the product of the local transforms of its
ancestors. -/
theorem nodeAt_update_some (fns : FloatFns F) (root : SceneNode F) (T VP : mat4 F)
    (lights : List (LightSourceData F)) (path : List Nat) (n : SceneNode F)
    (h : nodeAt (updateNodeTransformations fns root T VP lights).1 path = some n) :
    ∃ n0, nodeAt root path = some n0
      ∧ n = (updateNodeTransformations fns n0
          (productFrom T (localsAlong fns root path).dropLast) VP []).1 := by
  rw [nodeAt_update] at h
  cases hn : nodeAt root path with
  | none => simp [hn] at h
  | some n0 =>
    simp only [hn, Option.map_some', Option.some.injEq] at h
    exact ⟨n0, rfl, h.symm⟩

theorem update_fields (fns : FloatFns F) (node : SceneNode F) (T VP : mat4 F)
    (lights : List (LightSourceData F)) :
    (updateNodeTransformations fns node T VP lights).1.position = node.position
      ∧ (updateNodeTransformations fns node T VP lights).1.rotation = node.rotation
      ∧ (updateNodeTransformations fns node T VP lights).1.scale = node.scale
      ∧ (updateNodeTransformations fns node T VP lights).1.referencePoint
          = node.referencePoint := by
  rw [update_unfold]
  exact ⟨rfl, rfl, rfl, rfl⟩

/-- The matrix a child gets is the matrix of its parent times its own local
transform. -/
theorem child_modelMatrix (fns : FloatFns F) (root : SceneNode F) (T VP : mat4 F)
    (lights : List (LightSourceData F)) (path : List Nat) (i : Nat)
    (parent child : SceneNode F)
    (hparent : nodeAt (updateNodeTransformations fns root T VP lights).1 path = some parent)
    (hchild : nodeAt (updateNodeTransformations fns root T VP lights).1 (path ++ [i])
      = some child) :
    child.modelMatrix = parent.modelMatrix * localTransform fns child := by
  rw [nodeAt_append, hparent] at hchild
  simp only [Option.some_bind, nodeAt] at hchild
  obtain ⟨n0, _, rfl⟩ := nodeAt_update_some fns root T VP lights path parent hparent
  rw [update_children, List.getElem?_map] at hchild
  cases hc : n0.children[i]? with
  | none => simp [hc] at hchild
  | some c =>
    simp only [hc, Option.map_some', Option.some.injEq] at hchild
    subst hchild
    rw [update_modelMatrix, update_modelMatrix, update_localTransform]

end Paths

section ClosedForms

variable {F : Type} [Field F]

theorem translate_eq (v : vec3 F) :
    glm.translate v = ⟨⟨1, 0, 0, 0⟩, ⟨0, 1, 0, 0⟩, ⟨0, 0, 1, 0⟩, ⟨v.x, v.y, v.z, 1⟩⟩ := by
  simp [glm.translate, translateOn, mat4.identity, vec4.smul, vec4.add]

theorem scale_eq (v : vec3 F) :
    glm.scale v = ⟨⟨v.x, 0, 0, 0⟩, ⟨0, v.y, 0, 0⟩, ⟨0, 0, v.z, 0⟩, ⟨0, 0, 0, 1⟩⟩ := by
  simp [glm.scale, scaleOn, mat4.identity, vec4.smul]

/-- With `cos 0 = 1` and `sin 0 = 0` the rotation by the angle 0 about a unit
coordinate axis is the identity, whatever `inversesqrt` does. -/
theorem rotate_zero (fns : FloatFns F) (hcos : fns.cos 0 = 1) (hsin : fns.sin 0 = 0)
    (axis : vec3 F) : glm.rotate fns 0 axis = mat4.identity := by
  simp [glm.rotate, rotateOn, hcos, hsin, mat4.identity, vec4.smul, vec4.add, vec3.lsmul]

/-- The local transform of a node without rotation and with the reference point at
the origin: the scale followed by the translation to `position`. -/
theorem localTransform_unrotated (fns : FloatFns F) (hcos : fns.cos 0 = 1)
    (hsin : fns.sin 0 = 0) (node : SceneNode F) (hrot : node.rotation = ⟨0, 0, 0⟩)
    (href : node.referencePoint = ⟨0, 0, 0⟩) :
    localTransform fns node
      = ⟨⟨node.scale.x, 0, 0, 0⟩, ⟨0, node.scale.y, 0, 0⟩, ⟨0, 0, node.scale.z, 0⟩,
          ⟨node.position.x, node.position.y, node.position.z, 1⟩⟩ := by
  simp only [localTransform, hrot, href, rotate_zero fns hcos hsin, mat4.mul_identity]
  simp [translate_eq, scale_eq, vec3.neg, mat4.mul_def, mat4.mul, mat4.mulCol, vec4.smul, vec4.add]

end ClosedForms

section Body

variable {F : Type} [Zero F] [One F] [Add F] [Sub F] [Mul F] [Neg F] [Div F]

/-- The positions of a triangle built by the loop body are the three indexed
vertices of the mesh, each extended by `w = 1`, multiplied by the model matrix of
the node and cut back to three components. -/
theorem gatherLoopBody_vertices (fns : FloatFns F) (node : SceneNode F) (mesh : Mesh F)
    (i : Nat) (tri : Triangle F) (h : gatherLoopBody fns node mesh i = some tri) :
    ∃ i0 i1 i2 p0 p1 p2,
      mesh.indices[i]? = some i0 ∧ mesh.indices[i + 1]? = some i1
        ∧ mesh.indices[i + 2]? = some i2
        ∧ mesh.vertices[i0]? = some p0 ∧ mesh.vertices[i1]? = some p1
        ∧ mesh.vertices[i2]? = some p2
        ∧ tri.v0 = (node.modelMatrix.mulVec (vec4.ofVec3 p0 1)).xyz
        ∧ tri.v1 = (node.modelMatrix.mulVec (vec4.ofVec3 p1 1)).xyz
        ∧ tri.v2 = (node.modelMatrix.mulVec (vec4.ofVec3 p2 1)).xyz
        ∧ tri.materialID = node.materialID := by
  simp only [gatherLoopBody, Nat.add_zero] at h
  cases h0 : mesh.indices[i]? with
  | none => simp [h0] at h
  | some i0 =>
  cases h1 : mesh.indices[i + 1]? with
  | none => simp [h0, h1] at h
  | some i1 =>
  cases h2 : mesh.indices[i + 2]? with
  | none => simp [h0, h1, h2] at h
  | some i2 =>
  simp only [h0, h1, h2] at h
  cases q0 : mesh.vertices[i0]? with
  | none => simp [q0] at h
  | some p0 =>
  cases q1 : mesh.vertices[i1]? with
  | none => simp [q0, q1] at h
  | some p1 =>
  cases q2 : mesh.vertices[i2]? with
  | none => simp [q0, q1, q2] at h
  | some p2 =>
  simp only [q0, q1, q2] at h
  refine ⟨i0, i1, i2, p0, p1, p2, rfl, rfl, rfl, q0, q1, q2, ?_⟩
  by_cases hn : mesh.normals.isEmpty = true
  · simp only [hn, Bool.not_true, Bool.false_eq_true, if_false, Option.some.injEq] at h
    subst h
    exact ⟨rfl, rfl, rfl, rfl⟩
  · have hn' : mesh.normals.isEmpty = false := by simpa using hn
    simp only [hn', Bool.not_false, if_true] at h
    cases r0 : mesh.normals[i0]? with
    | none => simp [r0] at h
    | some n0 =>
    cases r1 : mesh.normals[i1]? with
    | none => simp [r0, r1] at h
    | some n1 =>
    cases r2 : mesh.normals[i2]? with
    | none => simp [r0, r1, r2] at h
    | some n2 =>
    simp only [r0, r1, r2, Option.some.injEq] at h
    subst h
    exact ⟨rfl, rfl, rfl, rfl⟩

/-- The normals of a triangle built by the loop body for a mesh with normals are the
three indexed normals of the mesh, multiplied by the normal matrix of the node and
normalized. -/
theorem gatherLoopBody_normals (fns : FloatFns F) (node : SceneNode F) (mesh : Mesh F)
    (i : Nat) (tri : Triangle F) (h : gatherLoopBody fns node mesh i = some tri)
    (hn : mesh.normals.isEmpty = false) :
    ∃ i0 i1 i2 n0 n1 n2,
      mesh.indices[i]? = some i0 ∧ mesh.indices[i + 1]? = some i1
        ∧ mesh.indices[i + 2]? = some i2
        ∧ mesh.normals[i0]? = some n0 ∧ mesh.normals[i1]? = some n1
        ∧ mesh.normals[i2]? = some n2
        ∧ tri.n0 = glm.normalize fns (node.normalMatrix.mulVec n0)
        ∧ tri.n1 = glm.normalize fns (node.normalMatrix.mulVec n1)
        ∧ tri.n2 = glm.normalize fns (node.normalMatrix.mulVec n2) := by
  simp only [gatherLoopBody, Nat.add_zero, hn, Bool.not_false, if_true] at h
  cases h0 : mesh.indices[i]? with
  | none => simp [h0] at h
  | some i0 =>
  cases h1 : mesh.indices[i + 1]? with
  | none => simp [h0, h1] at h
  | some i1 =>
  cases h2 : mesh.indices[i + 2]? with
  | none => simp [h0, h1, h2] at h
  | some i2 =>
  simp only [h0, h1, h2] at h
  cases q0 : mesh.vertices[i0]? with
  | none => simp [q0] at h
  | some p0 =>
  cases q1 : mesh.vertices[i1]? with
  | none => simp [q0, q1] at h
  | some p1 =>
  cases q2 : mesh.vertices[i2]? with
  | none => simp [q0, q1, q2] at h
  | some p2 =>
  simp only [q0, q1, q2] at h
  cases r0 : mesh.normals[i0]? with
  | none => simp [r0] at h
  | some n0 =>
  cases r1 : mesh.normals[i1]? with
  | none => simp [r0, r1] at h
  | some n1 =>
  cases r2 : mesh.normals[i2]? with
  | none => simp [r0, r1, r2] at h
  | some n2 =>
  simp only [r0, r1, r2, Option.some.injEq] at h
  subst h
  exact ⟨i0, i1, i2, n0, n1, n2, rfl, rfl, rfl, r0, r1, r2, rfl, rfl, rfl⟩

theorem gatherLoop_step (fns : FloatFns F) (node : SceneNode F) (mesh : Mesh F)
    (i : Nat) (output : List (Triangle F)) (tri : Triangle F)
    (hi : i < mesh.indices.length) (hbody : gatherLoopBody fns node mesh i = some tri) :
    gatherLoop fns node mesh i output
      = gatherLoop fns node mesh (i + 3) (output ++ [tri]) := by
  rw [gatherLoop, if_pos hi, hbody]

theorem gatherLoop_done (fns : FloatFns F) (node : SceneNode F) (mesh : Mesh F)
    (i : Nat) (output : List (Triangle F)) (hi : ¬ i < mesh.indices.length) :
    gatherLoop fns node mesh i output = some output := by
  rw [gatherLoop, if_neg hi]

/-- The model matrix of a node after the pass is the product of the local
transforms on the way from the root to the node, starting from the matrix the pass
was entered with. -/
theorem nodeAt_modelMatrix (fns : FloatFns F) (root : SceneNode F) (T VP : mat4 F)
    (lights : List (LightSourceData F)) (path : List Nat) (n : SceneNode F)
    (h : nodeAt (updateNodeTransformations fns root T VP lights).1 path = some n) :
    n.modelMatrix = productFrom T (localsAlong fns root path) := by
  obtain ⟨n0, hn0, rfl⟩ := nodeAt_update_some fns root T VP lights path n h
  rw [update_modelMatrix, productFrom_dropLast fns root path T n0 hn0]

end Body

section DemoFacts

theorem Demo.fns_cos_zero : Demo.fns.cos 0 = 1 := by simp [Demo.fns]

theorem Demo.fns_sin_zero : Demo.fns.sin 0 = 0 := by simp [Demo.fns]

/-- The child of the demo scene after the pass. -/
theorem Demo.scene_child :
    nodeAt (rebuildFrame Demo.fns Demo.registry Demo.scene Demo.VP).1 [0]
      = some (updateNodeTransformations Demo.fns Demo.child
          (mat4.identity * localTransform Demo.fns Demo.scene) Demo.VP []).1 := rfl

/-- The model matrix of the child of the demo scene: the translation by (10,0,0). -/
theorem Demo.child_matrix_value :
    (updateNodeTransformations Demo.fns Demo.child
        (mat4.identity * localTransform Demo.fns Demo.scene) Demo.VP []).1.modelMatrix
      = ⟨⟨1, 0, 0, 0⟩, ⟨0, 1, 0, 0⟩, ⟨0, 0, 1, 0⟩, ⟨10, 0, 0, 1⟩⟩ := by
  rw [update_modelMatrix,
    localTransform_unrotated Demo.fns Demo.fns_cos_zero Demo.fns_sin_zero Demo.scene rfl rfl,
    localTransform_unrotated Demo.fns Demo.fns_cos_zero Demo.fns_sin_zero Demo.child rfl rfl,
    mat4.identity_mul]
  simp [Demo.scene, Demo.child, Demo.fresh, SceneNode.construct, mat4.mul_def, mat4.mul,
    mat4.mulCol, vec4.smul, vec4.add]

/-- The triangle the loop body builds for the child of the demo scene. -/
theorem Demo.child_body :
    gatherLoopBody Demo.fns (updateNodeTransformations Demo.fns Demo.child
        (mat4.identity * localTransform Demo.fns Demo.scene) Demo.VP []).1
        Demo.triangleMesh 0
      = some ⟨⟨10, 0, 0⟩, ⟨11, 0, 0⟩, ⟨10, 1, 0⟩, ⟨0, 0, 0⟩, ⟨0, 0, 0⟩, ⟨0, 0, 0⟩, 0⟩ := by
  simp only [gatherLoopBody, Demo.child_matrix_value]
  simp [Demo.triangleMesh, mat4.mulVec, vec4.ofVec3, vec4.smul, vec4.add, vec4.xyz,
    vec3.splat]
  exact ⟨by norm_num, rfl⟩

/-- The flattened triangles of the demo scene. -/
theorem Demo.scene_triangles :
    (rebuildFrame Demo.fns Demo.registry Demo.scene Demo.VP).2.2
      = some [⟨⟨10, 0, 0⟩, ⟨11, 0, 0⟩, ⟨10, 1, 0⟩, ⟨0, 0, 0⟩, ⟨0, 0, 0⟩, ⟨0, 0, 0⟩, 0⟩] := by
  simp only [rebuildFrame]
  rw [gatherTriangles_unfold, update_children]
  have hroot : ownTriangles Demo.fns Demo.registry
      (updateNodeTransformations Demo.fns Demo.scene mat4.identity Demo.VP []).1
        = some [] := rfl
  have hkids : Demo.scene.children = [Demo.child] := rfl
  rw [hroot, hkids]
  simp only [Option.map_some', List.append_nil, Option.some_bind, List.map_cons,
    List.map_nil, gatherChildren]
  rw [gatherTriangles_unfold]
  have hleaf : (updateNodeTransformations Demo.fns Demo.child
      (mat4.identity * localTransform Demo.fns Demo.scene) Demo.VP []).1.children
        = [] := rfl
  have hty : hasGeometryType (updateNodeTransformations Demo.fns Demo.child
      (mat4.identity * localTransform Demo.fns Demo.scene) Demo.VP []).1 = true := rfl
  have hmesh : Demo.registry (updateNodeTransformations Demo.fns Demo.child
      (mat4.identity * localTransform Demo.fns Demo.scene) Demo.VP []).1.vertexArrayObjectID
        = some Demo.triangleMesh := rfl
  rw [hleaf]
  simp only [ownTriangles, hty, hmesh, if_true]
  rw [gatherLoop_step _ _ _ _ _ _ (by decide) Demo.child_body,
    gatherLoop_done _ _ _ _ _ (by decide)]
  rfl

end DemoFacts

section DemoRegistry

theorem Demo.registry_three (handle : Int) (mesh : Mesh ℚ)
    (h : Demo.registry handle = some mesh) : mesh.indices.length % 3 = 0 := by
  simp only [Demo.registry] at h
  split_ifs at h <;> simp only [Option.some.injEq] at h <;> subst h <;> rfl

theorem Demo.registry_inRange (handle : Int) (mesh : Mesh ℚ)
    (h : Demo.registry handle = some mesh) : mesh.IndicesInRange := by
  simp only [Demo.registry] at h
  split_ifs at h <;> simp only [Option.some.injEq] at h <;> subst h <;>
    simp [Mesh.IndicesInRange, Demo.triangleMesh, Demo.normalMesh]

end DemoRegistry

section Shape

variable {F : Type} [Zero F] [One F] [Add F] [Sub F] [Mul F] [Neg F] [Div F]

theorem preorderList_map_congr {α : Type} (g : SceneNode F → α)
    (f : SceneNode F → SceneNode F) (children : List (SceneNode F))
    (h : ∀ c ∈ children, (preorder (f c)).map g = (preorder c).map g) :
    (preorderList (children.map f)).map g = (preorderList children).map g := by
  induction children with
  | nil => simp [preorderList]
  | cons child others ih =>
    simp only [List.map_cons, preorderList, List.map_append]
    rw [h child (List.mem_cons_self _ _), ih (fun c hc => h c (List.mem_cons_of_mem _ hc))]

/-- The pass keeps the shape of the tree, the node types and the light colors. -/
theorem preorder_update (fns : FloatFns F) (VP : mat4 F) (node : SceneNode F) :
    ∀ (T : mat4 F) (lights : List (LightSourceData F)),
      (preorder (updateNodeTransformations fns node T VP lights).1).map
          (fun n => (n.nodeType, n.lightColor))
        = (preorder node).map (fun n => (n.nodeType, n.lightColor)) := by
  induction node using SceneNode.induction with
  | step node ih =>
    intro T lights
    rw [preorder_unfold, preorder_unfold node, update_children]
    simp only [List.map_cons]
    rw [preorderList_map_congr _ _ node.children (fun c hc => ih c hc _ [])]
    rw [update_unfold]

end Shape

section NormalMatrix

variable {F : Type} [Field F]

theorem determinant_identity : determinant (mat3.identity : mat3 F) = 1 := by
  simp [determinant, mat3.identity]

theorem determinant_mul (a b : mat3 F) :
    determinant (a.mul b) = determinant a * determinant b := by
  simp only [determinant, mat3.mul, mat3.mulVec]
  ring

/-- A matrix with a left inverse has a determinant different from zero. -/
theorem determinant_ne_zero_of_left_inverse (c b : mat3 F)
    (h : c.mul b = mat3.identity) : determinant b ≠ 0 := by
  intro hzero
  have := determinant_mul c b
  rw [h, determinant_identity, hzero, mul_zero] at this
  exact one_ne_zero this

/-- The function `glm::inverse` returns a left inverse when the determinant is not
zero. -/
theorem inverse_mul_self (b : mat3 F) (h : determinant b ≠ 0) :
    (inverse b).mul b = mat3.identity := by
  obtain ⟨⟨a00, a01, a02⟩, ⟨a10, a11, a12⟩, ⟨a20, a21, a22⟩⟩ := b
  simp only [determinant] at h
  simp only [inverse, determinant, mat3.mul, mat3.mulVec, mat3.identity, mat3.mk.injEq,
    vec3.mk.injEq]
  refine ⟨⟨?_, ?_, ?_⟩, ⟨?_, ?_, ?_⟩, ⟨?_, ?_, ?_⟩⟩ <;> field_simp <;> ring

/-- The function `glm::inverse` returns a right inverse when the determinant is not
zero. -/
theorem self_mul_inverse (b : mat3 F) (h : determinant b ≠ 0) :
    b.mul (inverse b) = mat3.identity := by
  obtain ⟨⟨a00, a01, a02⟩, ⟨a10, a11, a12⟩, ⟨a20, a21, a22⟩⟩ := b
  simp only [determinant] at h
  simp only [inverse, determinant, mat3.mul, mat3.mulVec, mat3.identity, mat3.mk.injEq,
    vec3.mk.injEq]
  refine ⟨⟨?_, ?_, ?_⟩, ⟨?_, ?_, ?_⟩, ⟨?_, ?_, ?_⟩⟩ <;> field_simp <;> ring

theorem transpose_transpose (m : mat3 F) : transpose (transpose m) = m := rfl

/-- The inner product of `a.mulVec v` with `w` is that of `v` with the transpose of
`a` applied to `w`. -/
theorem dot_mulVec_left (a : mat3 F) (v w : vec3 F) :
    dot (a.mulVec v) w = dot v ((transpose a).mulVec w) := by
  simp only [dot, mat3.mulVec, transpose]
  ring

theorem mat3.mul3_mulVec (a b : mat3 F) (v : vec3 F) :
    (a.mul b).mulVec v = a.mulVec (b.mulVec v) := by
  simp only [mat3.mul, mat3.mulVec, vec3.mk.injEq]
  refine ⟨?_, ?_, ?_⟩ <;> ring

theorem mat3.identity_mulVec (v : vec3 F) : (mat3.identity : mat3 F).mulVec v = v := by
  simp [mat3.identity, mat3.mulVec]

/-- The inverse transpose keeps inner products with transformed vectors. -/
theorem dot_inverse_transpose (b : mat3 F) (h : determinant b ≠ 0) (v t : vec3 F) :
    dot ((transpose (inverse b)).mulVec v) (b.mulVec t) = dot v t := by
  rw [dot_mulVec_left, transpose_transpose, ← mat3.mul3_mulVec, inverse_mul_self b h,
    mat3.identity_mulVec]

end NormalMatrix

section DemoStretched

/-- The model matrix of the demo node with scale (2,1,1), propagated as a root. -/
theorem Demo.stretched_modelMatrix :
    (updateNodeTransformations Demo.fns Demo.stretched mat4.identity Demo.VP
        []).1.modelMatrix
      = ⟨⟨2, 0, 0, 0⟩, ⟨0, 1, 0, 0⟩, ⟨0, 0, 1, 0⟩, ⟨0, 0, 0, 1⟩⟩ := by
  rw [update_modelMatrix,
    localTransform_unrotated Demo.fns Demo.fns_cos_zero Demo.fns_sin_zero Demo.stretched
      rfl rfl,
    mat4.identity_mul]
  rfl

/-- The matrix diag(1/2, 1, 1) is a left inverse of the upper-left block of that
model matrix. -/
theorem Demo.stretched_left_inverse :
    (⟨⟨1 / 2, 0, 0⟩, ⟨0, 1, 0⟩, ⟨0, 0, 1⟩⟩ : mat3 ℚ).mul
        (mat3.ofMat4 (updateNodeTransformations Demo.fns Demo.stretched mat4.identity
          Demo.VP []).1.modelMatrix)
      = mat3.identity := by
  rw [Demo.stretched_modelMatrix]
  simp [mat3.mul, mat3.mulVec, mat3.ofMat4, vec4.xyz, mat3.identity]

end DemoStretched

section DemoSqrt

theorem Demo.fns_inversesqrt_sq (x : ℚ) (hx : 0 < x) :
    Demo.fns.inversesqrt (x * x) = 1 / x := by
  simp only [Demo.fns, Rat.mul_self_den, Rat.mul_self_num]
  have hnum : 0 < x.num := Rat.num_pos.2 hx
  obtain ⟨m, hm⟩ := Int.eq_ofNat_of_zero_le hnum.le
  rw [hm]
  have h1 : ((m : ℤ) * (m : ℤ)).toNat = m * m := by
    rw [← Int.natCast_mul, Int.toNat_natCast]
  rw [h1, Nat.sqrt_eq, Nat.sqrt_eq, one_div]
  have hx' : x = (x.num : ℚ) / (x.den : ℚ) := (Rat.num_div_den x).symm
  conv => rhs; rw [hx', hm]
  simp

/-- The upper-left block of the model matrix of the demo node with scale (2,1,1). -/
theorem Demo.stretched_block :
    mat3.ofMat4 (updateNodeTransformations Demo.fns Demo.stretched mat4.identity Demo.VP
        []).1.modelMatrix
      = ⟨⟨2, 0, 0⟩, ⟨0, 1, 0⟩, ⟨0, 0, 1⟩⟩ := by
  rw [Demo.stretched_modelMatrix]
  rfl

end DemoSqrt

section Axis
variable {F : Type} [LinearOrderedField F]

/-- The inverse transpose of a positive diagonal scale, followed by normalization,
maps each unit axis vector to itself. -/
theorem normalize_scaled_axis (fns : FloatFns F)
    (hsqrt : ∀ x : F, 0 < x → fns.inversesqrt (x * x) = 1 / x)
    (sx sy sz : F) (hx : 0 < sx) (hy : 0 < sy) (hz : 0 < sz) (a : vec3 F)
    (ha : IsUnitAxis a) :
    glm.normalize fns
        ((transpose (inverse ⟨⟨sx, 0, 0⟩, ⟨0, sy, 0⟩, ⟨0, 0, sz⟩⟩)).mulVec a) = a := by
  have ex := hsqrt (1 / sx) (by positivity)
  have ey := hsqrt (1 / sy) (by positivity)
  have ez := hsqrt (1 / sz) (by positivity)
  have nx : sx ≠ 0 := hx.ne'
  have ny : sy ≠ 0 := hy.ne'
  have nz : sz ≠ 0 := hz.ne'
  have hN : transpose (inverse (⟨⟨sx, 0, 0⟩, ⟨0, sy, 0⟩, ⟨0, 0, sz⟩⟩ : mat3 F))
      = ⟨⟨1 / sx, 0, 0⟩, ⟨0, 1 / sy, 0⟩, ⟨0, 0, 1 / sz⟩⟩ := by
    simp only [transpose, inverse, determinant, mat3.mk.injEq, vec3.mk.injEq]
    refine ⟨⟨?_, ?_, ?_⟩, ⟨?_, ?_, ?_⟩, ⟨?_, ?_, ?_⟩⟩ <;> field_simp <;> ring
  rw [hN]
  rcases ha with rfl | rfl | rfl | rfl | rfl | rfl
  all_goals
    simp only [glm.normalize, mat3.mulVec, dot, vec3.smul, mul_zero, zero_mul, mul_one,
      add_zero, zero_add, mul_neg, neg_mul, neg_neg, neg_zero, vec3.mk.injEq]
    first
    | rw [ex]
    | rw [ey]
    | rw [ez]
    simp only [one_div, inv_inv, and_self, and_true, true_and, neg_inj]
    field_simp
end Axis

section Pivot

variable {F : Type} [Field F]

/-- A translation moves the point `p` (with `w = 1`) by the translation vector. -/
theorem translate_mulVec_point (v p : vec3 F) :
    (glm.translate v).mulVec (vec4.ofVec3 p 1) = vec4.ofVec3 (vec3.add v p) 1 := by
  rw [translate_eq]
  simp only [mat4.mulVec, vec4.ofVec3, vec4.smul, vec4.add, vec3.add, vec4.mk.injEq]
  refine ⟨?_, ?_, ?_, ?_⟩ <;> ring

theorem translate_neg_mulVec_self (p : vec3 F) :
    (glm.translate p.neg).mulVec (vec4.ofVec3 p 1) = ⟨0, 0, 0, 1⟩ := by
  rw [translate_mulVec_point]
  simp [vec4.ofVec3, vec3.add, vec3.neg]

theorem translate_mulVec_origin (v : vec3 F) :
    (glm.translate v).mulVec ⟨0, 0, 0, 1⟩ = vec4.ofVec3 v 1 := by
  have := translate_mulVec_point v ⟨0, 0, 0⟩
  simpa [vec4.ofVec3, vec3.add] using this

/-- A scale keeps the origin. -/
theorem scale_mulVec_origin (v : vec3 F) :
    (glm.scale v).mulVec ⟨0, 0, 0, 1⟩ = ⟨0, 0, 0, 1⟩ := by
  rw [scale_eq]
  simp [mat4.mulVec, vec4.smul, vec4.add]

/-- A rotation keeps the origin, whatever the library functions return. -/
theorem rotate_mulVec_origin (fns : FloatFns F) (angle : F) (axis : vec3 F) :
    (glm.rotate fns angle axis).mulVec ⟨0, 0, 0, 1⟩ = ⟨0, 0, 0, 1⟩ := by
  simp [glm.rotate, rotateOn, mat4.identity, mat4.mulVec, vec4.smul, vec4.add]

/-- The rotations and the scale about the pivot `p` keep `p`. -/
theorem pivot_fixed (fns : FloatFns F) (p s : vec3 F) (ry rx rz : F) :
    (glm.translate p * glm.rotate fns ry ⟨0, 1, 0⟩ * glm.rotate fns rx ⟨1, 0, 0⟩
        * glm.rotate fns rz ⟨0, 0, 1⟩ * glm.scale s * glm.translate p.neg).mulVec
        (vec4.ofVec3 p 1)
      = vec4.ofVec3 p 1 := by
  simp only [mat4.mul_mulVec, translate_neg_mulVec_self, scale_mulVec_origin,
    rotate_mulVec_origin, translate_mulVec_origin]

end Pivot

section Order

variable {F : Type} [Zero F] [One F] [Add F] [Sub F] [Mul F] [Neg F] [Div F]

theorem gatherChildren_cons_of_some (fns : FloatFns F) (gMeshByVao : Int → Option (Mesh F))
    (child : SceneNode F) (others : List (SceneNode F)) (first rest : List (Triangle F))
    (hfirst : gatherTriangles fns gMeshByVao child [] = some first)
    (hrest : gatherChildren fns gMeshByVao others [] = some rest) :
    gatherChildren fns gMeshByVao (child :: others) [] = some (first ++ rest) := by
  simp only [gatherChildren, hfirst]
  rw [gatherChildren_prepend, hrest]
  rfl

/-- The loop over the children returns the outputs of the children, one after the
other in child-list order. -/
theorem gatherChildren_flatten (fns : FloatFns F) (gMeshByVao : Int → Option (Mesh F))
    (children : List (SceneNode F)) (out : List (Triangle F)) :
    gatherChildren fns gMeshByVao children [] = some out
      ↔ ∃ outs, List.Forall₂ (fun c o => gatherTriangles fns gMeshByVao c [] = some o)
          children outs ∧ out = outs.flatten := by
  induction children generalizing out with
  | nil =>
    simp only [gatherChildren, Option.some.injEq, List.forall₂_nil_left_iff]
    constructor
    · intro h
      exact ⟨[], rfl, by simp [← h]⟩
    · rintro ⟨outs, rfl, rfl⟩
      rfl
  | cons child others ih =>
    constructor
    · intro h
      obtain ⟨first, rest, hfirst, hrest, rfl⟩ :=
        gatherChildren_cons_some fns gMeshByVao child others out h
      obtain ⟨outs, houts, rfl⟩ := (ih rest).1 hrest
      exact ⟨first :: outs, List.Forall₂.cons hfirst houts, by simp⟩
    · rintro ⟨outs, houts, rfl⟩
      cases houts with
      | cons hfirst hrest =>
        rename_i first outs
        have := (ih outs.flatten).2 ⟨outs, hrest, rfl⟩
        simpa using gatherChildren_cons_of_some fns gMeshByVao child others first _ hfirst this

/-- A node that pushes no triangle of its own passes `output` on to its children. -/
theorem gatherTriangles_of_own_nil (fns : FloatFns F) (gMeshByVao : Int → Option (Mesh F))
    (node : SceneNode F) (hown : ownTriangles fns gMeshByVao node = some [])
    (output : List (Triangle F)) :
    gatherTriangles fns gMeshByVao node output
      = gatherChildren fns gMeshByVao node.children output := by
  rw [gatherTriangles_unfold, hown]
  simp

theorem preorderList_flatten (fns : FloatFns F) (gMeshByVao : Int → Option (Mesh F))
    (children : List (SceneNode F))
    (h : ∀ c ∈ children, ∀ out, gatherTriangles fns gMeshByVao c [] = some out →
      ∃ owns, List.Forall₂ (fun n o => ownTriangles fns gMeshByVao n = some o)
        (preorder c) owns ∧ out = owns.flatten)
    (outs : List (List (Triangle F)))
    (houts : List.Forall₂ (fun c o => gatherTriangles fns gMeshByVao c [] = some o)
      children outs) :
    ∃ owns, List.Forall₂ (fun n o => ownTriangles fns gMeshByVao n = some o)
      (preorderList children) owns ∧ outs.flatten = owns.flatten := by
  induction houts with
  | nil => exact ⟨[], by simp [preorderList], rfl⟩
  | @cons child first others outs hfirst _ ih =>
    obtain ⟨owns1, h1, e1⟩ := h child (List.mem_cons_self _ _) first hfirst
    obtain ⟨owns2, h2, e2⟩ := ih (fun c hc => h c (List.mem_cons_of_mem _ hc))
    refine ⟨owns1 ++ owns2, ?_, ?_⟩
    · simp only [preorderList]
      exact List.rel_append h1 h2
    · simp [e1, e2]

/-- The output of a successful pass is the triangles of the nodes themselves, node
after node in pre-order. -/
theorem gatherTriangles_preorder (fns : FloatFns F) (gMeshByVao : Int → Option (Mesh F))
    (node : SceneNode F) :
    ∀ out, gatherTriangles fns gMeshByVao node [] = some out →
      ∃ owns, List.Forall₂ (fun n o => ownTriangles fns gMeshByVao n = some o)
        (preorder node) owns ∧ out = owns.flatten := by
  induction node using SceneNode.induction with
  | step node ih =>
    intro out h
    obtain ⟨own, below, hown, hbelow, rfl⟩ := gatherTriangles_some fns gMeshByVao _ out h
    obtain ⟨outs, houts, rfl⟩ := (gatherChildren_flatten fns gMeshByVao _ below).1 hbelow
    obtain ⟨owns, howns, e⟩ := preorderList_flatten fns gMeshByVao node.children ih outs houts
    refine ⟨own :: owns, ?_, by simp [e]⟩
    rw [preorder_unfold]
    exact List.Forall₂.cons hown howns

/-- The normals of a triangle built by the loop body for a mesh without normals are
zero vectors. -/
theorem gatherLoopBody_no_normals (fns : FloatFns F) (node : SceneNode F) (mesh : Mesh F)
    (i : Nat) (tri : Triangle F) (h : gatherLoopBody fns node mesh i = some tri)
    (hn : mesh.normals.isEmpty = true) :
    tri.n0 = ⟨0, 0, 0⟩ ∧ tri.n1 = ⟨0, 0, 0⟩ ∧ tri.n2 = ⟨0, 0, 0⟩ := by
  simp only [gatherLoopBody, Nat.add_zero, hn, Bool.not_true, Bool.false_eq_true,
    if_false] at h
  cases h0 : mesh.indices[i]? with
  | none => simp [h0] at h
  | some i0 =>
  cases h1 : mesh.indices[i + 1]? with
  | none => simp [h0, h1] at h
  | some i1 =>
  cases h2 : mesh.indices[i + 2]? with
  | none => simp [h0, h1, h2] at h
  | some i2 =>
  simp only [h0, h1, h2] at h
  cases q0 : mesh.vertices[i0]? with
  | none => simp [q0] at h
  | some p0 =>
  cases q1 : mesh.vertices[i1]? with
  | none => simp [q0, q1] at h
  | some p1 =>
  cases q2 : mesh.vertices[i2]? with
  | none => simp [q0, q1, q2] at h
  | some p2 =>
  simp only [q0, q1, q2, Option.some.injEq] at h
  subst h
  exact ⟨rfl, rfl, rfl⟩

/-- The triangles of a node with a geometry type and a registered mesh are what the
loop pushes for that mesh; the `k`-th is built at index position `3 * k`. -/
theorem ownTriangles_getElem (fns : FloatFns F) (gMeshByVao : Int → Option (Mesh F))
    (node : SceneNode F) (mesh : Mesh F) (own : List (Triangle F))
    (hty : hasGeometryType node = true)
    (hmesh : gMeshByVao node.vertexArrayObjectID = some mesh)
    (hown : ownTriangles fns gMeshByVao node = some own) (k : Nat) (tri : Triangle F)
    (hk : own[k]? = some tri) :
    gatherLoopBody fns node mesh (3 * k) = some tri := by
  have hloop : gatherLoop fns node mesh 0 [] = some own := by
    simpa only [ownTriangles, hty, hmesh, if_true] using hown
  have hlt : k < own.length := by
    rcases Nat.lt_or_ge k own.length with h | h
    · exact h
    · rw [List.getElem?_eq_none h] at hk
      cases hk
  have hbody := (gatherLoop_some fns node mesh 0 own hloop).2 k hlt
  rw [hk, Nat.zero_add] at hbody
  exact hbody

end Order

section DemoOwn

/-- The triangles of the child of the demo scene after the pass. -/
theorem Demo.child_own :
    ownTriangles Demo.fns Demo.registry (updateNodeTransformations Demo.fns Demo.child
        (mat4.identity * localTransform Demo.fns Demo.scene) Demo.VP []).1
      = some [⟨⟨10, 0, 0⟩, ⟨11, 0, 0⟩, ⟨10, 1, 0⟩, ⟨0, 0, 0⟩, ⟨0, 0, 0⟩, ⟨0, 0, 0⟩, 0⟩] := by
  have hty : hasGeometryType (updateNodeTransformations Demo.fns Demo.child
      (mat4.identity * localTransform Demo.fns Demo.scene) Demo.VP []).1 = true := rfl
  have hmesh : Demo.registry (updateNodeTransformations Demo.fns Demo.child
      (mat4.identity * localTransform Demo.fns Demo.scene) Demo.VP []).1.vertexArrayObjectID
        = some Demo.triangleMesh := rfl
  simp only [ownTriangles, hty, hmesh, if_true]
  rw [gatherLoop_step _ _ _ _ _ _ (by decide) Demo.child_body,
    gatherLoop_done _ _ _ _ _ (by decide)]
  rfl

end DemoOwn

section Stride

variable {F : Type} [Zero F] [One F] [Add F] [Sub F] [Mul F] [Neg F] [Div F]

/-- The loop body needs the three index positions `i`, `i + 1`, `i + 2` to exist. -/
theorem gatherLoopBody_some_lt (fns : FloatFns F) (node : SceneNode F) (mesh : Mesh F)
    (i : Nat) (tri : Triangle F) (h : gatherLoopBody fns node mesh i = some tri) :
    i + 2 < mesh.indices.length := by
  obtain ⟨i0, i1, i2, p0, p1, p2, _, _, h2, _⟩ := gatherLoopBody_vertices fns node mesh i tri h
  exact (List.getElem?_eq_some.1 h2).1

/-- In the embedding, where a read past the end leaves the loop without a value, a
loop with a value ran over an index list whose length is a multiple of 3. -/
theorem gatherLoop_some_three (fns : FloatFns F) (node : SceneNode F) (mesh : Mesh F)
    (own : List (Triangle F)) (h : gatherLoop fns node mesh 0 [] = some own) :
    mesh.indices.length % 3 = 0 ∧ own.length = mesh.indices.length / 3 := by
  obtain ⟨hlen, hget⟩ := gatherLoop_some fns node mesh 0 own h
  simp only [Nat.sub_zero, Nat.zero_add] at hlen hget
  by_cases hthree : mesh.indices.length % 3 = 0
  · exact ⟨hthree, by omega⟩
  · exfalso
    have hk : mesh.indices.length / 3 < own.length := by omega
    have hbody := hget _ hk
    rw [List.getElem?_eq_getElem hk] at hbody
    have := gatherLoopBody_some_lt fns node mesh _ _ hbody
    omega

/-- On an index list whose length is not a multiple of 3 the loop reads past the end
of the list: the embedded loop has no value (the C++ read is undefined behaviour). -/
theorem gatherLoop_none_of_remainder (fns : FloatFns F) (node : SceneNode F)
    (mesh : Mesh F) (hthree : mesh.indices.length % 3 ≠ 0) (output : List (Triangle F)) :
    gatherLoop fns node mesh 0 output = none := by
  rw [gatherLoop_prepend]
  cases h : gatherLoop fns node mesh 0 [] with
  | none => rfl
  | some own => exact absurd (gatherLoop_some_three fns node mesh own h).1 hthree

/-- The loop is the body run at the rounds of the loop header, in their order, each
round pushing its triangle. -/
theorem gatherLoop_eq_rounds (fns : FloatFns F) (node : SceneNode F) (mesh : Mesh F) :
    ∀ (k i : Nat) (output : List (Triangle F)), mesh.indices.length - i = k →
      gatherLoop fns node mesh i output
        = (gatherLoopRounds mesh.indices.length i).foldlM
            (fun out round =>
              (gatherLoopBody fns node mesh round).map (fun tri => out ++ [tri]))
            output := by
  intro k
  induction k using Nat.strong_induction_on with
  | _ k ih =>
    intro i output hk
    rw [gatherLoop, gatherLoopRounds]
    by_cases hi : i < mesh.indices.length
    · rw [if_pos hi, if_pos hi, List.foldlM_cons]
      cases hbody : gatherLoopBody fns node mesh i with
      | none => rfl
      | some tri =>
        simp only [Option.map_some', Option.bind_eq_bind, Option.some_bind]
        exact ih (mesh.indices.length - (i + 3)) (by omega) (i + 3) _ rfl
    · rw [if_neg hi, if_neg hi]
      rfl

/-- The rounds of the loop header from `i` on are `i`, `i + 3`, `i + 6`, ... below
the size: one for every started group of three. -/
theorem gatherLoopRounds_eq (size : Nat) :
    ∀ (n i : Nat), (size - i + 2) / 3 = n →
      gatherLoopRounds size i = (List.range n).map (fun k => i + 3 * k) := by
  intro n
  induction n with
  | zero =>
    intro i hn
    rw [gatherLoopRounds, if_neg (by omega)]
    rfl
  | succ n ih =>
    intro i hn
    rw [gatherLoopRounds, if_pos (by omega), ih (i + 3) (by omega), List.range_succ_eq_map,
      List.map_cons, List.map_map]
    refine congrArg₂ List.cons rfl (List.map_congr_left (fun k _ => ?_))
    simp only [Function.comp_apply]
    omega

end Stride

section DemoOdd

/-- The first triangle of the demo mesh with four indices. -/
theorem Demo.oddMesh_body :
    gatherLoopBody Demo.fns Demo.oddNode Demo.oddMesh 0
      = some ⟨⟨0, 0, 0⟩, ⟨1, 0, 0⟩, ⟨0, 1, 0⟩, ⟨0, 0, 0⟩, ⟨0, 0, 0⟩, ⟨0, 0, 0⟩, 0⟩ := by
  have hm : Demo.oddNode.modelMatrix = mat4.identity := rfl
  simp only [gatherLoopBody, hm]
  simp [Demo.oddMesh, mat4.identity, mat4.mulVec, vec4.ofVec3, vec4.smul, vec4.add,
    vec4.xyz, vec3.splat]
  rfl

/-- The second round of the loop on that mesh: the read of position 4 fails. -/
theorem Demo.oddMesh_second :
    gatherLoopBody Demo.fns Demo.oddNode Demo.oddMesh 3 = none := by
  simp [gatherLoopBody, Demo.oddMesh]

end DemoOdd

section Erase

variable {F : Type} [Zero F] [One F] [Add F] [Sub F] [Mul F] [Neg F] [Div F]

/-- A list with an element at position `i` splits around that element; erasing or
replacing the element acts on the middle. -/
theorem list_split_at {α : Type} (l : List α) (i : Nat) (t : α) (h : l[i]? = some t) :
    ∃ pre post, l = pre ++ t :: post ∧ pre.length = i ∧ l.eraseIdx i = pre ++ post
      ∧ ∀ a, l.set i a = pre ++ a :: post := by
  obtain ⟨hlt, hget⟩ := List.getElem?_eq_some.1 h
  refine ⟨l.take i, l.drop (i + 1), ?_, ?_, ?_, ?_⟩
  · rw [← hget, List.getElem_cons_drop, List.take_append_drop]
  · simp [List.length_take, Nat.min_eq_left hlt.le]
  · exact List.eraseIdx_eq_take_drop_succ l i
  · intro a
    exact List.set_eq_take_cons_drop a hlt

theorem eraseChildAt_nil (node : SceneNode F) (i : Nat) :
    eraseChildAt node [] i = { node with children := node.children.eraseIdx i } := rfl

theorem eraseChildAt_cons_some (node child : SceneNode F) (j : Nat) (rest : List Nat)
    (i : Nat) (h : node.children[j]? = some child) :
    eraseChildAt node (j :: rest) i
      = { node with children := node.children.set j (eraseChildAt child rest i) } := by
  simp only [eraseChildAt, h]

theorem map_eraseIdx_eq {α β : Type} (f : α → β) (l : List α) (i : Nat) :
    (l.eraseIdx i).map f = (l.map f).eraseIdx i := by
  induction l generalizing i with
  | nil => rfl
  | cons a l ih =>
    cases i with
    | zero => rfl
    | succ i => simp [ih]

/-- The pass with other children: only the child list of the result differs. -/
theorem update_with_children (fns : FloatFns F) (node : SceneNode F)
    (children : List (SceneNode F)) (T VP : mat4 F) (lights : List (LightSourceData F)) :
    (updateNodeTransformations fns { node with children := children } T VP lights).1
      = { (updateNodeTransformations fns node T VP lights).1 with
          children := children.map (fun c =>
            (updateNodeTransformations fns c (T * localTransform fns node) VP []).1) } := by
  have hloc : localTransform fns { node with children := children }
      = localTransform fns node := localTransform_congr fns _ _ rfl rfl rfl rfl
  rw [update_unfold, update_unfold fns node]
  simp only [hloc, updateChildren_fst_map]

/-- Erasing a child and propagating is propagating and erasing the child. -/
theorem update_eraseChildAt (fns : FloatFns F) (VP : mat4 F) (path : List Nat) (i : Nat) :
    ∀ (node : SceneNode F) (T : mat4 F) (lights : List (LightSourceData F)),
      (updateNodeTransformations fns (eraseChildAt node path i) T VP lights).1
        = eraseChildAt (updateNodeTransformations fns node T VP lights).1 path i := by
  induction path with
  | nil =>
    intro node T lights
    rw [eraseChildAt_nil, eraseChildAt_nil, update_with_children, map_eraseIdx_eq,
      ← update_children fns node T VP lights]
  | cons j rest ih =>
    intro node T lights
    cases hc : node.children[j]? with
    | none =>
      have hnone : (updateNodeTransformations fns node T VP lights).1.children[j]? = none := by
        rw [update_children, List.getElem?_map, hc]
        rfl
      simp only [eraseChildAt, hc, hnone]
    | some child =>
      have hsome : (updateNodeTransformations fns node T VP lights).1.children[j]?
          = some (updateNodeTransformations fns child (T * localTransform fns node) VP
              []).1 := by
        rw [update_children, List.getElem?_map, hc]
        rfl
      rw [eraseChildAt_cons_some node child j rest i hc,
        eraseChildAt_cons_some _ _ j rest i hsome, update_with_children, List.map_set, ih,
        ← update_children fns node T VP lights]

theorem gatherLoopBody_congr (fns : FloatFns F) (a b : SceneNode F) (mesh : Mesh F)
    (i : Nat) (hm : a.modelMatrix = b.modelMatrix) (hn : a.normalMatrix = b.normalMatrix)
    (hid : a.materialID = b.materialID) :
    gatherLoopBody fns a mesh i = gatherLoopBody fns b mesh i := by
  simp only [gatherLoopBody, hm, hn, hid]

theorem gatherLoop_congr (fns : FloatFns F) (a b : SceneNode F) (mesh : Mesh F)
    (hm : a.modelMatrix = b.modelMatrix) (hn : a.normalMatrix = b.normalMatrix)
    (hid : a.materialID = b.materialID) (i : Nat) (output : List (Triangle F)) :
    gatherLoop fns a mesh i output = gatherLoop fns b mesh i output := by
  refine gatherLoop.induct fns a mesh
    (motive := fun i output => gatherLoop fns a mesh i output
      = gatherLoop fns b mesh i output) ?_ ?_ ?_ i output
  · intro i output hi tri hbody ih
    have hb : gatherLoopBody fns b mesh i = some tri := by
      rw [← gatherLoopBody_congr fns a b mesh i hm hn hid]
      exact hbody
    rw [gatherLoop_step fns a mesh i output tri hi hbody,
      gatherLoop_step fns b mesh i output tri hi hb]
    exact ih
  · intro i output hi hbody
    have hb : gatherLoopBody fns b mesh i = none := by
      rw [← gatherLoopBody_congr fns a b mesh i hm hn hid]
      exact hbody
    rw [gatherLoop, if_pos hi, hbody]
    conv => rhs; rw [gatherLoop, if_pos hi, hb]
  · intro i output hi
    rw [gatherLoop_done fns a mesh i output hi, gatherLoop_done fns b mesh i output hi]

/-- The triangles of a node itself do not depend on its child list. -/
theorem ownTriangles_with_children (fns : FloatFns F) (gMeshByVao : Int → Option (Mesh F))
    (node : SceneNode F) (children : List (SceneNode F)) :
    ownTriangles fns gMeshByVao { node with children := children }
      = ownTriangles fns gMeshByVao node := by
  have hty : hasGeometryType { node with children := children } = hasGeometryType node :=
    rfl
  simp only [ownTriangles, hty]
  split
  · cases gMeshByVao node.vertexArrayObjectID with
    | none => rfl
    | some mesh =>
      exact gatherLoop_congr fns { node with children := children } node mesh rfl rfl rfl
        0 []
  · rfl

/-- The pass over a node, split in the part of the node and the part of the
children. -/
theorem gatherTriangles_some_iff (fns : FloatFns F) (gMeshByVao : Int → Option (Mesh F))
    (node : SceneNode F) (out : List (Triangle F)) :
    gatherTriangles fns gMeshByVao node [] = some out
      ↔ ∃ own below, ownTriangles fns gMeshByVao node = some own
          ∧ gatherChildren fns gMeshByVao node.children [] = some below
          ∧ out = own ++ below := by
  constructor
  · exact gatherTriangles_some fns gMeshByVao node out
  · rintro ⟨own, below, hown, hbelow, rfl⟩
    rw [gatherTriangles_unfold, hown]
    simp only [Option.map_some', List.nil_append, Option.some_bind]
    rw [gatherChildren_prepend, hbelow]
    rfl

/-- The loop over a child list that is split around one child. -/
theorem gatherChildren_split (fns : FloatFns F) (gMeshByVao : Int → Option (Mesh F))
    (pre post : List (SceneNode F)) (x : SceneNode F) (out : List (Triangle F)) :
    gatherChildren fns gMeshByVao (pre ++ x :: post) [] = some out
      ↔ ∃ a o c, gatherChildren fns gMeshByVao pre [] = some a
          ∧ gatherTriangles fns gMeshByVao x [] = some o
          ∧ gatherChildren fns gMeshByVao post [] = some c ∧ out = a ++ o ++ c := by
  induction pre generalizing out with
  | nil =>
    simp only [List.nil_append]
    constructor
    · intro h
      obtain ⟨o, c, ho, hc, rfl⟩ := gatherChildren_cons_some fns gMeshByVao x post out h
      exact ⟨[], o, c, by simp [gatherChildren], ho, hc, by simp⟩
    · rintro ⟨a, o, c, ha, ho, hc, rfl⟩
      simp only [gatherChildren, Option.some.injEq] at ha
      subst ha
      simpa using gatherChildren_cons_of_some fns gMeshByVao x post o c ho hc
  | cons y pre ih =>
    simp only [List.cons_append]
    constructor
    · intro h
      obtain ⟨f, r, hf, hr, rfl⟩ := gatherChildren_cons_some fns gMeshByVao y _ out h
      obtain ⟨a, o, c, ha, ho, hc, rfl⟩ := (ih r).1 hr
      exact ⟨f ++ a, o, c, gatherChildren_cons_of_some fns gMeshByVao y pre f a hf ha, ho, hc,
        by simp⟩
    · rintro ⟨a, o, c, ha, ho, hc, rfl⟩
      obtain ⟨f, r, hf, hr, rfl⟩ := gatherChildren_cons_some fns gMeshByVao y pre a ha
      have := (ih (r ++ o ++ c)).2 ⟨r, o, c, hr, ho, hc, rfl⟩
      simpa using gatherChildren_cons_of_some fns gMeshByVao y _ f _ hf this

/-- The loop over a child list without the child in the middle. -/
theorem gatherChildren_append (fns : FloatFns F) (gMeshByVao : Int → Option (Mesh F))
    (pre post : List (SceneNode F)) (a c : List (Triangle F))
    (ha : gatherChildren fns gMeshByVao pre [] = some a)
    (hc : gatherChildren fns gMeshByVao post [] = some c) :
    gatherChildren fns gMeshByVao (pre ++ post) [] = some (a ++ c) := by
  induction pre generalizing a with
  | nil =>
    simp only [gatherChildren, Option.some.injEq] at ha
    subst ha
    simpa using hc
  | cons y pre ih =>
    obtain ⟨f, r, hf, hr, rfl⟩ := gatherChildren_cons_some fns gMeshByVao y pre a ha
    simpa using gatherChildren_cons_of_some fns gMeshByVao y _ f _ hf (ih r hr)

/-- Erasing a child removes from the output of the pass exactly the contiguous part
that the subtree of the child contributed. -/
theorem gatherTriangles_eraseChildAt (fns : FloatFns F)
    (gMeshByVao : Int → Option (Mesh F)) (path : List Nat) (i : Nat) :
    ∀ (node parent t : SceneNode F) (out : List (Triangle F)),
      gatherTriangles fns gMeshByVao node [] = some out →
      nodeAt node path = some parent → parent.children[i]? = some t →
      ∃ A S B, out = A ++ S ++ B ∧ gatherTriangles fns gMeshByVao t [] = some S
        ∧ gatherTriangles fns gMeshByVao (eraseChildAt node path i) [] = some (A ++ B) := by
  induction path with
  | nil =>
    intro node parent t out hout hparent ht
    simp only [nodeAt, Option.some.injEq] at hparent
    subst hparent
    obtain ⟨own, below, hown, hbelow, rfl⟩ := gatherTriangles_some fns gMeshByVao _ out hout
    obtain ⟨pre, post, hsplit, _, herase, _⟩ := list_split_at node.children i t ht
    rw [hsplit] at hbelow
    obtain ⟨a, S, c, ha, hS, hc, rfl⟩ := (gatherChildren_split fns gMeshByVao pre post t _).1
      hbelow
    refine ⟨own ++ a, S, c, by simp, hS, ?_⟩
    rw [eraseChildAt_nil, gatherTriangles_some_iff]
    refine ⟨own, a ++ c, ?_, ?_, by simp⟩
    · rw [ownTriangles_with_children]
      exact hown
    · show gatherChildren fns gMeshByVao (node.children.eraseIdx i) [] = some (a ++ c)
      rw [herase]
      exact gatherChildren_append fns gMeshByVao pre post a c ha hc
  | cons j rest ih =>
    intro node parent t out hout hparent ht
    simp only [nodeAt] at hparent
    cases hchild : node.children[j]? with
    | none => simp [hchild] at hparent
    | some child =>
      simp only [hchild] at hparent
      obtain ⟨own, below, hown, hbelow, rfl⟩ := gatherTriangles_some fns gMeshByVao _ out hout
      obtain ⟨pre, post, hsplit, _, _, hset⟩ := list_split_at node.children j child hchild
      rw [hsplit] at hbelow
      obtain ⟨a, o, c, ha, ho, hc, rfl⟩ :=
        (gatherChildren_split fns gMeshByVao pre post child _).1 hbelow
      obtain ⟨A, S, B, rfl, hS, hnew⟩ := ih child parent t o ho hparent ht
      refine ⟨own ++ a ++ A, S, B ++ c, by simp, hS, ?_⟩
      rw [eraseChildAt_cons_some node child j rest i hchild, gatherTriangles_some_iff]
      refine ⟨own, a ++ (A ++ B) ++ c, ?_, ?_, by simp⟩
      · rw [ownTriangles_with_children]
        exact hown
      · show gatherChildren fns gMeshByVao
          (node.children.set j (eraseChildAt child rest i)) [] = some (a ++ (A ++ B) ++ c)
        rw [hset]
        exact (gatherChildren_split fns gMeshByVao pre post _ _).2
          ⟨a, A ++ B, c, ha, hnew, hc, rfl⟩

theorem preorderList_lights (children : List (SceneNode F)) :
    ((preorderList children).filter
        (fun n => decide (n.nodeType = SceneNodeType.POINT_LIGHT))).map lightEntry
      = (children.map lightsOf).flatten := by
  induction children with
  | nil => simp [preorderList]
  | cons child others ih =>
    simp only [preorderList, List.filter_append, List.map_append, List.map_cons,
      List.flatten_cons, ih]
    rfl

/-- The light entries of a tree: that of the node when it is a point light, then
those of its children in child-list order. -/
theorem lightsOf_unfold (node : SceneNode F) :
    lightsOf node
      = (if node.nodeType = SceneNodeType.POINT_LIGHT then [lightEntry node] else [])
        ++ (node.children.map lightsOf).flatten := by
  simp only [lightsOf]
  rw [preorder_unfold]
  simp only [← preorderList_lights, List.filter_cons]
  by_cases hty : node.nodeType = SceneNodeType.POINT_LIGHT
  · simp [hty]
  · simp [hty]

theorem lightsOf_with_children (node : SceneNode F) (children : List (SceneNode F)) :
    lightsOf { node with children := children }
      = (if node.nodeType = SceneNodeType.POINT_LIGHT then [lightEntry node] else [])
        ++ (children.map lightsOf).flatten := by
  rw [lightsOf_unfold]
  rfl

/-- Erasing a child removes from the light entries of the tree exactly the
contiguous part that the subtree of the child contributed. -/
theorem lightsOf_eraseChildAt (path : List Nat) (i : Nat) :
    ∀ (node parent t : SceneNode F),
      nodeAt node path = some parent → parent.children[i]? = some t →
      ∃ LA LB, lightsOf node = LA ++ lightsOf t ++ LB
        ∧ lightsOf (eraseChildAt node path i) = LA ++ LB := by
  induction path with
  | nil =>
    intro node parent t hparent ht
    simp only [nodeAt, Option.some.injEq] at hparent
    subst hparent
    obtain ⟨pre, post, hsplit, _, herase, _⟩ := list_split_at node.children i t ht
    refine ⟨(if node.nodeType = SceneNodeType.POINT_LIGHT then [lightEntry node] else [])
      ++ (pre.map lightsOf).flatten, (post.map lightsOf).flatten, ?_, ?_⟩
    · rw [lightsOf_unfold, hsplit]
      simp
    · rw [eraseChildAt_nil, lightsOf_with_children, herase]
      simp
  | cons j rest ih =>
    intro node parent t hparent ht
    simp only [nodeAt] at hparent
    cases hchild : node.children[j]? with
    | none => simp [hchild] at hparent
    | some child =>
      simp only [hchild] at hparent
      obtain ⟨pre, post, hsplit, _, _, hset⟩ := list_split_at node.children j child hchild
      obtain ⟨LA, LB, hold, hnew⟩ := ih child parent t hparent ht
      refine ⟨(if node.nodeType = SceneNodeType.POINT_LIGHT then [lightEntry node] else [])
        ++ (pre.map lightsOf).flatten ++ LA, LB ++ (post.map lightsOf).flatten, ?_, ?_⟩
      · rw [lightsOf_unfold, hsplit]
        simp [hold]
      · rw [eraseChildAt_cons_some node child j rest i hchild, lightsOf_with_children, hset]
        simp [hnew]

/-- The light list after a frame is the list of the light entries of the tree the
frame leaves. -/
theorem rebuildFrame_lights (fns : FloatFns F) (gMeshByVao : Int → Option (Mesh F))
    (rootNode : SceneNode F) (VP : mat4 F) :
    (rebuildFrame fns gMeshByVao rootNode VP).2.1
      = lightsOf (rebuildFrame fns gMeshByVao rootNode VP).1 := by
  simp only [rebuildFrame, lightsOf]
  rw [update_lights]
  rfl

end Erase

section Degenerate

variable {F : Type} [Zero F] [One F] [Add F] [Sub F] [Mul F] [Neg F] [Div F]

/-- The function `glm::inverse` multiplies the cofactors by `1 / determinant`. -/
theorem inverse_eq_cofactorsTimes (m : mat3 F) :
    inverse m = cofactorsTimes m (1 / determinant m) := rfl

end Degenerate

section DemoFlat

/-- The model matrix of the demo node with scale (0,1,1), propagated as a root. -/
theorem Demo.flat_modelMatrix :
    (updateNodeTransformations Demo.fns Demo.flat mat4.identity Demo.VP []).1.modelMatrix
      = ⟨⟨0, 0, 0, 0⟩, ⟨0, 1, 0, 0⟩, ⟨0, 0, 1, 0⟩, ⟨0, 0, 0, 1⟩⟩ := by
  rw [update_modelMatrix,
    localTransform_unrotated Demo.fns Demo.fns_cos_zero Demo.fns_sin_zero Demo.flat rfl rfl,
    mat4.identity_mul]
  rfl

/-- The upper-left block of that model matrix has the determinant zero. -/
theorem Demo.flat_determinant :
    determinant (mat3.ofMat4 (updateNodeTransformations Demo.fns Demo.flat mat4.identity
      Demo.VP []).1.modelMatrix) = 0 := by
  rw [Demo.flat_modelMatrix]
  simp [determinant, mat3.ofMat4, vec4.xyz]

/-- The middle entry of the normal matrix stored for that node is 0. -/
theorem Demo.flat_normalMatrix_entry :
    (updateNodeTransformations Demo.fns Demo.flat mat4.identity Demo.VP
      []).1.normalMatrix.c1.y = 0 := by
  have h : (updateNodeTransformations Demo.fns Demo.flat mat4.identity Demo.VP
      []).1.normalMatrix
      = transpose (inverse (mat3.ofMat4 (updateNodeTransformations Demo.fns Demo.flat
          mat4.identity Demo.VP []).1.modelMatrix)) := by
    rw [update_normalMatrix, update_modelMatrix]
  rw [h, Demo.flat_modelMatrix]
  simp [transpose, inverse, mat3.ofMat4, vec4.xyz]

end DemoFlat
section Claims

variable {F : Type} [Field F]

/-- C1: after `updateNodeTransformations(root, identity, VP)` the model matrix of
the root is its own local transform, and the model matrix of every other node is
the model matrix of its parent times its own local transform.  The local transform
is the product `translate(position) * translate(referencePoint) * rotateY * rotateX
* rotateZ * scale(scale) * translate(-referencePoint)` in this order, taken of the
fields of the node, which the pass leaves as they were. -/
theorem modelMatrix_is_parent_times_local (fns : FloatFns F) (root : SceneNode F)
    (VP : mat4 F) (lights : List (LightSourceData F)) :
    (updateNodeTransformations fns root mat4.identity VP lights).1.modelMatrix
        = localTransform fns (updateNodeTransformations fns root mat4.identity VP lights).1
      ∧ (∀ (path : List Nat) (i : Nat) (parent child : SceneNode F),
          nodeAt (updateNodeTransformations fns root mat4.identity VP lights).1 path
              = some parent →
          nodeAt (updateNodeTransformations fns root mat4.identity VP lights).1
              (path ++ [i]) = some child →
          child.modelMatrix = parent.modelMatrix * localTransform fns child)
      ∧ (∀ node : SceneNode F, localTransform fns node
          = translate node.position * translate node.referencePoint
            * rotate fns node.rotation.y ⟨0, 1, 0⟩ * rotate fns node.rotation.x ⟨1, 0, 0⟩
            * rotate fns node.rotation.z ⟨0, 0, 1⟩ * glm.scale node.scale
            * translate node.referencePoint.neg)
      ∧ (∀ (path : List Nat) (n : SceneNode F),
          nodeAt (updateNodeTransformations fns root mat4.identity VP lights).1 path
              = some n →
          ∃ n0, nodeAt root path = some n0 ∧ n.position = n0.position
            ∧ n.rotation = n0.rotation ∧ n.scale = n0.scale
            ∧ n.referencePoint = n0.referencePoint) := by
  refine ⟨?_, ?_, fun _ => rfl, ?_⟩
  · rw [update_modelMatrix, update_localTransform, mat4.identity_mul]
  · intro path i parent child hparent hchild
    exact child_modelMatrix fns root _ VP lights path i parent child hparent hchild
  · intro path n hn
    obtain ⟨n0, hn0, rfl⟩ := nodeAt_update_some fns root _ VP lights path n hn
    exact ⟨n0, hn0, update_fields fns n0 _ VP []⟩

/-- C1 at the demo tree: the child at position 0 of the root. -/
theorem modelMatrix_is_parent_times_local_witness :
    nodeAt (updateNodeTransformations Demo.fns Demo.root mat4.identity Demo.VP []).1 []
        = some (updateNodeTransformations Demo.fns Demo.root mat4.identity Demo.VP []).1
      ∧ nodeAt (updateNodeTransformations Demo.fns Demo.root mat4.identity Demo.VP []).1
          ([] ++ [0])
        = some (updateNodeTransformations Demo.fns Demo.child
            (mat4.identity * localTransform Demo.fns Demo.root) Demo.VP []).1
      ∧ (updateNodeTransformations Demo.fns Demo.child
            (mat4.identity * localTransform Demo.fns Demo.root) Demo.VP []).1.modelMatrix
        = (updateNodeTransformations Demo.fns Demo.root mat4.identity Demo.VP []).1.modelMatrix
          * localTransform Demo.fns (updateNodeTransformations Demo.fns Demo.child
            (mat4.identity * localTransform Demo.fns Demo.root) Demo.VP []).1 :=
  ⟨rfl, rfl,
    (modelMatrix_is_parent_times_local Demo.fns Demo.root Demo.VP []).2.1 [] 0 _ _ rfl rfl⟩

end Claims

section ClaimsStructural

variable {F : Type} [Zero F] [One F] [Add F] [Sub F] [Mul F] [Neg F] [Div F]

/-- C2: after propagation followed by `gatherTriangles`, the triangles emitted for a
node with a geometry type and a registered mesh are a contiguous part of the
output; the `k`-th of them is built from the mesh vertices at the index positions
`3k`, `3k+1`, `3k+2`, and each of its vertices is the `xyz` part of the product of
the local transforms from the root down to the node (taken of the node fields of
this frame, multiplied from left to right onto the identity matrix the root is
entered with) applied to the local vertex with `w = 1`. -/
theorem flattened_vertices_follow_path_product (fns : FloatFns F)
    (gMeshByVao : Int → Option (Mesh F)) (rootNode : SceneNode F) (VP : mat4 F)
    (path : List Nat) (n : SceneNode F) (mesh : Mesh F) (out : List (Triangle F))
    (hn : nodeAt (rebuildFrame fns gMeshByVao rootNode VP).1 path = some n)
    (hty : hasGeometryType n = true)
    (hmesh : gMeshByVao n.vertexArrayObjectID = some mesh)
    (hout : (rebuildFrame fns gMeshByVao rootNode VP).2.2 = some out) :
    ∃ own, ownTriangles fns gMeshByVao n = some own ∧ own <:+: out
      ∧ ∀ k tri, own[k]? = some tri →
        ∃ i0 i1 i2 p0 p1 p2,
          mesh.indices[3 * k]? = some i0 ∧ mesh.indices[3 * k + 1]? = some i1
            ∧ mesh.indices[3 * k + 2]? = some i2
            ∧ mesh.vertices[i0]? = some p0 ∧ mesh.vertices[i1]? = some p1
            ∧ mesh.vertices[i2]? = some p2
            ∧ tri.v0 = ((productFrom mat4.identity (localsAlong fns rootNode path)).mulVec
                (vec4.ofVec3 p0 1)).xyz
            ∧ tri.v1 = ((productFrom mat4.identity (localsAlong fns rootNode path)).mulVec
                (vec4.ofVec3 p1 1)).xyz
            ∧ tri.v2 = ((productFrom mat4.identity (localsAlong fns rootNode path)).mulVec
                (vec4.ofVec3 p2 1)).xyz := by
  simp only [rebuildFrame] at hn hout
  obtain ⟨own, hown, hin⟩ := gatherTriangles_infix fns gMeshByVao path _ n out hn hout
  refine ⟨own, hown, hin, ?_⟩
  intro k tri hk
  have hloop : gatherLoop fns n mesh 0 [] = some own := by
    simpa only [ownTriangles, hty, hmesh, if_true] using hown
  have hlt : k < own.length := by
    rcases Nat.lt_or_ge k own.length with h | h
    · exact h
    · rw [List.getElem?_eq_none h] at hk
      cases hk
  have hbody := (gatherLoop_some fns n mesh 0 own hloop).2 k hlt
  rw [hk, Nat.zero_add] at hbody
  obtain ⟨i0, i1, i2, p0, p1, p2, h0, h1, h2, q0, q1, q2, e0, e1, e2, _⟩ :=
    gatherLoopBody_vertices fns n mesh (3 * k) tri hbody
  have hM := nodeAt_modelMatrix fns rootNode mat4.identity VP [] path n hn
  rw [hM] at e0 e1 e2
  exact ⟨i0, i1, i2, p0, p1, p2, h0, h1, h2, q0, q1, q2, e0, e1, e2⟩

/-- C2 at the demo scene: a root with one child at position (10,0,0) holding the
triangle (0,0,0), (1,0,0), (0,1,0) yields the flattened triangle (10,0,0),
(11,0,0), (10,1,0). -/
theorem flattened_vertices_follow_path_product_witness :
    nodeAt (rebuildFrame Demo.fns Demo.registry Demo.scene Demo.VP).1 [0]
        = some (updateNodeTransformations Demo.fns Demo.child
            (mat4.identity * localTransform Demo.fns Demo.scene) Demo.VP []).1
      ∧ hasGeometryType (updateNodeTransformations Demo.fns Demo.child
            (mat4.identity * localTransform Demo.fns Demo.scene) Demo.VP []).1 = true
      ∧ Demo.registry (updateNodeTransformations Demo.fns Demo.child
            (mat4.identity * localTransform Demo.fns Demo.scene) Demo.VP
            []).1.vertexArrayObjectID = some Demo.triangleMesh
      ∧ (rebuildFrame Demo.fns Demo.registry Demo.scene Demo.VP).2.2
        = some [⟨⟨10, 0, 0⟩, ⟨11, 0, 0⟩, ⟨10, 1, 0⟩, ⟨0, 0, 0⟩, ⟨0, 0, 0⟩, ⟨0, 0, 0⟩, 0⟩]
      ∧ ∃ own, ownTriangles Demo.fns Demo.registry (updateNodeTransformations Demo.fns
            Demo.child (mat4.identity * localTransform Demo.fns Demo.scene) Demo.VP []).1
          = some own
        ∧ own <:+: [⟨⟨10, 0, 0⟩, ⟨11, 0, 0⟩, ⟨10, 1, 0⟩, ⟨0, 0, 0⟩, ⟨0, 0, 0⟩, ⟨0, 0, 0⟩, 0⟩]
        ∧ ∀ k tri, own[k]? = some tri →
          ∃ i0 i1 i2 p0 p1 p2,
            Demo.triangleMesh.indices[3 * k]? = some i0
              ∧ Demo.triangleMesh.indices[3 * k + 1]? = some i1
              ∧ Demo.triangleMesh.indices[3 * k + 2]? = some i2
              ∧ Demo.triangleMesh.vertices[i0]? = some p0
              ∧ Demo.triangleMesh.vertices[i1]? = some p1
              ∧ Demo.triangleMesh.vertices[i2]? = some p2
              ∧ tri.v0 = ((productFrom mat4.identity
                  (localsAlong Demo.fns Demo.scene [0])).mulVec (vec4.ofVec3 p0 1)).xyz
              ∧ tri.v1 = ((productFrom mat4.identity
                  (localsAlong Demo.fns Demo.scene [0])).mulVec (vec4.ofVec3 p1 1)).xyz
              ∧ tri.v2 = ((productFrom mat4.identity
                  (localsAlong Demo.fns Demo.scene [0])).mulVec (vec4.ofVec3 p2 1)).xyz :=
  ⟨Demo.scene_child, rfl, rfl, Demo.scene_triangles,
    flattened_vertices_follow_path_product Demo.fns Demo.registry Demo.scene Demo.VP [0] _
      Demo.triangleMesh _ Demo.scene_child rfl rfl Demo.scene_triangles⟩

end ClaimsStructural

section ClaimCount

variable {F : Type} [Zero F] [One F] [Add F] [Sub F] [Mul F] [Neg F] [Div F]

/-- C3: when every registered mesh has a multiple of three indices, a run of
`gatherTriangles` that returns appends to `output` a list `new` whose length is the
sum, over the nodes of the tree in pre-order, of the index count divided by 3 for
the nodes with a geometry type and a registered mesh (and 0 for the others, so a
mesh shared by several nodes counts once for each); the triangles of each such node
are a contiguous part of `new` of exactly that length.  The run returns whenever
the indices of the registered meshes are in range. -/
theorem gathered_triangle_count (fns : FloatFns F) (gMeshByVao : Int → Option (Mesh F))
    (node : SceneNode F)
    (hthree : ∀ handle mesh, gMeshByVao handle = some mesh →
      mesh.indices.length % 3 = 0) :
    (∀ output out, gatherTriangles fns gMeshByVao node output = some out →
      ∃ new, out = output ++ new
        ∧ new.length = ((preorder node).map (ownTriangleCount gMeshByVao)).sum
        ∧ ∀ path n mesh, nodeAt node path = some n → hasGeometryType n = true →
            gMeshByVao n.vertexArrayObjectID = some mesh →
            ∃ own, ownTriangles fns gMeshByVao n = some own ∧ own <:+: new
              ∧ own.length = mesh.indices.length / 3
              ∧ ownTriangleCount gMeshByVao n = mesh.indices.length / 3)
      ∧ ((∀ handle mesh, gMeshByVao handle = some mesh → mesh.IndicesInRange) →
          ∀ output, ∃ out, gatherTriangles fns gMeshByVao node output = some out) := by
  refine ⟨?_, fun hrange => gatherTriangles_isSome fns gMeshByVao hthree hrange node⟩
  intro output out hout
  rw [gatherTriangles_prepend] at hout
  cases hnew : gatherTriangles fns gMeshByVao node [] with
  | none => simp [hnew] at hout
  | some new =>
    simp only [hnew, Option.map_some', Option.some.injEq] at hout
    refine ⟨new, hout.symm, gatherTriangles_length fns gMeshByVao hthree node new hnew, ?_⟩
    intro path n mesh hn hty hmesh
    obtain ⟨own, hown, hin⟩ := gatherTriangles_infix fns gMeshByVao path node n new hn hnew
    have hlen := ownTriangles_length fns gMeshByVao hthree n own hown
    have hcount : ownTriangleCount gMeshByVao n = mesh.indices.length / 3 := by
      simp only [ownTriangleCount, hty, hmesh, if_true]
    exact ⟨own, hown, hin, hlen.trans hcount, hcount⟩

/-- C3 at the demo scene after propagation: the pass returns one triangle, the one
of the child. -/
theorem gathered_triangle_count_witness :
    (∀ handle mesh, Demo.registry handle = some mesh → mesh.indices.length % 3 = 0)
      ∧ gatherTriangles Demo.fns Demo.registry
          (updateNodeTransformations Demo.fns Demo.scene mat4.identity Demo.VP []).1 []
        = some [⟨⟨10, 0, 0⟩, ⟨11, 0, 0⟩, ⟨10, 1, 0⟩, ⟨0, 0, 0⟩, ⟨0, 0, 0⟩, ⟨0, 0, 0⟩, 0⟩]
      ∧ (∃ new, [(⟨⟨10, 0, 0⟩, ⟨11, 0, 0⟩, ⟨10, 1, 0⟩, ⟨0, 0, 0⟩, ⟨0, 0, 0⟩, ⟨0, 0, 0⟩, 0⟩ :
            Triangle ℚ)] = [] ++ new
          ∧ new.length = ((preorder (updateNodeTransformations Demo.fns Demo.scene
              mat4.identity Demo.VP []).1).map (ownTriangleCount Demo.registry)).sum
          ∧ ∀ path n mesh,
              nodeAt (updateNodeTransformations Demo.fns Demo.scene mat4.identity
                Demo.VP []).1 path = some n →
              hasGeometryType n = true →
              Demo.registry n.vertexArrayObjectID = some mesh →
              ∃ own, ownTriangles Demo.fns Demo.registry n = some own ∧ own <:+: new
                ∧ own.length = mesh.indices.length / 3
                ∧ ownTriangleCount Demo.registry n = mesh.indices.length / 3)
      ∧ ((∀ handle mesh, Demo.registry handle = some mesh → mesh.IndicesInRange) →
          ∀ output, ∃ out, gatherTriangles Demo.fns Demo.registry
            (updateNodeTransformations Demo.fns Demo.scene mat4.identity Demo.VP []).1
            output = some out) :=
  ⟨Demo.registry_three, Demo.scene_triangles,
    (gathered_triangle_count Demo.fns Demo.registry _ Demo.registry_three).1 [] _
      Demo.scene_triangles,
    (gathered_triangle_count Demo.fns Demo.registry _ Demo.registry_three).2⟩

end ClaimCount

section ClaimLights

variable {F : Type} [Field F]

/-- C4: the light list of a frame (cleared, then filled by the propagation) is the
list of the point-light nodes of the tree in depth-first pre-order, each turned
into the entry made of the `xyz` part of its model matrix applied to (0,0,0,1),
which is the translation column of the matrix, and of its light color.  The list has
as many entries as the tree has point-light nodes; the pass changes neither the
shape of the tree nor the node types nor the light colors. -/
theorem light_list_is_preorder_of_point_lights (fns : FloatFns F)
    (gMeshByVao : Int → Option (Mesh F)) (rootNode : SceneNode F) (VP : mat4 F) :
    (rebuildFrame fns gMeshByVao rootNode VP).2.1
        = ((preorder (rebuildFrame fns gMeshByVao rootNode VP).1).filter
            (fun n => decide (n.nodeType = SceneNodeType.POINT_LIGHT))).map
            (fun n => ⟨(n.modelMatrix.mulVec ⟨0, 0, 0, 1⟩).xyz, n.lightColor⟩)
      ∧ (∀ n : SceneNode F, (n.modelMatrix.mulVec ⟨0, 0, 0, 1⟩).xyz = n.modelMatrix.c3.xyz)
      ∧ (rebuildFrame fns gMeshByVao rootNode VP).2.1.length
          = (preorder rootNode).countP
              (fun n => decide (n.nodeType = SceneNodeType.POINT_LIGHT))
      ∧ (preorder (rebuildFrame fns gMeshByVao rootNode VP).1).map
            (fun n => (n.nodeType, n.lightColor))
          = (preorder rootNode).map (fun n => (n.nodeType, n.lightColor)) := by
  have hlights := update_lights fns VP rootNode mat4.identity []
  have hshape := preorder_update fns VP rootNode mat4.identity []
  refine ⟨?_, fun n => mat4.mulVec_origin n.modelMatrix, ?_, hshape⟩
  · simp only [rebuildFrame]
    rw [hlights, List.nil_append]
    rfl
  · simp only [rebuildFrame]
    rw [hlights, List.nil_append, List.length_map, ← List.countP_eq_length_filter]
    have hcount : ∀ l : List (SceneNode F),
        l.countP (fun n => decide (n.nodeType = SceneNodeType.POINT_LIGHT))
          = (l.map (fun n => (n.nodeType, n.lightColor))).countP
              (fun p => decide (p.1 = SceneNodeType.POINT_LIGHT)) := by
      intro l
      rw [List.countP_map]
      rfl
    rw [hcount, hcount (preorder rootNode), hshape]

end ClaimLights

section ClaimNormalMatrix

variable {F : Type} [Field F]

/-- C5: the normal matrix that propagation stores in a node is the transpose of the
GLM inverse of the upper-left 3×3 block `B` of the model matrix of the node; when
`B` is invertible (some matrix `C` has `C * B = 1`) the transpose of the normal
matrix is a two-sided inverse of `B`. -/
theorem normalMatrix_is_inverse_transpose (fns : FloatFns F) (root : SceneNode F)
    (T VP : mat4 F) (lights : List (LightSourceData F)) (path : List Nat)
    (n : SceneNode F) (C : mat3 F)
    (hn : nodeAt (updateNodeTransformations fns root T VP lights).1 path = some n)
    (hC : C.mul (mat3.ofMat4 n.modelMatrix) = mat3.identity) :
    n.normalMatrix = transpose (inverse (mat3.ofMat4 n.modelMatrix))
      ∧ (transpose n.normalMatrix).mul (mat3.ofMat4 n.modelMatrix) = mat3.identity
      ∧ (mat3.ofMat4 n.modelMatrix).mul (transpose n.normalMatrix) = mat3.identity := by
  have hdet := determinant_ne_zero_of_left_inverse C _ hC
  have hstored : n.normalMatrix = transpose (inverse (mat3.ofMat4 n.modelMatrix)) := by
    obtain ⟨n0, _, rfl⟩ := nodeAt_update_some fns root T VP lights path n hn
    rw [update_normalMatrix, update_modelMatrix]
  refine ⟨hstored, ?_, ?_⟩
  · rw [hstored, transpose_transpose]
    exact inverse_mul_self _ hdet
  · rw [hstored, transpose_transpose]
    exact self_mul_inverse _ hdet

/-- C5 at the demo node with scale (2,1,1). -/
theorem normalMatrix_is_inverse_transpose_witness :
    nodeAt (updateNodeTransformations Demo.fns Demo.stretched mat4.identity Demo.VP
          []).1 []
        = some (updateNodeTransformations Demo.fns Demo.stretched mat4.identity Demo.VP
            []).1
      ∧ (⟨⟨1 / 2, 0, 0⟩, ⟨0, 1, 0⟩, ⟨0, 0, 1⟩⟩ : mat3 ℚ).mul
            (mat3.ofMat4 (updateNodeTransformations Demo.fns Demo.stretched mat4.identity
              Demo.VP []).1.modelMatrix)
          = mat3.identity
      ∧ (transpose (updateNodeTransformations Demo.fns Demo.stretched mat4.identity
            Demo.VP []).1.normalMatrix).mul
            (mat3.ofMat4 (updateNodeTransformations Demo.fns Demo.stretched mat4.identity
              Demo.VP []).1.modelMatrix)
          = mat3.identity :=
  ⟨rfl, Demo.stretched_left_inverse,
    (normalMatrix_is_inverse_transpose Demo.fns Demo.stretched mat4.identity Demo.VP []
      [] _ _ rfl Demo.stretched_left_inverse).2.1⟩

/-- C6: for a node whose model matrix has an invertible upper-left block `B`, the
normal matrix `N` stored by propagation satisfies `dot (N v) (B t) = dot v t` for
all vectors `v` and `t`; so a normal perpendicular to a tangent stays perpendicular
to the transformed tangent. -/
theorem normalMatrix_keeps_perpendicular (fns : FloatFns F) (root : SceneNode F)
    (T VP : mat4 F) (lights : List (LightSourceData F)) (path : List Nat)
    (n : SceneNode F) (C : mat3 F) (v t : vec3 F)
    (hn : nodeAt (updateNodeTransformations fns root T VP lights).1 path = some n)
    (hC : C.mul (mat3.ofMat4 n.modelMatrix) = mat3.identity) :
    dot (n.normalMatrix.mulVec v) ((mat3.ofMat4 n.modelMatrix).mulVec t) = dot v t
      ∧ (dot v t = 0 →
          dot (n.normalMatrix.mulVec v) ((mat3.ofMat4 n.modelMatrix).mulVec t) = 0) := by
  have hdet := determinant_ne_zero_of_left_inverse C _ hC
  have hstored : n.normalMatrix = transpose (inverse (mat3.ofMat4 n.modelMatrix)) := by
    obtain ⟨n0, _, rfl⟩ := nodeAt_update_some fns root T VP lights path n hn
    rw [update_normalMatrix, update_modelMatrix]
  have hdot : dot (n.normalMatrix.mulVec v) ((mat3.ofMat4 n.modelMatrix).mulVec t)
      = dot v t := by
    rw [hstored]
    exact dot_inverse_transpose _ hdet v t
  exact ⟨hdot, fun h => hdot.trans h⟩

/-- C6 at the demo node with the non-uniform scale (2,1,1), for the normal (1,1,0)
and the tangent (1,-1,0). -/
theorem normalMatrix_keeps_perpendicular_witness :
    nodeAt (updateNodeTransformations Demo.fns Demo.stretched mat4.identity Demo.VP
          []).1 []
        = some (updateNodeTransformations Demo.fns Demo.stretched mat4.identity Demo.VP
            []).1
      ∧ (⟨⟨1 / 2, 0, 0⟩, ⟨0, 1, 0⟩, ⟨0, 0, 1⟩⟩ : mat3 ℚ).mul
            (mat3.ofMat4 (updateNodeTransformations Demo.fns Demo.stretched mat4.identity
              Demo.VP []).1.modelMatrix)
          = mat3.identity
      ∧ dot (⟨1, 1, 0⟩ : vec3 ℚ) ⟨1, -1, 0⟩ = 0
      ∧ dot ((updateNodeTransformations Demo.fns Demo.stretched mat4.identity Demo.VP
            []).1.normalMatrix.mulVec ⟨1, 1, 0⟩)
          ((mat3.ofMat4 (updateNodeTransformations Demo.fns Demo.stretched mat4.identity
            Demo.VP []).1.modelMatrix).mulVec ⟨1, -1, 0⟩) = 0 :=
  ⟨rfl, Demo.stretched_left_inverse, by simp [dot],
    (normalMatrix_keeps_perpendicular Demo.fns Demo.stretched mat4.identity Demo.VP []
      [] _ _ ⟨1, 1, 0⟩ ⟨1, -1, 0⟩ rfl Demo.stretched_left_inverse).2 (by simp [dot])⟩

end ClaimNormalMatrix

section ClaimAxisNormal

variable {F : Type} [LinearOrderedField F]

/-- C7: for a node whose model matrix has the upper-left block diag(sx, sy, sz) with
sx, sy, sz positive (an unrotated scale), the normal matrix stored by propagation
followed by `normalize` maps every unit vector along a coordinate axis to itself;
and the loop body of `gatherTriangles`, at a position of a mesh whose three indices,
vertices and normals exist, builds the triangle whose normals are the three local
normals themselves when these are such vectors.  The inverse square root is taken
exact on squares. -/
theorem axis_normal_survives_scale (fns : FloatFns F)
    (hsqrt : ∀ x : F, 0 < x → fns.inversesqrt (x * x) = 1 / x)
    (root : SceneNode F) (T VP : mat4 F) (lights : List (LightSourceData F))
    (path : List Nat) (n : SceneNode F) (sx sy sz : F)
    (hx : 0 < sx) (hy : 0 < sy) (hz : 0 < sz)
    (hn : nodeAt (updateNodeTransformations fns root T VP lights).1 path = some n)
    (hB : mat3.ofMat4 n.modelMatrix = ⟨⟨sx, 0, 0⟩, ⟨0, sy, 0⟩, ⟨0, 0, sz⟩⟩) :
    (∀ a, IsUnitAxis a → glm.normalize fns (n.normalMatrix.mulVec a) = a)
      ∧ ∀ (mesh : Mesh F) (i i0 i1 i2 : Nat) (p0 p1 p2 n0 n1 n2 : vec3 F),
          mesh.indices[i]? = some i0 → mesh.indices[i + 1]? = some i1 →
          mesh.indices[i + 2]? = some i2 →
          mesh.vertices[i0]? = some p0 → mesh.vertices[i1]? = some p1 →
          mesh.vertices[i2]? = some p2 →
          mesh.normals[i0]? = some n0 → mesh.normals[i1]? = some n1 →
          mesh.normals[i2]? = some n2 →
          IsUnitAxis n0 → IsUnitAxis n1 → IsUnitAxis n2 →
          gatherLoopBody fns n mesh i
            = some ⟨(n.modelMatrix.mulVec (vec4.ofVec3 p0 1)).xyz,
                (n.modelMatrix.mulVec (vec4.ofVec3 p1 1)).xyz,
                (n.modelMatrix.mulVec (vec4.ofVec3 p2 1)).xyz, n0, n1, n2, n.materialID⟩ := by
  have hstored : n.normalMatrix = transpose (inverse (mat3.ofMat4 n.modelMatrix)) := by
    obtain ⟨n0, _, rfl⟩ := nodeAt_update_some fns root T VP lights path n hn
    rw [update_normalMatrix, update_modelMatrix]
  have haxis : ∀ a, IsUnitAxis a → glm.normalize fns (n.normalMatrix.mulVec a) = a := by
    intro a ha
    rw [hstored, hB]
    exact normalize_scaled_axis fns hsqrt sx sy sz hx hy hz a ha
  refine ⟨haxis, ?_⟩
  intro mesh i i0 i1 i2 p0 p1 p2 n0 n1 n2 h0 h1 h2 v0 v1 v2 q0 q1 q2 a0 a1 a2
  have hnormals : mesh.normals.isEmpty = false := by
    cases hm : mesh.normals with
    | nil => rw [hm] at q0; simp at q0
    | cons first rest => rfl
  simp only [gatherLoopBody, Nat.add_zero, h0, h1, h2, v0, v1, v2, q0, q1, q2, hnormals,
    Bool.not_false, if_true, haxis n0 a0, haxis n1 a1, haxis n2 a2]

/-- C7 at the demo node: with the scale (2,1,1) the local normal (0,1,0) gives the
world normal (0,1,0), and the frame of the node with the mesh whose three normals
are (0,1,0) is the one triangle (0,0,0), (2,0,0), (0,1,0) with these normals. -/
theorem axis_normal_survives_scale_witness :
    (∀ x : ℚ, 0 < x → Demo.fns.inversesqrt (x * x) = 1 / x)
      ∧ (0 : ℚ) < 2 ∧ (0 : ℚ) < 1
      ∧ nodeAt (updateNodeTransformations Demo.fns Demo.stretched mat4.identity Demo.VP
            []).1 []
          = some (updateNodeTransformations Demo.fns Demo.stretched mat4.identity
              Demo.VP []).1
      ∧ mat3.ofMat4 (updateNodeTransformations Demo.fns Demo.stretched mat4.identity
            Demo.VP []).1.modelMatrix
          = ⟨⟨2, 0, 0⟩, ⟨0, 1, 0⟩, ⟨0, 0, 1⟩⟩
      ∧ IsUnitAxis (⟨0, 1, 0⟩ : vec3 ℚ)
      ∧ glm.normalize Demo.fns
            ((updateNodeTransformations Demo.fns Demo.stretched mat4.identity Demo.VP
              []).1.normalMatrix.mulVec ⟨0, 1, 0⟩)
          = ⟨0, 1, 0⟩
      ∧ gatherLoopBody Demo.fns
            (updateNodeTransformations Demo.fns Demo.stretched mat4.identity Demo.VP []).1
            Demo.normalMesh 0
          = some ⟨⟨0, 0, 0⟩, ⟨2, 0, 0⟩, ⟨0, 1, 0⟩, ⟨0, 1, 0⟩, ⟨0, 1, 0⟩, ⟨0, 1, 0⟩, 0⟩
      ∧ (rebuildFrame Demo.fns Demo.registry Demo.stretched Demo.VP).2.2
          = some [⟨⟨0, 0, 0⟩, ⟨2, 0, 0⟩, ⟨0, 1, 0⟩, ⟨0, 1, 0⟩, ⟨0, 1, 0⟩, ⟨0, 1, 0⟩, 0⟩] := by
  have haxis : IsUnitAxis (⟨0, 1, 0⟩ : vec3 ℚ) := Or.inr (Or.inl rfl)
  have hclaim := axis_normal_survives_scale Demo.fns Demo.fns_inversesqrt_sq Demo.stretched
    mat4.identity Demo.VP [] []
    (updateNodeTransformations Demo.fns Demo.stretched mat4.identity Demo.VP []).1 2 1 1
    (by norm_num) (by norm_num) (by norm_num) rfl Demo.stretched_block
  have hbody : gatherLoopBody Demo.fns
      (updateNodeTransformations Demo.fns Demo.stretched mat4.identity Demo.VP []).1
      Demo.normalMesh 0
        = some ⟨⟨0, 0, 0⟩, ⟨2, 0, 0⟩, ⟨0, 1, 0⟩, ⟨0, 1, 0⟩, ⟨0, 1, 0⟩, ⟨0, 1, 0⟩, 0⟩ := by
    rw [hclaim.2 Demo.normalMesh 0 0 1 2 ⟨0, 0, 0⟩ ⟨1, 0, 0⟩ ⟨0, 1, 0⟩ ⟨0, 1, 0⟩ ⟨0, 1, 0⟩
      ⟨0, 1, 0⟩ rfl rfl rfl rfl rfl rfl rfl rfl rfl haxis haxis haxis,
      Demo.stretched_modelMatrix]
    simp [mat4.mulVec, vec4.ofVec3, vec4.smul, vec4.add, vec4.xyz]
    rfl
  refine ⟨Demo.fns_inversesqrt_sq, by norm_num, by norm_num, rfl, Demo.stretched_block,
    haxis, hclaim.1 ⟨0, 1, 0⟩ haxis, hbody, ?_⟩
  simp only [rebuildFrame]
  rw [gatherTriangles_unfold, update_children]
  have hkids : Demo.stretched.children = [] := rfl
  have hty : hasGeometryType
      (updateNodeTransformations Demo.fns Demo.stretched mat4.identity Demo.VP []).1
        = true := rfl
  have hmesh : Demo.registry
      (updateNodeTransformations Demo.fns Demo.stretched mat4.identity Demo.VP
        []).1.vertexArrayObjectID = some Demo.normalMesh := rfl
  rw [hkids]
  simp only [ownTriangles, hty, hmesh, if_true]
  rw [gatherLoop_step _ _ _ _ _ _ (by decide) hbody, gatherLoop_done _ _ _ _ _ (by decide)]
  rfl

end ClaimAxisNormal

section ClaimPivot

variable {F : Type} [Field F]

/-- C8: the local transform that propagation computes for a node maps the reference
point `P` of the node, as the point `(P, 1)`, to `position + P`; and for every
point `P`, all rotation angles and every scale the product `translate(P) * rotateY
* rotateX * rotateZ * scale * translate(-P)` maps `(P, 1)` to itself. -/
theorem reference_point_is_pivot (fns : FloatFns F) (node : SceneNode F) :
    (localTransform fns node).mulVec (vec4.ofVec3 node.referencePoint 1)
        = vec4.ofVec3 (vec3.add node.position node.referencePoint) 1
      ∧ ∀ (P s : vec3 F) (ry rx rz : F),
          (glm.translate P * glm.rotate fns ry ⟨0, 1, 0⟩ * glm.rotate fns rx ⟨1, 0, 0⟩
              * glm.rotate fns rz ⟨0, 0, 1⟩ * glm.scale s * glm.translate P.neg).mulVec
              (vec4.ofVec3 P 1)
            = vec4.ofVec3 P 1 := by
  refine ⟨?_, fun P s ry rx rz => pivot_fixed fns P s ry rx rz⟩
  simp only [localTransform, mat4.mul_mulVec]
  rw [translate_neg_mulVec_self, scale_mulVec_origin, rotate_mulVec_origin,
    rotate_mulVec_origin, rotate_mulVec_origin, translate_mulVec_origin,
    translate_mulVec_point]

end ClaimPivot

section ClaimsRerun

variable {F : Type} [Zero F] [One F] [Add F] [Sub F] [Mul F] [Neg F] [Div F]

/-- C9: running `updateNodeTransformations` a second time on the tree the first run
left, with the same accumulated matrix and the same `VP`, gives the same tree
again: every node keeps its `modelMatrix`, `normalMatrix` and
`currentTransformationMatrix`.  This holds for every arithmetic on the scalars and
whatever the light list of either run is. -/
theorem propagation_idempotent (fns : FloatFns F) (root : SceneNode F)
    (T VP : mat4 F) (lights again : List (LightSourceData F)) :
    (updateNodeTransformations fns
        (updateNodeTransformations fns root T VP lights).1 T VP again).1
        = (updateNodeTransformations fns root T VP lights).1
      ∧ ∀ path : List Nat,
          (nodeAt (updateNodeTransformations fns
              (updateNodeTransformations fns root T VP lights).1 T VP again).1 path).map
              (fun n => (n.modelMatrix, n.normalMatrix, n.currentTransformationMatrix))
            = (nodeAt (updateNodeTransformations fns root T VP lights).1 path).map
              (fun n => (n.modelMatrix, n.normalMatrix, n.currentTransformationMatrix)) := by
  have h := update_idempotent fns VP root T lights again
  exact ⟨h, fun path => by rw [h]⟩

/-- C10: after `updateNodeTransformations(root, identity, VP)` every node of the
tree, at every depth, has `currentTransformationMatrix = VP * modelMatrix` with the
`VP` given for the root. -/
theorem currentTransformationMatrix_is_VP_times_model (fns : FloatFns F)
    (root : SceneNode F) (VP : mat4 F) (lights : List (LightSourceData F))
    (path : List Nat) (n : SceneNode F)
    (hn : nodeAt (updateNodeTransformations fns root mat4.identity VP lights).1 path
      = some n) :
    n.currentTransformationMatrix = VP * n.modelMatrix := by
  obtain ⟨n0, _, rfl⟩ := nodeAt_update_some fns root mat4.identity VP lights path n hn
  rw [update_currentTransformationMatrix, update_modelMatrix]

/-- C10 at the demo scene: the child of the root, one level down. -/
theorem currentTransformationMatrix_is_VP_times_model_witness :
    nodeAt (updateNodeTransformations Demo.fns Demo.scene mat4.identity Demo.VP []).1 [0]
        = some (updateNodeTransformations Demo.fns Demo.child
            (mat4.identity * localTransform Demo.fns Demo.scene) Demo.VP []).1
      ∧ (updateNodeTransformations Demo.fns Demo.child
            (mat4.identity * localTransform Demo.fns Demo.scene) Demo.VP
            []).1.currentTransformationMatrix
        = Demo.VP * (updateNodeTransformations Demo.fns Demo.child
            (mat4.identity * localTransform Demo.fns Demo.scene) Demo.VP
            []).1.modelMatrix :=
  ⟨rfl, currentTransformationMatrix_is_VP_times_model Demo.fns Demo.scene Demo.VP [] [0]
    _ rfl⟩

end ClaimsRerun

section ClaimsTraversal

variable {F : Type} [Zero F] [One F] [Add F] [Sub F] [Mul F] [Neg F] [Div F]

/-- C11: for a node of type POINT_LIGHT, SPOT_LIGHT or GEOMETRY_2D, whatever the
registry holds for its handle, `gatherTriangles` pushes no triangle for the node
itself and hands `output` on to the loop over its children; started from the empty
vector the pass returns exactly the outputs of the children, one after the other
in child-list order. -/
theorem lights_and_2d_emit_only_children (fns : FloatFns F)
    (gMeshByVao : Int → Option (Mesh F)) (node : SceneNode F)
    (hty : node.nodeType = SceneNodeType.POINT_LIGHT
      ∨ node.nodeType = SceneNodeType.SPOT_LIGHT
      ∨ node.nodeType = SceneNodeType.GEOMETRY_2D) :
    ownTriangles fns gMeshByVao node = some []
      ∧ (∀ output, gatherTriangles fns gMeshByVao node output
          = gatherChildren fns gMeshByVao node.children output)
      ∧ ∀ out, gatherTriangles fns gMeshByVao node [] = some out
          ↔ ∃ outs, List.Forall₂ (fun c o => gatherTriangles fns gMeshByVao c [] = some o)
              node.children outs ∧ out = outs.flatten := by
  have hno : hasGeometryType node = false := by
    rcases hty with h | h | h <;> simp [hasGeometryType, h]
  have hown : ownTriangles fns gMeshByVao node = some [] := by
    simp [ownTriangles, hno]
  refine ⟨hown, gatherTriangles_of_own_nil fns gMeshByVao node hown, ?_⟩
  intro out
  rw [gatherTriangles_of_own_nil fns gMeshByVao node hown]
  exact gatherChildren_flatten fns gMeshByVao node.children out

/-- C11 at a demo point light whose handle resolves in the registry. -/
theorem lights_and_2d_emit_only_children_witness :
    (Demo.lampWithMesh.nodeType = SceneNodeType.POINT_LIGHT
        ∨ Demo.lampWithMesh.nodeType = SceneNodeType.SPOT_LIGHT
        ∨ Demo.lampWithMesh.nodeType = SceneNodeType.GEOMETRY_2D)
      ∧ Demo.registry Demo.lampWithMesh.vertexArrayObjectID = some Demo.triangleMesh
      ∧ Demo.lampWithMesh.children = [Demo.child]
      ∧ ownTriangles Demo.fns Demo.registry Demo.lampWithMesh = some []
      ∧ ∀ output, gatherTriangles Demo.fns Demo.registry Demo.lampWithMesh output
          = gatherChildren Demo.fns Demo.registry Demo.lampWithMesh.children output :=
  ⟨Or.inl rfl, rfl, rfl,
    (lights_and_2d_emit_only_children Demo.fns Demo.registry Demo.lampWithMesh
      (Or.inl rfl)).1,
    (lights_and_2d_emit_only_children Demo.fns Demo.registry Demo.lampWithMesh
      (Or.inl rfl)).2.1⟩

/-- C12: the output of a pass that returns is the triangles of the node itself
followed by the outputs of its children in child-list order, hence the triangles of
all nodes in depth-first pre-order; for a node with a geometry type and a
registered mesh the `k`-th own triangle is the one the loop body builds at index
position `3k`, from the indices at `3k`, `3k+1`, `3k+2`, and it carries the
`materialID` of the node. -/
theorem flattened_order_is_preorder (fns : FloatFns F)
    (gMeshByVao : Int → Option (Mesh F)) (node : SceneNode F) (out : List (Triangle F))
    (h : gatherTriangles fns gMeshByVao node [] = some out) :
    (∃ own outs, ownTriangles fns gMeshByVao node = some own
        ∧ List.Forall₂ (fun c o => gatherTriangles fns gMeshByVao c [] = some o)
            node.children outs
        ∧ out = own ++ outs.flatten
        ∧ ∀ mesh, hasGeometryType node = true →
            gMeshByVao node.vertexArrayObjectID = some mesh →
            ∀ k tri, own[k]? = some tri →
              gatherLoopBody fns node mesh (3 * k) = some tri
                ∧ tri.materialID = node.materialID
                ∧ ∃ i0 i1 i2 p0 p1 p2,
                    mesh.indices[3 * k]? = some i0 ∧ mesh.indices[3 * k + 1]? = some i1
                      ∧ mesh.indices[3 * k + 2]? = some i2
                      ∧ mesh.vertices[i0]? = some p0 ∧ mesh.vertices[i1]? = some p1
                      ∧ mesh.vertices[i2]? = some p2
                      ∧ tri.v0 = (node.modelMatrix.mulVec (vec4.ofVec3 p0 1)).xyz
                      ∧ tri.v1 = (node.modelMatrix.mulVec (vec4.ofVec3 p1 1)).xyz
                      ∧ tri.v2 = (node.modelMatrix.mulVec (vec4.ofVec3 p2 1)).xyz)
      ∧ (∃ owns, List.Forall₂ (fun n o => ownTriangles fns gMeshByVao n = some o)
          (preorder node) owns ∧ out = owns.flatten)
      ∧ ∀ output, gatherTriangles fns gMeshByVao node output = some (output ++ out) := by
  refine ⟨?_, gatherTriangles_preorder fns gMeshByVao node out h, ?_⟩
  · obtain ⟨own, below, hown, hbelow, rfl⟩ := gatherTriangles_some fns gMeshByVao _ out h
    obtain ⟨outs, houts, rfl⟩ := (gatherChildren_flatten fns gMeshByVao _ below).1 hbelow
    refine ⟨own, outs, hown, houts, rfl, ?_⟩
    intro mesh hty hmesh k tri hk
    have hbody := ownTriangles_getElem fns gMeshByVao node mesh own hty hmesh hown k tri hk
    obtain ⟨i0, i1, i2, p0, p1, p2, h0, h1, h2, q0, q1, q2, e0, e1, e2, em⟩ :=
      gatherLoopBody_vertices fns node mesh (3 * k) tri hbody
    exact ⟨hbody, em, i0, i1, i2, p0, p1, p2, h0, h1, h2, q0, q1, q2, e0, e1, e2⟩
  · intro output
    rw [gatherTriangles_prepend, h]
    rfl

/-- C12 at the demo scene after propagation. -/
theorem flattened_order_is_preorder_witness :
    gatherTriangles Demo.fns Demo.registry
        (updateNodeTransformations Demo.fns Demo.scene mat4.identity Demo.VP []).1 []
      = some [⟨⟨10, 0, 0⟩, ⟨11, 0, 0⟩, ⟨10, 1, 0⟩, ⟨0, 0, 0⟩, ⟨0, 0, 0⟩, ⟨0, 0, 0⟩, 0⟩]
      ∧ ∀ output, gatherTriangles Demo.fns Demo.registry
          (updateNodeTransformations Demo.fns Demo.scene mat4.identity Demo.VP []).1 output
        = some (output
            ++ [⟨⟨10, 0, 0⟩, ⟨11, 0, 0⟩, ⟨10, 1, 0⟩, ⟨0, 0, 0⟩, ⟨0, 0, 0⟩, ⟨0, 0, 0⟩, 0⟩]) :=
  ⟨Demo.scene_triangles,
    (flattened_order_is_preorder Demo.fns Demo.registry _ _ Demo.scene_triangles).2.2⟩

/-- C13: for a node with a geometry type whose registered mesh has an empty normal
list, the three normals of every triangle pushed for the node are the zero vector,
whatever the normal matrix of the node is. -/
theorem empty_normals_give_zero_normals (fns : FloatFns F)
    (gMeshByVao : Int → Option (Mesh F)) (node : SceneNode F) (mesh : Mesh F)
    (own : List (Triangle F))
    (hty : hasGeometryType node = true)
    (hmesh : gMeshByVao node.vertexArrayObjectID = some mesh)
    (hempty : mesh.normals.isEmpty = true)
    (hown : ownTriangles fns gMeshByVao node = some own) :
    ∀ tri ∈ own, tri.n0 = ⟨0, 0, 0⟩ ∧ tri.n1 = ⟨0, 0, 0⟩ ∧ tri.n2 = ⟨0, 0, 0⟩ := by
  intro tri htri
  obtain ⟨k, hk⟩ := List.mem_iff_getElem?.1 htri
  have hbody := ownTriangles_getElem fns gMeshByVao node mesh own hty hmesh hown k tri hk
  exact gatherLoopBody_no_normals fns node mesh (3 * k) tri hbody hempty

/-- C13 at the child of the demo scene, whose mesh has no normals. -/
theorem empty_normals_give_zero_normals_witness :
    hasGeometryType (updateNodeTransformations Demo.fns Demo.child
        (mat4.identity * localTransform Demo.fns Demo.scene) Demo.VP []).1 = true
      ∧ Demo.registry (updateNodeTransformations Demo.fns Demo.child
          (mat4.identity * localTransform Demo.fns Demo.scene) Demo.VP
          []).1.vertexArrayObjectID = some Demo.triangleMesh
      ∧ Demo.triangleMesh.normals.isEmpty = true
      ∧ ownTriangles Demo.fns Demo.registry (updateNodeTransformations Demo.fns Demo.child
          (mat4.identity * localTransform Demo.fns Demo.scene) Demo.VP []).1
        = some [⟨⟨10, 0, 0⟩, ⟨11, 0, 0⟩, ⟨10, 1, 0⟩, ⟨0, 0, 0⟩, ⟨0, 0, 0⟩, ⟨0, 0, 0⟩, 0⟩]
      ∧ ∀ tri ∈ [(⟨⟨10, 0, 0⟩, ⟨11, 0, 0⟩, ⟨10, 1, 0⟩, ⟨0, 0, 0⟩, ⟨0, 0, 0⟩, ⟨0, 0, 0⟩, 0⟩ :
            Triangle ℚ)],
          tri.n0 = ⟨0, 0, 0⟩ ∧ tri.n1 = ⟨0, 0, 0⟩ ∧ tri.n2 = ⟨0, 0, 0⟩ :=
  ⟨rfl, rfl, rfl, Demo.child_own,
    empty_normals_give_zero_normals Demo.fns Demo.registry
      (updateNodeTransformations Demo.fns Demo.child
        (mat4.identity * localTransform Demo.fns Demo.scene) Demo.VP []).1
      Demo.triangleMesh _ rfl rfl rfl Demo.child_own⟩

/-- C15: for a node of type GEOMETRY or NORMAL_MAPPED_GEOMETRY whose handle is not a
key of the registry, `gatherTriangles` pushes no triangle for the node, does not
fail on the node, and hands `output` on to the loop over the children; started from
the empty vector it returns exactly the outputs of the children.  A freshly
constructed node has the handle -1. -/
theorem missing_mesh_is_skipped (fns : FloatFns F)
    (gMeshByVao : Int → Option (Mesh F)) (node : SceneNode F)
    (hty : node.nodeType = SceneNodeType.GEOMETRY
      ∨ node.nodeType = SceneNodeType.NORMAL_MAPPED_GEOMETRY)
    (hmiss : gMeshByVao node.vertexArrayObjectID = none) :
    ownTriangles fns gMeshByVao node = some []
      ∧ (∀ output, gatherTriangles fns gMeshByVao node output
          = gatherChildren fns gMeshByVao node.children output)
      ∧ (∀ out, gatherTriangles fns gMeshByVao node [] = some out
          ↔ ∃ outs, List.Forall₂ (fun c o => gatherTriangles fns gMeshByVao c [] = some o)
              node.children outs ∧ out = outs.flatten)
      ∧ ∀ (globalId : Int) (indeterminate : SceneNode F),
          (SceneNode.construct globalId indeterminate).1.vertexArrayObjectID = -1 := by
  have hgeo : hasGeometryType node = true := by
    rcases hty with h | h <;> simp [hasGeometryType, h]
  have hown : ownTriangles fns gMeshByVao node = some [] := by
    simp only [ownTriangles, hgeo, hmiss, if_true]
  refine ⟨hown, gatherTriangles_of_own_nil fns gMeshByVao node hown, ?_, fun _ _ => rfl⟩
  intro out
  rw [gatherTriangles_of_own_nil fns gMeshByVao node hown]
  exact gatherChildren_flatten fns gMeshByVao node.children out

/-- C15 at the root of the demo scene, a fresh node with the handle -1 and the
child `child`: the pass returns the triangle of the child. -/
theorem missing_mesh_is_skipped_witness :
    ((updateNodeTransformations Demo.fns Demo.scene mat4.identity Demo.VP []).1.nodeType
          = SceneNodeType.GEOMETRY
        ∨ (updateNodeTransformations Demo.fns Demo.scene mat4.identity Demo.VP
            []).1.nodeType = SceneNodeType.NORMAL_MAPPED_GEOMETRY)
      ∧ Demo.registry (updateNodeTransformations Demo.fns Demo.scene mat4.identity
          Demo.VP []).1.vertexArrayObjectID = none
      ∧ ownTriangles Demo.fns Demo.registry
          (updateNodeTransformations Demo.fns Demo.scene mat4.identity Demo.VP []).1
        = some []
      ∧ gatherChildren Demo.fns Demo.registry
          (updateNodeTransformations Demo.fns Demo.scene mat4.identity Demo.VP
            []).1.children []
        = some [⟨⟨10, 0, 0⟩, ⟨11, 0, 0⟩, ⟨10, 1, 0⟩, ⟨0, 0, 0⟩, ⟨0, 0, 0⟩, ⟨0, 0, 0⟩, 0⟩] :=
  ⟨Or.inl rfl, rfl,
    (missing_mesh_is_skipped Demo.fns Demo.registry
      (updateNodeTransformations Demo.fns Demo.scene mat4.identity Demo.VP []).1
      (Or.inl rfl) rfl).1,
    ((missing_mesh_is_skipped Demo.fns Demo.registry
      (updateNodeTransformations Demo.fns Demo.scene mat4.identity Demo.VP []).1
      (Or.inl rfl) rfl).2.1 []).symm.trans Demo.scene_triangles⟩

end ClaimsTraversal

section ClaimUnitNormal

/-- C14, the code at the failing input: `loadOBJ` turns an OBJ file with one face and
no normals into a mesh whose normal list is not empty and holds the zero vector for
every vertex.  For every node and every choice of the library functions the loop
body of `gatherTriangles` then takes the branch for meshes with normals: the normal
matrix maps the zero vector to the zero vector, `normalize` applies `inversesqrt` to
the squared length 0 and multiplies the zero vector by the result, and the stored
normal has the squared length 0, not 1. -/
theorem zero_normal_is_normalized_by_zero_length :
    loadOBJ true Demo.objAttrib Demo.objShapes = some Demo.loadedMesh
      ∧ Demo.loadedMesh.normals.isEmpty = false
      ∧ ∀ (fns : FloatFns ℚ) (node : SceneNode ℚ),
          ∃ tri, gatherLoopBody fns node Demo.loadedMesh 0 = some tri
            ∧ node.normalMatrix.mulVec ⟨0, 0, 0⟩ = ⟨0, 0, 0⟩
            ∧ dot (node.normalMatrix.mulVec ⟨0, 0, 0⟩) (node.normalMatrix.mulVec ⟨0, 0, 0⟩)
                = 0
            ∧ tri.n0 = glm.normalize fns (node.normalMatrix.mulVec ⟨0, 0, 0⟩)
            ∧ tri.n0 = (⟨0, 0, 0⟩ : vec3 ℚ).smul (fns.inversesqrt 0)
            ∧ dot tri.n0 tri.n0 = 0 ∧ dot tri.n0 tri.n0 ≠ 1 := by
  refine ⟨rfl, rfl, ?_⟩
  intro fns node
  have hzero : node.normalMatrix.mulVec (⟨0, 0, 0⟩ : vec3 ℚ) = ⟨0, 0, 0⟩ := by
    simp [mat3.mulVec]
  have hdot : dot (⟨0, 0, 0⟩ : vec3 ℚ) ⟨0, 0, 0⟩ = 0 := by
    simp [dot]
  refine ⟨⟨(node.modelMatrix.mulVec (vec4.ofVec3 ⟨0, 0, 0⟩ 1)).xyz,
      (node.modelMatrix.mulVec (vec4.ofVec3 ⟨1, 0, 0⟩ 1)).xyz,
      (node.modelMatrix.mulVec (vec4.ofVec3 ⟨0, 1, 0⟩ 1)).xyz,
      glm.normalize fns (node.normalMatrix.mulVec ⟨0, 0, 0⟩),
      glm.normalize fns (node.normalMatrix.mulVec ⟨0, 0, 0⟩),
      glm.normalize fns (node.normalMatrix.mulVec ⟨0, 0, 0⟩), node.materialID⟩,
    ?_, hzero, ?_, rfl, ?_, ?_, ?_⟩
  · simp [gatherLoopBody, Demo.loadedMesh]
  · rw [hzero, hdot]
  · simp only [hzero, glm.normalize, hdot]
  · simp only [hzero, glm.normalize, hdot]
    simp [dot, vec3.smul]
  · simp only [hzero, glm.normalize, hdot]
    simp [dot, vec3.smul]

end ClaimUnitNormal

section ClaimStride

variable {F : Type} [Zero F] [One F] [Add F] [Sub F] [Mul F] [Neg F] [Div F]

/-- C16, counterexample: on the demo mesh with the four indices 0, 1, 2, 0 the loop
of `gatherTriangles` has the two rounds 0 and 3: it builds the first triangle, finds
`3 < 4`, enters the body at position 3 and reads the positions 4 and 5, which do not
exist.  In the embedding that read leaves the pass without a value; the pass does
not stop at the one triangle of `floor(4 / 3)`. -/
theorem trailing_indices_are_read_counterexample :
    Demo.oddMesh.indices.length = 4
      ∧ gatherLoopRounds Demo.oddMesh.indices.length 0 = [0, 3]
      ∧ gatherLoop Demo.fns Demo.oddNode Demo.oddMesh 0 []
          = gatherLoop Demo.fns Demo.oddNode Demo.oddMesh 3
              [⟨⟨0, 0, 0⟩, ⟨1, 0, 0⟩, ⟨0, 1, 0⟩, ⟨0, 0, 0⟩, ⟨0, 0, 0⟩, ⟨0, 0, 0⟩, 0⟩]
      ∧ 3 < Demo.oddMesh.indices.length
      ∧ Demo.oddMesh.indices[3 + 1]? = none ∧ Demo.oddMesh.indices[3 + 2]? = none
      ∧ gatherLoopBody Demo.fns Demo.oddNode Demo.oddMesh 3 = none
      ∧ gatherTriangles Demo.fns Demo.oddRegistry Demo.oddNode [] = none
      ∧ ¬ ∃ out, gatherTriangles Demo.fns Demo.oddRegistry Demo.oddNode [] = some out
          ∧ out.length = Demo.oddMesh.indices.length / 3 := by
  have hstep := gatherLoop_step Demo.fns Demo.oddNode Demo.oddMesh 0 [] _ (by decide)
    Demo.oddMesh_body
  have hnone : gatherLoop Demo.fns Demo.oddNode Demo.oddMesh 0 [] = none :=
    gatherLoop_none_of_remainder Demo.fns Demo.oddNode Demo.oddMesh (by decide) []
  have hgather : gatherTriangles Demo.fns Demo.oddRegistry Demo.oddNode [] = none := by
    rw [gatherTriangles_unfold]
    have hty : hasGeometryType Demo.oddNode = true := rfl
    have hmesh : Demo.oddRegistry Demo.oddNode.vertexArrayObjectID = some Demo.oddMesh := rfl
    simp only [ownTriangles, hty, hmesh, if_true, hnone]
    rfl
  have hrounds : gatherLoopRounds Demo.oddMesh.indices.length 0 = [0, 3] := by
    rw [gatherLoopRounds_eq Demo.oddMesh.indices.length 2 0 rfl]
    rfl
  refine ⟨rfl, hrounds, hstep, by decide, rfl, rfl, Demo.oddMesh_second, hgather, ?_⟩
  rintro ⟨out, hout, _⟩
  rw [hgather] at hout
  cases hout

/-- C16, amended: for a mesh whose index list has a length that is a multiple of 3
and whose indices are in range, the loop of `gatherTriangles` returns `length / 3`
triangles, the `k`-th built by the body at position `3k` with the three positions
`3k`, `3k + 1`, `3k + 2` inside the list.  For every length the loop is the body run
at the rounds 0, 3, 6, ... below the length, one for every started group of three;
with a multiple of 3 every round has its three positions inside the list.  There is
no handling of a remainder: when the length is not a multiple of 3, the last round is
at the last multiple of 3 below the length, and its position `i + 2` is at or past
the end of the list. -/
theorem index_triples_need_multiple_of_three (fns : FloatFns F) (node : SceneNode F)
    (mesh : Mesh F) :
    (mesh.indices.length % 3 = 0 → mesh.IndicesInRange →
        ∃ own, gatherLoop fns node mesh 0 [] = some own
          ∧ own.length = mesh.indices.length / 3
          ∧ ∀ k, k < own.length →
              3 * k + 2 < mesh.indices.length
                ∧ gatherLoopBody fns node mesh (3 * k) = own[k]?)
      ∧ (∀ output, gatherLoop fns node mesh 0 output
          = (gatherLoopRounds mesh.indices.length 0).foldlM
              (fun out round =>
                (gatherLoopBody fns node mesh round).map (fun tri => out ++ [tri]))
              output)
      ∧ gatherLoopRounds mesh.indices.length 0
          = (List.range ((mesh.indices.length + 2) / 3)).map (fun k => 3 * k)
      ∧ (mesh.indices.length % 3 = 0 →
          ∀ round ∈ gatherLoopRounds mesh.indices.length 0,
            round + 2 < mesh.indices.length)
      ∧ (mesh.indices.length % 3 ≠ 0 →
          3 * (mesh.indices.length / 3) ∈ gatherLoopRounds mesh.indices.length 0
            ∧ 3 * (mesh.indices.length / 3) < mesh.indices.length
            ∧ mesh.indices.length ≤ 3 * (mesh.indices.length / 3) + 2
            ∧ mesh.indices[3 * (mesh.indices.length / 3) + 2]? = none) := by
  have hrounds : gatherLoopRounds mesh.indices.length 0
      = (List.range ((mesh.indices.length + 2) / 3)).map (fun k => 3 * k) := by
    rw [gatherLoopRounds_eq mesh.indices.length ((mesh.indices.length + 2) / 3) 0 rfl]
    exact List.map_congr_left (fun k _ => Nat.zero_add _)
  refine ⟨?_, fun output => gatherLoop_eq_rounds fns node mesh _ 0 output rfl, hrounds,
    ?_, ?_⟩
  · intro hthree hrange
    obtain ⟨own, hown⟩ := gatherLoop_isSome fns node mesh hrange 0 []
      (by simpa using hthree)
    obtain ⟨_, hlen⟩ := gatherLoop_some_three fns node mesh own hown
    refine ⟨own, hown, hlen, ?_⟩
    intro k hk
    have hbody := (gatherLoop_some fns node mesh 0 own hown).2 k hk
    rw [Nat.zero_add] at hbody
    refine ⟨?_, hbody⟩
    rw [List.getElem?_eq_getElem hk] at hbody
    exact gatherLoopBody_some_lt fns node mesh _ _ hbody
  · intro hthree round hround
    rw [hrounds, List.mem_map] at hround
    obtain ⟨k, hk, rfl⟩ := hround
    rw [List.mem_range] at hk
    omega
  · intro hthree
    refine ⟨?_, by omega, by omega, ?_⟩
    · rw [hrounds, List.mem_map]
      exact ⟨mesh.indices.length / 3, List.mem_range.mpr (by omega), rfl⟩
    · apply List.getElem?_eq_none
      omega

/-- C16, amended, at the demo mesh with three indices, and the last round at the
demo mesh with four. -/
theorem index_triples_need_multiple_of_three_witness :
    Demo.triangleMesh.indices.length % 3 = 0 ∧ Demo.triangleMesh.IndicesInRange
      ∧ (∃ own, gatherLoop Demo.fns Demo.oddNode Demo.triangleMesh 0 [] = some own
          ∧ own.length = Demo.triangleMesh.indices.length / 3
          ∧ ∀ k, k < own.length →
              3 * k + 2 < Demo.triangleMesh.indices.length
                ∧ gatherLoopBody Demo.fns Demo.oddNode Demo.triangleMesh (3 * k) = own[k]?)
      ∧ Demo.oddMesh.indices.length % 3 ≠ 0
      ∧ 3 * (Demo.oddMesh.indices.length / 3)
          ∈ gatherLoopRounds Demo.oddMesh.indices.length 0
      ∧ Demo.oddMesh.indices.length ≤ 3 * (Demo.oddMesh.indices.length / 3) + 2 :=
  ⟨rfl, Demo.registry_inRange 7 Demo.triangleMesh rfl,
    (index_triples_need_multiple_of_three Demo.fns Demo.oddNode Demo.triangleMesh).1 rfl
      (Demo.registry_inRange 7 Demo.triangleMesh rfl),
    by decide,
    ((index_triples_need_multiple_of_three Demo.fns Demo.oddNode Demo.oddMesh).2.2.2.2
      (by decide)).1,
    ((index_triples_need_multiple_of_three Demo.fns Demo.oddNode Demo.oddMesh).2.2.2.2
      (by decide)).2.2.1⟩

end ClaimStride

section ClaimRebuild

variable {F : Type} [Zero F] [One F] [Add F] [Sub F] [Mul F] [Neg F] [Div F]

/-- C17: the end of `updateFrame` rebuilds the triangle sequence in full.  Whatever
`lightsData` and `allTriangles` held before, the frame leaves what it leaves when
both were empty, and the triangle sequence is the one `gatherTriangles` produces
from the empty vector for the propagated tree; so no triangle of an earlier frame
survives.  A further frame on the same tree with the same `VP`, started from any
vectors (those of the frame before among them), leaves the same tree, lights and
triangles again, so the length does not grow. -/
theorem flattening_is_full_rebuild (fns : FloatFns F)
    (gMeshByVao : Int → Option (Mesh F)) (rootNode : SceneNode F) (VP : mat4 F)
    (lightsData : List (LightSourceData F)) (allTriangles : List (Triangle F)) :
    updateFrameRebuild fns gMeshByVao rootNode VP lightsData allTriangles
        = updateFrameRebuild fns gMeshByVao rootNode VP [] []
      ∧ (updateFrameRebuild fns gMeshByVao rootNode VP lightsData allTriangles).2.2
        = gatherTriangles fns gMeshByVao
            (updateNodeTransformations fns rootNode mat4.identity VP []).1 []
      ∧ updateFrameRebuild fns gMeshByVao rootNode VP lightsData allTriangles
        = rebuildFrame fns gMeshByVao rootNode VP
      ∧ ∀ (lightsNext : List (LightSourceData F)) (trianglesNext : List (Triangle F)),
          updateFrameRebuild fns gMeshByVao
              (updateFrameRebuild fns gMeshByVao rootNode VP lightsData allTriangles).1 VP
              lightsNext trianglesNext
            = updateFrameRebuild fns gMeshByVao rootNode VP lightsData allTriangles := by
  refine ⟨rfl, rfl, rfl, ?_⟩
  intro lightsNext trianglesNext
  have htree := update_idempotent fns VP rootNode mat4.identity [] []
  have hl1 := update_lights fns VP rootNode mat4.identity []
  have hl2 := update_lights fns VP
    (updateNodeTransformations fns rootNode mat4.identity VP []).1 mat4.identity []
  rw [htree] at hl2
  simp only [updateFrameRebuild, clear, htree, Prod.mk.injEq, true_and]
  exact ⟨hl2.trans hl1.symm, trivial⟩

end ClaimRebuild

section ClaimDetach

variable {F : Type} [Zero F] [One F] [Add F] [Sub F] [Mul F] [Neg F] [Div F]

/-- C18: let a frame have left the tree `before`, and let the child `t` at position
`i` of the node at `path` be erased from the child list of that node (for the root
this is what the T key does when it finds the trophy).  The next frame then leaves
the tree without that subtree; its triangle sequence is the previous one without
the contiguous part `S` that the subtree of `t` contributed, so its length is
smaller by the length of `S`; and its light list is the previous one without the
entries of the subtree. -/
theorem detached_subtree_leaves_next_frame (fns : FloatFns F)
    (gMeshByVao : Int → Option (Mesh F)) (rootNode : SceneNode F) (VP : mat4 F)
    (path : List Nat) (i : Nat) (parent t : SceneNode F) (out : List (Triangle F))
    (hparent : nodeAt (rebuildFrame fns gMeshByVao rootNode VP).1 path = some parent)
    (ht : parent.children[i]? = some t)
    (hout : (rebuildFrame fns gMeshByVao rootNode VP).2.2 = some out) :
    (rebuildFrame fns gMeshByVao
        (eraseChildAt (rebuildFrame fns gMeshByVao rootNode VP).1 path i) VP).1
        = eraseChildAt (rebuildFrame fns gMeshByVao rootNode VP).1 path i
      ∧ (∃ A S B, out = A ++ S ++ B ∧ gatherTriangles fns gMeshByVao t [] = some S
          ∧ (rebuildFrame fns gMeshByVao
              (eraseChildAt (rebuildFrame fns gMeshByVao rootNode VP).1 path i) VP).2.2
            = some (A ++ B)
          ∧ (A ++ B).length = out.length - S.length)
      ∧ (∃ LA LB, (rebuildFrame fns gMeshByVao rootNode VP).2.1 = LA ++ lightsOf t ++ LB
          ∧ (rebuildFrame fns gMeshByVao
              (eraseChildAt (rebuildFrame fns gMeshByVao rootNode VP).1 path i) VP).2.1
            = LA ++ LB)
      ∧ ∀ (isTrophy : SceneNode F → Bool) (trophySimpleNode : SceneNode F) (it : Nat),
          (rebuildFrame fns gMeshByVao rootNode VP).1.children.findIdx? isTrophy = some it →
          keyCallbackTrophy isTrophy (rebuildFrame fns gMeshByVao rootNode VP).1
              trophySimpleNode
            = eraseChildAt (rebuildFrame fns gMeshByVao rootNode VP).1 [] it := by
  have htree : (rebuildFrame fns gMeshByVao
      (eraseChildAt (rebuildFrame fns gMeshByVao rootNode VP).1 path i) VP).1
      = eraseChildAt (rebuildFrame fns gMeshByVao rootNode VP).1 path i := by
    simp only [rebuildFrame]
    rw [update_eraseChildAt, update_idempotent]
  refine ⟨htree, ?_, ?_, ?_⟩
  · obtain ⟨A, S, B, hsplit, hS, hnew⟩ := gatherTriangles_eraseChildAt fns gMeshByVao path i
      (rebuildFrame fns gMeshByVao rootNode VP).1 parent t out hout hparent ht
    refine ⟨A, S, B, hsplit, hS, ?_, ?_⟩
    · have : (rebuildFrame fns gMeshByVao
          (eraseChildAt (rebuildFrame fns gMeshByVao rootNode VP).1 path i) VP).2.2
          = gatherTriangles fns gMeshByVao (rebuildFrame fns gMeshByVao
              (eraseChildAt (rebuildFrame fns gMeshByVao rootNode VP).1 path i) VP).1 [] :=
        rfl
      rw [this, htree]
      exact hnew
    · rw [hsplit]
      simp only [List.length_append]
      omega
  · obtain ⟨LA, LB, hold, hnew⟩ := lightsOf_eraseChildAt path i
      (rebuildFrame fns gMeshByVao rootNode VP).1 parent t hparent ht
    refine ⟨LA, LB, ?_, ?_⟩
    · rw [rebuildFrame_lights]
      exact hold
    · rw [rebuildFrame_lights, htree]
      exact hnew
  · intro isTrophy trophySimpleNode it hit
    simp only [keyCallbackTrophy, hit]
    rfl

/-- C18 at the demo scene: after the only child of the root is erased, the next
frame has no triangle left. -/
theorem detached_subtree_leaves_next_frame_witness :
    nodeAt (rebuildFrame Demo.fns Demo.registry Demo.scene Demo.VP).1 []
        = some (rebuildFrame Demo.fns Demo.registry Demo.scene Demo.VP).1
      ∧ (rebuildFrame Demo.fns Demo.registry Demo.scene Demo.VP).1.children[0]?
        = some (updateNodeTransformations Demo.fns Demo.child
            (mat4.identity * localTransform Demo.fns Demo.scene) Demo.VP []).1
      ∧ (rebuildFrame Demo.fns Demo.registry Demo.scene Demo.VP).2.2
        = some [⟨⟨10, 0, 0⟩, ⟨11, 0, 0⟩, ⟨10, 1, 0⟩, ⟨0, 0, 0⟩, ⟨0, 0, 0⟩, ⟨0, 0, 0⟩, 0⟩]
      ∧ ∃ A S B,
          [(⟨⟨10, 0, 0⟩, ⟨11, 0, 0⟩, ⟨10, 1, 0⟩, ⟨0, 0, 0⟩, ⟨0, 0, 0⟩, ⟨0, 0, 0⟩, 0⟩ :
            Triangle ℚ)] = A ++ S ++ B
          ∧ gatherTriangles Demo.fns Demo.registry (updateNodeTransformations Demo.fns
              Demo.child (mat4.identity * localTransform Demo.fns Demo.scene) Demo.VP
              []).1 [] = some S
          ∧ (rebuildFrame Demo.fns Demo.registry
              (eraseChildAt (rebuildFrame Demo.fns Demo.registry Demo.scene Demo.VP).1 []
                0) Demo.VP).2.2
            = some (A ++ B)
          ∧ (A ++ B).length
            = [(⟨⟨10, 0, 0⟩, ⟨11, 0, 0⟩, ⟨10, 1, 0⟩, ⟨0, 0, 0⟩, ⟨0, 0, 0⟩, ⟨0, 0, 0⟩, 0⟩ :
                Triangle ℚ)].length - S.length :=
  ⟨rfl, rfl, Demo.scene_triangles,
    (detached_subtree_leaves_next_frame Demo.fns Demo.registry Demo.scene Demo.VP [] 0
      (rebuildFrame Demo.fns Demo.registry Demo.scene Demo.VP).1
      (updateNodeTransformations Demo.fns Demo.child
        (mat4.identity * localTransform Demo.fns Demo.scene) Demo.VP []).1
      _ rfl rfl Demo.scene_triangles).2.1⟩

end ClaimDetach

section ClaimSingular

variable {F : Type} [Zero F] [One F] [Add F] [Sub F] [Mul F] [Neg F] [Div F]

/-- C19, counterexample: for the demo node with the scale (0,1,1) the upper-left
block of the model matrix is diag(0,1,1), with determinant 0, and the normal matrix
that propagation stores is neither the identity nor that block: its middle entry is
0, where both have 1. -/
theorem singular_block_has_no_fallback_counterexample :
    determinant (mat3.ofMat4 (updateNodeTransformations Demo.fns Demo.flat mat4.identity
        Demo.VP []).1.modelMatrix) = 0
      ∧ ¬ ((updateNodeTransformations Demo.fns Demo.flat mat4.identity Demo.VP
            []).1.normalMatrix = mat3.identity
          ∨ (updateNodeTransformations Demo.fns Demo.flat mat4.identity Demo.VP
            []).1.normalMatrix
            = mat3.ofMat4 (updateNodeTransformations Demo.fns Demo.flat mat4.identity
                Demo.VP []).1.modelMatrix) := by
  refine ⟨Demo.flat_determinant, ?_⟩
  have hentry := Demo.flat_normalMatrix_entry
  rintro (h | h)
  · rw [h] at hentry
    simp [mat3.identity] at hentry
  · rw [h, Demo.flat_modelMatrix] at hentry
    simp [mat3.ofMat4, vec4.xyz] at hentry

/-- C19, amended: propagation is a total function, and for every node of the tree
it leaves, the stored normal matrix is the transpose of what `glm::inverse` returns
for the upper-left block `B` of the model matrix; when the determinant of `B` is
zero this is the transpose of the cofactors of `B` times `1 / 0`.  No test of the
determinant and no fallback value is involved. -/
theorem singular_block_is_inverted_all_the_same (fns : FloatFns F) (root : SceneNode F)
    (T VP : mat4 F) (lights : List (LightSourceData F)) (path : List Nat)
    (n : SceneNode F)
    (hn : nodeAt (updateNodeTransformations fns root T VP lights).1 path = some n) :
    n.normalMatrix = transpose (inverse (mat3.ofMat4 n.modelMatrix))
      ∧ (determinant (mat3.ofMat4 n.modelMatrix) = 0 →
          n.normalMatrix = transpose (cofactorsTimes (mat3.ofMat4 n.modelMatrix) (1 / 0))) := by
  have hstored : n.normalMatrix = transpose (inverse (mat3.ofMat4 n.modelMatrix)) := by
    obtain ⟨n0, _, rfl⟩ := nodeAt_update_some fns root T VP lights path n hn
    rw [update_normalMatrix, update_modelMatrix]
  refine ⟨hstored, ?_⟩
  intro hdet
  rw [hstored, inverse_eq_cofactorsTimes, hdet]

/-- C19, amended, at the demo node with the scale (0,1,1). -/
theorem singular_block_is_inverted_all_the_same_witness :
    nodeAt (updateNodeTransformations Demo.fns Demo.flat mat4.identity Demo.VP []).1 []
        = some (updateNodeTransformations Demo.fns Demo.flat mat4.identity Demo.VP []).1
      ∧ determinant (mat3.ofMat4 (updateNodeTransformations Demo.fns Demo.flat
          mat4.identity Demo.VP []).1.modelMatrix) = 0
      ∧ (updateNodeTransformations Demo.fns Demo.flat mat4.identity Demo.VP
          []).1.normalMatrix
        = transpose (cofactorsTimes (mat3.ofMat4 (updateNodeTransformations Demo.fns
            Demo.flat mat4.identity Demo.VP []).1.modelMatrix) (1 / 0)) :=
  ⟨rfl, Demo.flat_determinant,
    (singular_block_is_inverted_all_the_same Demo.fns Demo.flat mat4.identity Demo.VP []
      [] _ rfl).2 Demo.flat_determinant⟩

end ClaimSingular

section ClaimFresh

variable {F : Type} [Field F]

/-- C20: the constructor `SceneNode()` gives the position (0,0,0), the rotation
(0,0,0), the scale (1,1,1), the reference point (0,0,0), the handle -1 with the
index count 0, the type GEOMETRY, the material index 0 and no children; and
propagating such a node under the identity gives it the identity as model matrix,
given that `cos 0 = 1` and `sin 0 = 0`. -/
theorem fresh_node_has_identity_defaults (globalId : Int) (indeterminate : SceneNode F)
    (fns : FloatFns F) (VP : mat4 F) (lights : List (LightSourceData F)) :
    (SceneNode.construct globalId indeterminate).1.position = ⟨0, 0, 0⟩
      ∧ (SceneNode.construct globalId indeterminate).1.rotation = ⟨0, 0, 0⟩
      ∧ (SceneNode.construct globalId indeterminate).1.scale = ⟨1, 1, 1⟩
      ∧ (SceneNode.construct globalId indeterminate).1.referencePoint = ⟨0, 0, 0⟩
      ∧ (SceneNode.construct globalId indeterminate).1.vertexArrayObjectID = -1
      ∧ (SceneNode.construct globalId indeterminate).1.VAOIndexCount = 0
      ∧ (SceneNode.construct globalId indeterminate).1.nodeType = SceneNodeType.GEOMETRY
      ∧ (SceneNode.construct globalId indeterminate).1.materialID = 0
      ∧ (SceneNode.construct globalId indeterminate).1.children = []
      ∧ (fns.cos 0 = 1 → fns.sin 0 = 0 →
          (updateNodeTransformations fns (SceneNode.construct globalId indeterminate).1
            mat4.identity VP lights).1.modelMatrix = mat4.identity) := by
  refine ⟨rfl, rfl, rfl, rfl, rfl, rfl, rfl, rfl, rfl, ?_⟩
  intro hcos hsin
  rw [update_modelMatrix,
    localTransform_unrotated fns hcos hsin (SceneNode.construct globalId indeterminate).1
      rfl rfl,
    mat4.identity_mul]
  rfl

/-- C20 at the demo functions and the demo values of the unset members. -/
theorem fresh_node_has_identity_defaults_witness :
    Demo.fns.cos 0 = 1 ∧ Demo.fns.sin 0 = 0
      ∧ (updateNodeTransformations Demo.fns (SceneNode.construct 0 Demo.indeterminate).1
          mat4.identity Demo.VP []).1.modelMatrix = mat4.identity :=
  ⟨Demo.fns_cos_zero, Demo.fns_sin_zero,
    (fresh_node_has_identity_defaults 0 Demo.indeterminate Demo.fns Demo.VP
      []).2.2.2.2.2.2.2.2.2 Demo.fns_cos_zero Demo.fns_sin_zero⟩

end ClaimFresh

/-! ## Node identifiers -/

section ClaimIdentifiers

variable {F : Type} [Field F]

/-- A construction reads the counter of its own translation unit, advances that
counter by one and leaves the counters of the other units as they were. -/
theorem constructIn_counter (unit : TranslationUnit) (globalId : TranslationUnit → Int)
    (indeterminate : SceneNode F) :
    (constructIn unit globalId indeterminate).1.id = globalId unit
      ∧ (constructIn unit globalId indeterminate).2 unit = globalId unit + 1
      ∧ ∀ other, other ≠ unit →
          (constructIn unit globalId indeterminate).2 other = globalId other := by
  refine ⟨rfl, ?_, ?_⟩
  · simp [constructIn, SceneNode.construct]
  · intro other hother
    simp [constructIn, hother]

/-- C21: the identifiers are not unique in the creation sequence of `initGame`.  The
nine nodes made through `createSceneNode` count in the copy of `globalId` of
`sceneGraph.cpp` and get 0 to 8; the text node, constructed in `gamelogic.cpp`, counts
in the copy of that file, which is still 0: it gets the identifier 0 of the root
node, which is not greater than the identifiers given before it. -/
theorem text_node_repeats_root_identifier (indeterminate : SceneNode F) :
    (initGameCreations indeterminate).map (fun n => n.id) = [0, 1, 2, 3, 4, 5, 6, 7, 8, 0]
      ∧ ¬ ((initGameCreations indeterminate).map (fun n => n.id)).Nodup
      ∧ ∃ rootNode textNode,
          (initGameCreations indeterminate)[0]? = some rootNode
            ∧ (initGameCreations indeterminate)[9]? = some textNode
            ∧ ¬ (rootNode.id < textNode.id) := by
  have hids : (initGameCreations indeterminate).map (fun n => n.id)
      = [0, 1, 2, 3, 4, 5, 6, 7, 8, 0] := rfl
  refine ⟨hids, ?_, _, _, rfl, rfl, ?_⟩
  · rw [hids]
    decide
  · show ¬ ((0 : Int) < 0)
    decide

end ClaimIdentifiers

/-! ## The light list across propagations -/

section ClaimAppend

variable {F : Type} [Field F]

/-- C23: `updateNodeTransformations` only appends to the light list.  For every tree
and every prior content `L`, the list after one propagation is `L` followed by the
point-light entries of the tree; its length is that of `L` plus the number of
`POINT_LIGHT` nodes; and a second propagation on the resulting list, with no clear
in between, gives `L` followed by the entries twice. -/
theorem propagation_only_appends_lights (fns : FloatFns F) (node : SceneNode F)
    (T VP : mat4 F) (L : List (LightSourceData F)) :
    (updateNodeTransformations fns node T VP L).2
        = L ++ lightsOf (updateNodeTransformations fns node T VP L).1
      ∧ (updateNodeTransformations fns node T VP L).2.length
          = L.length + (preorder node).countP
              (fun n => decide (n.nodeType = SceneNodeType.POINT_LIGHT))
      ∧ (updateNodeTransformations fns (updateNodeTransformations fns node T VP L).1 T VP
            (updateNodeTransformations fns node T VP L).2).2
          = L ++ lightsOf (updateNodeTransformations fns node T VP L).1
              ++ lightsOf (updateNodeTransformations fns node T VP L).1 := by
  have hlights : (updateNodeTransformations fns node T VP L).2
      = L ++ lightsOf (updateNodeTransformations fns node T VP L).1 :=
    update_lights fns VP node T L
  have hshape := preorder_update fns VP node T L
  have hcount : ∀ l : List (SceneNode F),
      l.countP (fun n => decide (n.nodeType = SceneNodeType.POINT_LIGHT))
        = (l.map (fun n => (n.nodeType, n.lightColor))).countP
            (fun p => decide (p.1 = SceneNodeType.POINT_LIGHT)) := by
    intro l
    rw [List.countP_map]
    rfl
  refine ⟨hlights, ?_, ?_⟩
  · rw [hlights, List.length_append]
    simp only [lightsOf]
    rw [List.length_map, ← List.countP_eq_length_filter, hcount, hshape, ← hcount]
  · have hagain := update_lights fns VP (updateNodeTransformations fns node T VP L).1 T
      (updateNodeTransformations fns node T VP L).2
    rw [update_idempotent fns VP node T L] at hagain
    rw [hagain]
    simp only [lightsOf]
    rw [hlights]
    simp only [lightsOf]

end ClaimAppend

/-! ## The trophy toggle -/

section Toggle

variable {α : Type}

/-- Erasing the first element that passes a test removes one element that passes it
and leaves the elements that fail it as they were. -/
theorem eraseIdx_found (p : α → Bool) (l : List α) :
    ∀ i, l.findIdx? p = some i →
      (l.eraseIdx i).countP p + 1 = l.countP p
        ∧ (l.eraseIdx i).filter (fun x => !p x) = l.filter (fun x => !p x) := by
  induction l with
  | nil =>
    intro i h
    simp at h
  | cons x xs ih =>
    intro i h
    rw [List.findIdx?_cons] at h
    by_cases hx : p x = true
    · rw [if_pos hx] at h
      cases h
      simp [List.countP_cons, hx]
    · rw [if_neg hx, List.findIdx?_succ] at h
      cases hj : xs.findIdx? p with
      | none => rw [hj] at h; simp at h
      | some j =>
        rw [hj] at h
        simp only [Option.map_some', Option.some.injEq] at h
        subst h
        obtain ⟨hcount, hfilter⟩ := ih j hj
        simp only [Bool.not_eq_true] at hx
        simp [List.countP_cons, hx, hcount, hfilter]

end Toggle

section ClaimTrophy

variable {F : Type}

/-- One press of the key T, on a root whose child list holds the trophy at most
once. -/
theorem keyCallbackTrophy_step (isTrophy : SceneNode F → Bool)
    (rootNode trophySimpleNode : SceneNode F) (htrophy : isTrophy trophySimpleNode = true)
    (honce : rootNode.children.countP isTrophy ≤ 1) :
    (keyCallbackTrophy isTrophy rootNode trophySimpleNode).children.countP isTrophy ≤ 1
      ∧ (keyCallbackTrophy isTrophy rootNode trophySimpleNode).children.filter
            (fun n => !isTrophy n)
          = rootNode.children.filter (fun n => !isTrophy n)
      ∧ (keyCallbackTrophy isTrophy rootNode trophySimpleNode).children.any isTrophy
          = !rootNode.children.any isTrophy
      ∧ (rootNode.children.any isTrophy = false →
          (keyCallbackTrophy isTrophy rootNode trophySimpleNode).children
            = rootNode.children ++ [trophySimpleNode]) := by
  cases hfind : rootNode.children.findIdx? isTrophy with
  | some it =>
    have hstep : (keyCallbackTrophy isTrophy rootNode trophySimpleNode).children
        = rootNode.children.eraseIdx it := by
      simp only [keyCallbackTrophy, hfind]
    obtain ⟨hcount, hfilter⟩ := eraseIdx_found isTrophy rootNode.children it hfind
    have hzero : (rootNode.children.eraseIdx it).countP isTrophy = 0 := by omega
    have hpos : 0 < rootNode.children.countP isTrophy := by omega
    have hany : rootNode.children.any isTrophy = true := by
      rw [List.any_eq_true]
      exact List.countP_pos_iff.mp hpos
    have hnone : (rootNode.children.eraseIdx it).any isTrophy = false := by
      rw [Bool.eq_false_iff]
      intro h
      rw [List.any_eq_true] at h
      obtain ⟨x, hx, hpx⟩ := h
      exact List.countP_eq_zero.mp hzero x hx hpx
    rw [hstep]
    refine ⟨by omega, hfilter, ?_, ?_⟩
    · rw [hnone, hany]
      rfl
    · intro h
      rw [hany] at h
      cases h
  | none =>
    have hstep : (keyCallbackTrophy isTrophy rootNode trophySimpleNode).children
        = rootNode.children ++ [trophySimpleNode] := by
      simp only [keyCallbackTrophy, hfind, addChild]
    have hall : ∀ x ∈ rootNode.children, ¬ isTrophy x = true := by
      intro x hx
      have h := List.findIdx?_eq_none_iff.mp hfind x hx
      simp [h]
    have hzero : rootNode.children.countP isTrophy = 0 := List.countP_eq_zero.mpr hall
    have hany : rootNode.children.any isTrophy = false := by
      rw [Bool.eq_false_iff]
      intro h
      rw [List.any_eq_true] at h
      obtain ⟨x, hx, hpx⟩ := h
      exact hall x hx hpx
    rw [hstep]
    refine ⟨?_, ?_, ?_, fun _ => rfl⟩
    · rw [List.countP_append, hzero]
      simp [htrophy]
    · rw [List.filter_append]
      simp [htrophy]
    · rw [List.any_append, hany]
      simp [htrophy]

/-- C24: if the trophy occurs at most once among the children of the root, then
after any number of presses of the key T it still occurs at most once and the other
children are the same, in the same order, as at the start; the next press flips
whether the trophy is present, and when it was absent the press puts it at the end of
the child list. -/
theorem trophy_toggle_invariant (isTrophy : SceneNode F → Bool)
    (rootNode trophySimpleNode : SceneNode F) (htrophy : isTrophy trophySimpleNode = true)
    (honce : rootNode.children.countP isTrophy ≤ 1) (presses : Nat) :
    (Nat.iterate (fun r => keyCallbackTrophy isTrophy r trophySimpleNode) presses
        rootNode).children.countP isTrophy ≤ 1
      ∧ (Nat.iterate (fun r => keyCallbackTrophy isTrophy r trophySimpleNode) presses
          rootNode).children.filter (fun n => !isTrophy n)
          = rootNode.children.filter (fun n => !isTrophy n)
      ∧ (Nat.iterate (fun r => keyCallbackTrophy isTrophy r trophySimpleNode) (presses + 1)
          rootNode).children.any isTrophy
          = !(Nat.iterate (fun r => keyCallbackTrophy isTrophy r trophySimpleNode) presses
              rootNode).children.any isTrophy
      ∧ ((Nat.iterate (fun r => keyCallbackTrophy isTrophy r trophySimpleNode) presses
            rootNode).children.any isTrophy = false →
          (Nat.iterate (fun r => keyCallbackTrophy isTrophy r trophySimpleNode)
              (presses + 1) rootNode).children
            = (Nat.iterate (fun r => keyCallbackTrophy isTrophy r trophySimpleNode) presses
                rootNode).children ++ [trophySimpleNode]) := by
  have hinv : ∀ k,
      (Nat.iterate (fun r => keyCallbackTrophy isTrophy r trophySimpleNode) k
          rootNode).children.countP isTrophy ≤ 1
        ∧ (Nat.iterate (fun r => keyCallbackTrophy isTrophy r trophySimpleNode) k
            rootNode).children.filter (fun n => !isTrophy n)
            = rootNode.children.filter (fun n => !isTrophy n) := by
    intro k
    induction k with
    | zero => exact ⟨honce, rfl⟩
    | succ k ih =>
      rw [Function.iterate_succ_apply']
      obtain ⟨hcount, hfilter, _, _⟩ :=
        keyCallbackTrophy_step isTrophy _ trophySimpleNode htrophy ih.1
      exact ⟨hcount, hfilter.trans ih.2⟩
  obtain ⟨_, _, hflip, hend⟩ :=
    keyCallbackTrophy_step isTrophy _ trophySimpleNode htrophy (hinv presses).1
  rw [Function.iterate_succ_apply']
  exact ⟨(hinv presses).1, (hinv presses).2, hflip, hend⟩

/-- C24 at the demo root with the children trophy, geometry node: the first press
removes the trophy, the second puts it back behind the other child. -/
theorem trophy_toggle_invariant_witness :
    Demo.isTrophy Demo.trophy = true
      ∧ Demo.hall.children.countP Demo.isTrophy ≤ 1
      ∧ (Nat.iterate (fun r => keyCallbackTrophy Demo.isTrophy r Demo.trophy) 1
          Demo.hall).children = [Demo.child]
      ∧ (Nat.iterate (fun r => keyCallbackTrophy Demo.isTrophy r Demo.trophy) 2
          Demo.hall).children
          = (Nat.iterate (fun r => keyCallbackTrophy Demo.isTrophy r Demo.trophy) 1
              Demo.hall).children ++ [Demo.trophy]
      ∧ (Nat.iterate (fun r => keyCallbackTrophy Demo.isTrophy r Demo.trophy) 2
          Demo.hall).children = [Demo.child, Demo.trophy] :=
  ⟨rfl, by decide, rfl,
    (trophy_toggle_invariant Demo.isTrophy Demo.hall Demo.trophy rfl (by decide) 1).2.2.2 rfl,
    rfl⟩

end ClaimTrophy

/-! ## The key-frame search -/

section KeyFrameLemmas

variable {F : Type} [LT F] [DecidableRel (fun a b : F => a < b)]

theorem u32_of_lt (n : Nat) (h : n < 4294967296) : u32 n = n :=
  Nat.mod_eq_of_lt h

theorem u32_lt (n : Nat) : u32 n < 4294967296 :=
  Nat.mod_lt n (by decide)

/-- A search that has ended within some number of rounds ends with the same value
within any larger number. -/
theorem keyFrameSearch_more_fuel (keyFrameTimeStamps : List F) (gameElapsedTime : F) :
    ∀ (fuel more i current r : Nat),
      keyFrameSearch keyFrameTimeStamps gameElapsedTime fuel i current = some r →
      keyFrameSearch keyFrameTimeStamps gameElapsedTime (fuel + more) i current = some r := by
  intro fuel
  induction fuel with
  | zero =>
    intro more i current r h
    simp [keyFrameSearch] at h
  | succ fuel ih =>
    intro more i current r h
    rw [Nat.add_right_comm]
    rw [keyFrameSearch] at h ⊢
    by_cases hi : i < keyFrameTimeStamps.length
    · rw [dif_pos hi] at h ⊢
      by_cases ht : gameElapsedTime < keyFrameTimeStamps[i]
      · rw [if_pos ht] at h ⊢
        exact ih more _ _ r h
      · rw [if_neg ht] at h ⊢
        exact ih more _ _ r h
    · rw [dif_neg hi] at h ⊢
      exact h

/-- With 2^32 time stamps or more the counter wraps before it reaches the size, and
the loop never ends. -/
theorem keyFrameSearch_none_of_large (keyFrameTimeStamps : List F) (gameElapsedTime : F)
    (hlarge : 4294967296 ≤ keyFrameTimeStamps.length) :
    ∀ (fuel i current : Nat), i < 4294967296 →
      keyFrameSearch keyFrameTimeStamps gameElapsedTime fuel i current = none := by
  intro fuel
  induction fuel with
  | zero =>
    intro i current _
    rfl
  | succ fuel ih =>
    intro i current hi
    have hin : i < keyFrameTimeStamps.length := by omega
    rw [keyFrameSearch, dif_pos hin]
    by_cases ht : gameElapsedTime < keyFrameTimeStamps[i]
    · rw [if_pos ht]
      exact ih _ _ (u32_lt _)
    · rw [if_neg ht]
      exact ih _ _ (u32_lt _)

/-- With fewer than 2^32 time stamps, the last of them after the elapsed time, the
loop ends within `size - i + 1` rounds, and its value is the one it started with or a
position from `i` on that is below the last one. -/
theorem keyFrameSearch_ends (keyFrameTimeStamps : List F) (gameElapsedTime last : F)
    (hsize : keyFrameTimeStamps.length < 4294967296)
    (hlast : keyFrameTimeStamps[keyFrameTimeStamps.length - 1]? = some last)
    (ht : gameElapsedTime < last) :
    ∀ (fuel i current : Nat), i ≤ keyFrameTimeStamps.length →
      keyFrameTimeStamps.length - i < fuel →
      ∃ r, keyFrameSearch keyFrameTimeStamps gameElapsedTime fuel i current = some r
        ∧ (r = current ∨ (i ≤ r ∧ r + 1 < keyFrameTimeStamps.length)) := by
  intro fuel
  induction fuel with
  | zero =>
    intro i current _ hfuel
    omega
  | succ fuel ih =>
    intro i current hi hfuel
    rw [keyFrameSearch]
    by_cases hin : i < keyFrameTimeStamps.length
    · rw [dif_pos hin, u32_of_lt (i + 1) (by omega)]
      by_cases hti : gameElapsedTime < keyFrameTimeStamps[i]
      · rw [if_pos hti]
        obtain ⟨r, hr, hor⟩ := ih (i + 1) current (by omega) (by omega)
        refine ⟨r, hr, ?_⟩
        rcases hor with h | h
        · exact Or.inl h
        · exact Or.inr ⟨by omega, h.2⟩
      · rw [if_neg hti]
        have hne : i ≠ keyFrameTimeStamps.length - 1 := by
          intro heq
          apply hti
          have hget : keyFrameTimeStamps[i]? = some last := by rw [heq]; exact hlast
          rw [List.getElem?_eq_getElem hin] at hget
          cases hget
          exact ht
        obtain ⟨r, hr, hor⟩ := ih (i + 1) i (by omega) (by omega)
        refine ⟨r, hr, Or.inr ?_⟩
        rcases hor with h | h
        · subst h
          exact ⟨le_refl _, by omega⟩
        · exact ⟨by omega, h.2⟩
    · rw [dif_neg hin]
      exact ⟨current, rfl, Or.inl rfl⟩

/-- The four reads succeed at a position below the last one. -/
theorem keyFrameReads_isSome (keyFrameTimeStamps : List F)
    (keyFrameDirections : List KeyFrameAction) (r : Nat)
    (hsize : keyFrameTimeStamps.length < 4294967296)
    (hdirs : keyFrameDirections.length = keyFrameTimeStamps.length)
    (hr : r + 1 < keyFrameTimeStamps.length) :
    (keyFrameReads keyFrameTimeStamps keyFrameDirections r).isSome = true := by
  simp only [keyFrameReads]
  rw [u32_of_lt (r + 1) (by omega),
    List.getElem?_eq_getElem (show r < keyFrameTimeStamps.length by omega),
    List.getElem?_eq_getElem hr,
    List.getElem?_eq_getElem (show r < keyFrameDirections.length by omega),
    List.getElem?_eq_getElem (show r + 1 < keyFrameDirections.length by omega)]
  rfl

end KeyFrameLemmas

section ClaimKeyFrames

variable {F : Type} [LT F] [DecidableRel (fun a b : F => a < b)]

/-- C25: if the last entry of `keyFrameTimeStamps` is greater than `gameElapsedTime`,
`keyFrameDirections` has the same length and `currentKeyFrame` starts below the last
index, then whenever the search loop ends, the new `currentKeyFrame` is not smaller
than the old one, is below the last index, and the reads at `currentKeyFrame` and
`currentKeyFrame + 1` of both tables succeed.  With fewer than 2^32 time stamps the
loop does end, within `size - currentKeyFrame + 1` rounds. -/
theorem keyframe_lookup_stays_in_range (keyFrameTimeStamps : List F)
    (keyFrameDirections : List KeyFrameAction) (gameElapsedTime last : F)
    (currentKeyFrame : Nat)
    (hlast : keyFrameTimeStamps[keyFrameTimeStamps.length - 1]? = some last)
    (ht : gameElapsedTime < last)
    (hdirs : keyFrameDirections.length = keyFrameTimeStamps.length)
    (hstart : currentKeyFrame < keyFrameTimeStamps.length - 1)
    (hword : currentKeyFrame < 4294967296) :
    (∀ fuel r,
        keyFrameSearch keyFrameTimeStamps gameElapsedTime fuel currentKeyFrame
            currentKeyFrame = some r →
          currentKeyFrame ≤ r ∧ r < keyFrameTimeStamps.length - 1
            ∧ r < keyFrameTimeStamps.length ∧ r + 1 < keyFrameTimeStamps.length
            ∧ r < keyFrameDirections.length ∧ r + 1 < keyFrameDirections.length
            ∧ (keyFrameReads keyFrameTimeStamps keyFrameDirections r).isSome = true)
      ∧ (keyFrameTimeStamps.length < 4294967296 →
          ∃ r, keyFrameSearch keyFrameTimeStamps gameElapsedTime
            (keyFrameTimeStamps.length - currentKeyFrame + 1) currentKeyFrame
            currentKeyFrame = some r) := by
  constructor
  · intro fuel r hr
    by_cases hsize : keyFrameTimeStamps.length < 4294967296
    · obtain ⟨r1, hr1, hor⟩ := keyFrameSearch_ends keyFrameTimeStamps gameElapsedTime last
        hsize hlast ht (keyFrameTimeStamps.length - currentKeyFrame + 1) currentKeyFrame
        currentKeyFrame (by omega) (by omega)
      have h1 := keyFrameSearch_more_fuel keyFrameTimeStamps gameElapsedTime fuel
        (keyFrameTimeStamps.length - currentKeyFrame + 1) _ _ _ hr
      have h2 := keyFrameSearch_more_fuel keyFrameTimeStamps gameElapsedTime
        (keyFrameTimeStamps.length - currentKeyFrame + 1) fuel _ _ _ hr1
      rw [Nat.add_comm] at h2
      rw [h1] at h2
      cases h2
      have hbelow : r + 1 < keyFrameTimeStamps.length := by
        rcases hor with h | h
        · omega
        · exact h.2
      have hfrom : currentKeyFrame ≤ r := by
        rcases hor with h | h
        · omega
        · exact h.1
      exact ⟨hfrom, by omega, by omega, hbelow, by omega, by omega,
        keyFrameReads_isSome keyFrameTimeStamps keyFrameDirections r hsize hdirs hbelow⟩
    · rw [keyFrameSearch_none_of_large keyFrameTimeStamps gameElapsedTime (by omega) fuel
        currentKeyFrame currentKeyFrame hword] at hr
      cases hr
  · intro hsize
    obtain ⟨r, hr, _⟩ := keyFrameSearch_ends keyFrameTimeStamps gameElapsedTime last
      hsize hlast ht (keyFrameTimeStamps.length - currentKeyFrame + 1) currentKeyFrame
      currentKeyFrame (by omega) (by omega)
    exact ⟨r, hr⟩

/-- The loop at the demo tables, from the first key frame at the time 3/2, ends at
the key frame 1. -/
theorem Demo.keyFrameSearch_value :
    keyFrameSearch Demo.keyFrameTimeStamps (3 / 2) 5 0 0 = some 1 := by
  simp [keyFrameSearch, Demo.keyFrameTimeStamps, u32]
  norm_num

/-- C25 at the demo tables, from the first key frame at the time 3/2. -/
theorem keyframe_lookup_stays_in_range_witness :
    Demo.keyFrameTimeStamps[Demo.keyFrameTimeStamps.length - 1]? = some 1000
      ∧ (3 / 2 : ℚ) < 1000
      ∧ Demo.keyFrameDirections.length = Demo.keyFrameTimeStamps.length
      ∧ 0 < Demo.keyFrameTimeStamps.length - 1
      ∧ keyFrameSearch Demo.keyFrameTimeStamps (3 / 2) 5 0 0 = some 1
      ∧ (keyFrameReads Demo.keyFrameTimeStamps Demo.keyFrameDirections 1).isSome = true :=
  ⟨rfl, by norm_num, rfl, by decide, Demo.keyFrameSearch_value,
    ((keyframe_lookup_stays_in_range Demo.keyFrameTimeStamps Demo.keyFrameDirections
      (3 / 2) 1000 0 rfl (by norm_num) rfl (by decide) (by decide)).1 5 1
      Demo.keyFrameSearch_value).2.2.2.2.2.2⟩

end ClaimKeyFrames

/-! ## The text mesh -/

section TextLemmas

variable {F : Type} [Zero F] [One F] [Add F] [Mul F] [Div F] [NatCast F] [IntCast F]

theorem setAt_of_lt {α : Type} (v : List α) (k : Nat) (a : α) (h : k < v.length) :
    setAt v k a = some (v.set k a) := by
  simp [setAt, h]

/-- The six vertex writes of a round succeed when the last position is in range,
and keep the length. -/
theorem textLoopVertices_some (baseXCoordinate characterWidth characterHeight : F)
    (vertices : List (vec3 F)) (i : Nat) (hin : 4 * i + 3 < vertices.length)
    (hword : vertices.length < 4294967296) :
    ∃ v, textLoopVertices baseXCoordinate characterWidth characterHeight vertices i = some v
      ∧ v.length = vertices.length := by
  have h0 : 4 * i < vertices.length := by omega
  have h1 : 4 * i + 1 < vertices.length := by omega
  have h2 : 4 * i + 2 < vertices.length := by omega
  simp only [textLoopVertices, Nat.add_zero, u32_of_lt (4 * i) (by omega),
    u32_of_lt (4 * i + 1) (by omega), u32_of_lt (4 * i + 2) (by omega),
    u32_of_lt (4 * i + 3) (by omega)]
  simp [setAt, h0, h1, h2, hin]

/-- The six texture coordinate writes of a round succeed when the last position is
in range, and keep the length. -/
theorem textLoopTextureCoordinates_some (baseXTexture textureWidth : F)
    (textureCoordinates : List (vec2 F)) (i : Nat)
    (hin : 4 * i + 3 < textureCoordinates.length)
    (hword : textureCoordinates.length < 4294967296) :
    ∃ t, textLoopTextureCoordinates baseXTexture textureWidth textureCoordinates i = some t
      ∧ t.length = textureCoordinates.length := by
  have h0 : 4 * i < textureCoordinates.length := by omega
  have h1 : 4 * i + 1 < textureCoordinates.length := by omega
  have h2 : 4 * i + 2 < textureCoordinates.length := by omega
  simp only [textLoopTextureCoordinates, Nat.add_zero, u32_of_lt (4 * i) (by omega),
    u32_of_lt (4 * i + 1) (by omega), u32_of_lt (4 * i + 2) (by omega),
    u32_of_lt (4 * i + 3) (by omega)]
  simp [setAt, h0, h1, h2, hin]

/-- The six index writes of a round succeed when the last position is in range;
they keep the length, put the two triangles of the quad at the six positions of the
round and leave the positions before them as they were. -/
theorem textLoopIndices_some (indices : List Nat) (i : Nat)
    (hin : 6 * i + 5 < indices.length) (hword : indices.length < 4294967296) :
    ∃ x, textLoopIndices indices i = some x
      ∧ x.length = indices.length
      ∧ (x[6 * i]? = some (4 * i) ∧ x[6 * i + 1]? = some (4 * i + 1)
          ∧ x[6 * i + 2]? = some (4 * i + 2) ∧ x[6 * i + 3]? = some (4 * i)
          ∧ x[6 * i + 4]? = some (4 * i + 2) ∧ x[6 * i + 5]? = some (4 * i + 3))
      ∧ ∀ p, p < 6 * i → x[p]? = indices[p]? := by
  have h0 : 6 * i < indices.length := by omega
  have h1 : 6 * i + 1 < indices.length := by omega
  have h2 : 6 * i + 2 < indices.length := by omega
  have h3 : 6 * i + 3 < indices.length := by omega
  have h4 : 6 * i + 4 < indices.length := by omega
  simp only [textLoopIndices, Nat.add_zero, u32_of_lt (4 * i) (by omega),
    u32_of_lt (4 * i + 1) (by omega), u32_of_lt (4 * i + 2) (by omega),
    u32_of_lt (4 * i + 3) (by omega), u32_of_lt (6 * i) (by omega),
    u32_of_lt (6 * i + 1) (by omega), u32_of_lt (6 * i + 2) (by omega),
    u32_of_lt (6 * i + 3) (by omega), u32_of_lt (6 * i + 4) (by omega),
    u32_of_lt (6 * i + 5) (by omega)]
  refine ⟨(((((indices.set (6 * i) (4 * i)).set (6 * i + 1) (4 * i + 1)).set (6 * i + 2)
    (4 * i + 2)).set (6 * i + 3) (4 * i)).set (6 * i + 4) (4 * i + 2)).set (6 * i + 5)
    (4 * i + 3), ?_, ?_, ?_, ?_⟩
  · simp [setAt, h0, h1, h2, h3, h4, hin]
  · simp
  · simp [List.getElem?_set, h0, h1, h2, h3, h4, hin]
  · intro p hp
    simp only [List.getElem?_set]
    rw [if_neg (by omega), if_neg (by omega), if_neg (by omega), if_neg (by omega),
      if_neg (by omega), if_neg (by omega)]

end TextLemmas

section TextLoop

variable {F : Type} [Zero F] [One F] [Add F] [Mul F] [Div F] [NatCast F] [IntCast F]

/-- A round of the loop succeeds on a mesh whose three vectors reach past the
positions of the round. -/
theorem textLoopBody_some (text : List Int) (characterWidth characterHeight textureWidth : F)
    (mesh : Mesh F) (i : Nat) (hi : i < text.length)
    (hv : 4 * i + 3 < mesh.vertices.length) (hvw : mesh.vertices.length < 4294967296)
    (ht : 4 * i + 3 < mesh.textureCoordinates.length)
    (htw : mesh.textureCoordinates.length < 4294967296)
    (hx : 6 * i + 5 < mesh.indices.length) (hxw : mesh.indices.length < 4294967296) :
    ∃ m, textLoopBody text characterWidth characterHeight textureWidth mesh i = some m
      ∧ m.vertices.length = mesh.vertices.length
      ∧ m.textureCoordinates.length = mesh.textureCoordinates.length
      ∧ m.indices.length = mesh.indices.length
      ∧ m.normals = mesh.normals
      ∧ (m.indices[6 * i]? = some (4 * i) ∧ m.indices[6 * i + 1]? = some (4 * i + 1)
          ∧ m.indices[6 * i + 2]? = some (4 * i + 2) ∧ m.indices[6 * i + 3]? = some (4 * i)
          ∧ m.indices[6 * i + 4]? = some (4 * i + 2)
          ∧ m.indices[6 * i + 5]? = some (4 * i + 3))
      ∧ ∀ p, p < 6 * i → m.indices[p]? = mesh.indices[p]? := by
  obtain ⟨v, hv1, hv2⟩ := textLoopVertices_some ((i : F) * characterWidth) characterWidth
    characterHeight mesh.vertices i hv hvw
  obtain ⟨x, hx1, hx2, hx3, hx4⟩ := textLoopIndices_some mesh.indices i hx hxw
  obtain ⟨t, ht1, ht2⟩ := textLoopTextureCoordinates_some
    (((text[i] : Int) : F) * textureWidth) textureWidth mesh.textureCoordinates i ht htw
  refine ⟨{ mesh with vertices := v, indices := x, textureCoordinates := t }, ?_, hv2, ht2,
    hx2, rfl, hx3, hx4⟩
  simp only [textLoopBody, List.getElem?_eq_getElem hi, hv1, hx1, ht1]

/-- The loop from the round `i` on succeeds on a mesh with 4n vertices, 4n texture
coordinates and 6n indices, n the length of the text, when 6n fits an `unsigned int`;
it keeps the lengths, fills the index positions of the rounds from `i` on and leaves
those before them as they were. -/
theorem textLoop_some (text : List Int) (characterWidth characterHeight textureWidth : F)
    (hfit : 6 * text.length < 4294967296) :
    ∀ (k i : Nat) (mesh : Mesh F), text.length - i = k → i ≤ text.length →
      mesh.vertices.length = 4 * text.length →
      mesh.textureCoordinates.length = 4 * text.length →
      mesh.indices.length = 6 * text.length →
      ∃ m, textLoop text characterWidth characterHeight textureWidth i mesh = some m
        ∧ m.vertices.length = 4 * text.length
        ∧ m.textureCoordinates.length = 4 * text.length
        ∧ m.indices.length = 6 * text.length
        ∧ m.normals = mesh.normals
        ∧ (∀ j, i ≤ j → j < text.length →
            m.indices[6 * j]? = some (4 * j) ∧ m.indices[6 * j + 1]? = some (4 * j + 1)
              ∧ m.indices[6 * j + 2]? = some (4 * j + 2)
              ∧ m.indices[6 * j + 3]? = some (4 * j)
              ∧ m.indices[6 * j + 4]? = some (4 * j + 2)
              ∧ m.indices[6 * j + 5]? = some (4 * j + 3))
        ∧ ∀ p, p < 6 * i → m.indices[p]? = mesh.indices[p]? := by
  intro k
  induction k with
  | zero =>
    intro i mesh hk hi hv ht hx
    rw [textLoop, if_neg (by omega)]
    exact ⟨mesh, rfl, hv, ht, hx, rfl, fun j h1 h2 => by omega, fun p _ => rfl⟩
  | succ k ih =>
    intro i mesh hk hi hv ht hx
    have hlt : i < text.length := by omega
    obtain ⟨m1, hbody, hv1, ht1, hx1, hn1, hsix, hbefore⟩ :=
      textLoopBody_some text characterWidth characterHeight textureWidth mesh i hlt
        (by omega) (by omega) (by omega) (by omega) (by omega) (by omega)
    obtain ⟨m, hloop, hv2, ht2, hx2, hn2, hrest, hkeep⟩ :=
      ih (i + 1) m1 (by omega) (by omega) (hv1.trans hv) (ht1.trans ht) (hx1.trans hx)
    rw [textLoop, if_pos hlt, hbody]
    refine ⟨m, hloop, hv2, ht2, hx2, hn2.trans hn1, ?_, ?_⟩
    · intro j hij hj
      by_cases hji : j = i
      · subst hji
        rw [hkeep _ (by omega), hkeep _ (by omega), hkeep _ (by omega), hkeep _ (by omega),
          hkeep _ (by omega), hkeep _ (by omega)]
        exact hsix
      · exact hrest j (by omega) hj
    · intro p hp
      rw [hkeep p (by omega), hbefore p hp]

/-- No mesh comes back for a text that is not empty and whose fourfold length is a
multiple of 2^32: the vertex vector is resized to the length 0 and the first write
is out of range. -/
theorem generateTextGeometryBuffer_throws (text : List Int)
    (characterHeightOverWidth totalTextWidth : F) (hne : 0 < text.length)
    (hwrap : u32 (4 * text.length) = 0) :
    generateTextGeometryBuffer text characterHeightOverWidth totalTextWidth = none := by
  cases text with
  | nil => simp at hne
  | cons character rest =>
    simp only [generateTextGeometryBuffer, hwrap]
    rw [textLoop, if_pos hne]
    simp [textLoopBody, textLoopVertices, setAt, resize, u32]

end TextLoop

section ClaimText

variable {F : Type} [Zero F] [One F] [Add F] [Mul F] [Div F] [NatCast F] [IntCast F]

/-- C26, counterexample: for a text of 2^30 characters the count `4 * text.length()`
is 2^32, which the `unsigned int vertexCount` holds as 0; the vertex vector is
resized to no element and the write `mesh.vertices.at(0)` of the first round throws:
no mesh with 4 * 2^30 vertices comes back. -/
theorem text_of_two_pow_thirty_characters_counterexample :
    (List.replicate 1073741824 (65 : Int)).length = 1073741824
      ∧ u32 (4 * 1073741824) = 0
      ∧ generateTextGeometryBuffer (List.replicate 1073741824 (65 : Int)) (39 / 25 : ℚ) 1
          = none
      ∧ ¬ ∃ mesh : Mesh ℚ,
          generateTextGeometryBuffer (List.replicate 1073741824 (65 : Int)) (39 / 25 : ℚ) 1
              = some mesh
            ∧ mesh.vertices.length = 4 * 1073741824 := by
  have hlen : (List.replicate 1073741824 (65 : Int)).length = 1073741824 :=
    List.length_replicate _ _
  have hnone : generateTextGeometryBuffer (List.replicate 1073741824 (65 : Int))
      (39 / 25 : ℚ) 1 = none :=
    generateTextGeometryBuffer_throws _ _ _ (by rw [hlen]; decide) (by rw [hlen]; rfl)
  refine ⟨hlen, rfl, hnone, ?_⟩
  rintro ⟨mesh, hmesh, _⟩
  rw [hnone] at hmesh
  cases hmesh

/-- C26, amended: for every text of length n with 6n below 2^32,
`generateTextGeometryBuffer` returns a mesh with exactly 4n vertices, 4n texture
coordinates, 6n indices and no normals; for each character i the six indices at the
positions 6i to 6i+5 are 4i, 4i+1, 4i+2, 4i, 4i+2, 4i+3, so every index is smaller
than the vertex count. -/
theorem text_mesh_has_four_vertices_per_character (text : List Int)
    (characterHeightOverWidth totalTextWidth : F)
    (hfit : 6 * text.length < 4294967296) :
    ∃ mesh, generateTextGeometryBuffer text characterHeightOverWidth totalTextWidth
        = some mesh
      ∧ mesh.vertices.length = 4 * text.length
      ∧ mesh.textureCoordinates.length = 4 * text.length
      ∧ mesh.indices.length = 6 * text.length
      ∧ mesh.indices.length % 3 = 0
      ∧ mesh.normals = []
      ∧ (∀ i, i < text.length →
          mesh.indices[6 * i]? = some (4 * i) ∧ mesh.indices[6 * i + 1]? = some (4 * i + 1)
            ∧ mesh.indices[6 * i + 2]? = some (4 * i + 2)
            ∧ mesh.indices[6 * i + 3]? = some (4 * i)
            ∧ mesh.indices[6 * i + 4]? = some (4 * i + 2)
            ∧ mesh.indices[6 * i + 5]? = some (4 * i + 3))
      ∧ ∀ k ∈ mesh.indices, k < mesh.vertices.length := by
  obtain ⟨mesh, hmesh, hv, ht, hx, hn, hsix, _⟩ :=
    textLoop_some text (totalTextWidth / (text.length : F))
      (characterHeightOverWidth * (totalTextWidth / (text.length : F)))
      (1 / ((128 : Nat) : F)) hfit text.length 0
      { vertices := resize (u32 (4 * text.length)) ⟨0, 0, 0⟩
        normals := []
        textureCoordinates := resize (u32 (4 * text.length)) ⟨0, 0⟩
        indices := resize (u32 (6 * text.length)) 0
        tangents := []
        bitangents := [] }
      rfl (Nat.zero_le _)
      (by rw [u32_of_lt (4 * text.length) (by omega)]; exact List.length_replicate _ _)
      (by rw [u32_of_lt (4 * text.length) (by omega)]; exact List.length_replicate _ _)
      (by rw [u32_of_lt (6 * text.length) (by omega)]; exact List.length_replicate _ _)
  refine ⟨mesh, hmesh, hv, ht, hx, by omega, hn, fun i hi => hsix i (Nat.zero_le _) hi, ?_⟩
  intro k hk
  obtain ⟨p, hp⟩ := List.mem_iff_getElem?.mp hk
  have hplt : p < mesh.indices.length := by
    by_contra hge
    rw [List.getElem?_eq_none (by omega)] at hp
    cases hp
  have hj : p / 6 < text.length := by omega
  obtain ⟨h0, h1, h2, h3, h4, h5⟩ := hsix (p / 6) (Nat.zero_le _) hj
  have hr : p % 6 < 6 := Nat.mod_lt _ (by decide)
  have hsplit : p = 6 * (p / 6) + p % 6 := (Nat.div_add_mod p 6).symm
  rw [hv]
  generalize p / 6 = j at hj h0 h1 h2 h3 h4 h5 hsplit
  generalize p % 6 = r at hr hsplit
  subst hsplit
  interval_cases r
  · rw [Nat.add_zero, h0] at hp; cases hp; omega
  · rw [h1] at hp; cases hp; omega
  · rw [h2] at hp; cases hp; omega
  · rw [h3] at hp; cases hp; omega
  · rw [h4] at hp; cases hp; omega
  · rw [h5] at hp; cases hp; omega

/-- C26, amended, at the text "AB" drawn one unit wide. -/
theorem text_mesh_has_four_vertices_per_character_witness :
    6 * ([65, 66] : List Int).length < 4294967296
      ∧ ∃ mesh : Mesh ℚ, generateTextGeometryBuffer [65, 66] (39 / 25 : ℚ) 1 = some mesh
          ∧ mesh.vertices.length = 8 ∧ mesh.textureCoordinates.length = 8
          ∧ mesh.indices = [0, 1, 2, 0, 2, 3, 4, 5, 6, 4, 6, 7] := by
  refine ⟨by decide, ?_⟩
  obtain ⟨mesh, hmesh, hv, ht, hx, _, _, hsix, _⟩ :=
    text_mesh_has_four_vertices_per_character (F := ℚ) [65, 66] (39 / 25) 1 (by decide)
  refine ⟨mesh, hmesh, hv, ht, ?_⟩
  have hfirst := hsix 0 (by decide)
  have hsecond := hsix 1 (by decide)
  have hlen : mesh.indices.length = 12 := hx
  refine List.ext_getElem? (fun p => ?_)
  by_cases hp : p < 12
  · interval_cases p <;> simp_all
  · rw [List.getElem?_eq_none (by omega), List.getElem?_eq_none (by simp; omega)]

end ClaimText

/-! ## The ball and the pad stay in their intervals -/

section ClaimBall

variable {F : Type} [LinearOrderedField F]

/-- C27: in the running branch of `updateFrame`, when `ballMinX ≤ ballMaxX` and
`ballMinZ ≤ ballMaxZ`, after the bounce step the x coordinate of `ballPosition` lies
in [`ballMinX`, `ballMaxX`] and the z coordinate in [`ballMinZ`, `ballMaxZ`], for
every time step, previous position and direction; and the x (z) component of
`ballDirection` is negated when the moved x (z) coordinate lay strictly outside the
interval and kept otherwise. -/
theorem ball_stays_in_box (timeDelta ballYCoord ballMinX ballMaxX ballMinZ ballMaxZ : F)
    (ballPosition ballDirection : vec3 F)
    (hx : ballMinX ≤ ballMaxX) (hz : ballMinZ ≤ ballMaxZ) :
    ballMinX ≤ (ballMoveAndBounce timeDelta ballYCoord ballMinX ballMaxX ballMinZ ballMaxZ
        ballPosition ballDirection).1.x
      ∧ (ballMoveAndBounce timeDelta ballYCoord ballMinX ballMaxX ballMinZ ballMaxZ
          ballPosition ballDirection).1.x ≤ ballMaxX
      ∧ ballMinZ ≤ (ballMoveAndBounce timeDelta ballYCoord ballMinX ballMaxX ballMinZ
          ballMaxZ ballPosition ballDirection).1.z
      ∧ (ballMoveAndBounce timeDelta ballYCoord ballMinX ballMaxX ballMinZ ballMaxZ
          ballPosition ballDirection).1.z ≤ ballMaxZ
      ∧ (ballMoveAndBounce timeDelta ballYCoord ballMinX ballMaxX ballMinZ ballMaxZ
          ballPosition ballDirection).2.x
          = (if ballPosition.x + timeDelta * 60 * ballDirection.x < ballMinX
                ∨ ballMaxX < ballPosition.x + timeDelta * 60 * ballDirection.x
              then -ballDirection.x else ballDirection.x)
      ∧ (ballMoveAndBounce timeDelta ballYCoord ballMinX ballMaxX ballMinZ ballMaxZ
          ballPosition ballDirection).2.z
          = (if ballPosition.z + timeDelta * 60 * ballDirection.z < ballMinZ
                ∨ ballMaxZ < ballPosition.z + timeDelta * 60 * ballDirection.z
              then -ballDirection.z else ballDirection.z) := by
  simp only [ballMoveAndBounce, gt_iff_lt, mul_neg, mul_one]
  refine ⟨?_, ?_, ?_, ?_, ?_, ?_⟩
  · split_ifs with h1 h2
    · exact le_refl _
    · exact hx
    · exact not_lt.mp h1
  · split_ifs with h1 h2
    · exact hx
    · exact le_refl _
    · exact not_lt.mp h2
  · split_ifs with h1 h2
    · exact le_refl _
    · exact hz
    · exact not_lt.mp h1
  · split_ifs with h1 h2
    · exact hz
    · exact le_refl _
    · exact not_lt.mp h2
  · by_cases h1 : ballPosition.x + timeDelta * 60 * ballDirection.x < ballMinX
    · simp [h1]
    · by_cases h2 : ballMaxX < ballPosition.x + timeDelta * 60 * ballDirection.x
      · simp [h1, h2]
      · simp [h1, h2]
  · by_cases h1 : ballPosition.z + timeDelta * 60 * ballDirection.z < ballMinZ
    · simp [h1]
    · by_cases h2 : ballMaxZ < ballPosition.z + timeDelta * 60 * ballDirection.z
      · simp [h1, h2]
      · simp [h1, h2]

/-- C27 at a box with x from -87 to 87 and z from -42 to 12, for a ball at
(80, 6, 0) that moves along (1, 1, 1/5) for a quarter of a second: the moved x
coordinate 95 is outside, so the ball is put at 87 and its x direction is negated,
while the moved z coordinate 3 is inside. -/
theorem ball_stays_in_box_witness :
    (-87 : ℚ) ≤ 87 ∧ (-42 : ℚ) ≤ 12
      ∧ (ballMoveAndBounce (1 / 4 : ℚ) 6 (-87) 87 (-42) 12 ⟨80, 6, 0⟩ ⟨1, 1, 1 / 5⟩).1.x ≤ 87
      ∧ ballMoveAndBounce (1 / 4 : ℚ) 6 (-87) 87 (-42) 12 ⟨80, 6, 0⟩ ⟨1, 1, 1 / 5⟩
          = (⟨87, 6, 3⟩, ⟨-1, 1, 1 / 5⟩) :=
  ⟨by norm_num, by norm_num,
    (ball_stays_in_box (1 / 4 : ℚ) 6 (-87) 87 (-42) 12 ⟨80, 6, 0⟩ ⟨1, 1, 1 / 5⟩
      (by norm_num) (by norm_num)).2.1,
    by norm_num [ballMoveAndBounce]⟩

end ClaimBall

section ClaimPad

variable {F : Type} [LinearOrderedField F]

/-- C28: for every previous pad position, every cursor position and every window
size with non-zero width and height, after `mouseCallback` both `padPositionX` and
`padPositionZ` lie in the closed interval [0, 1]. -/
theorem pad_position_is_clamped (mouseSensitivity lastMouseX lastMouseY : F)
    (windowWidth windowHeight : Int) (x y padPositionX padPositionZ : F)
    (_hwidth : windowWidth ≠ 0) (_hheight : windowHeight ≠ 0) :
    0 ≤ (mouseCallback mouseSensitivity lastMouseX lastMouseY windowWidth windowHeight x y
        padPositionX padPositionZ).1
      ∧ (mouseCallback mouseSensitivity lastMouseX lastMouseY windowWidth windowHeight x y
          padPositionX padPositionZ).1 ≤ 1
      ∧ 0 ≤ (mouseCallback mouseSensitivity lastMouseX lastMouseY windowWidth windowHeight
          x y padPositionX padPositionZ).2
      ∧ (mouseCallback mouseSensitivity lastMouseX lastMouseY windowWidth windowHeight x y
          padPositionX padPositionZ).2 ≤ 1 := by
  simp only [mouseCallback, gt_iff_lt]
  refine ⟨?_, ?_, ?_, ?_⟩
  · split_ifs with h1 h2 h2
    · exact le_refl _
    · exact zero_le_one
    · exact le_refl _
    · exact not_lt.mp h2
  · split_ifs with h1 h2 h2
    · exact zero_le_one
    · exact le_refl _
    · exact zero_le_one
    · exact not_lt.mp h1
  · split_ifs with h1 h2 h2
    · exact le_refl _
    · exact zero_le_one
    · exact le_refl _
    · exact not_lt.mp h2
  · split_ifs with h1 h2 h2
    · exact zero_le_one
    · exact le_refl _
    · exact zero_le_one
    · exact not_lt.mp h1

/-- C28 for a window of 1366 by 768 with the cursor moved from the centre to the
upper left corner, from the pad position (1/2, 1/2): the pad moves to (1, 1). -/
theorem pad_position_is_clamped_witness :
    (1366 : Int) ≠ 0 ∧ (768 : Int) ≠ 0
      ∧ (mouseCallback (1 : ℚ) 683 384 1366 768 0 0 (1 / 2) (1 / 2)).1 ≤ 1
      ∧ mouseCallback (1 : ℚ) 683 384 1366 768 0 0 (1 / 2) (1 / 2) = (1, 1) :=
  ⟨by decide, by decide,
    (pad_position_is_clamped (1 : ℚ) 683 384 1366 768 0 0 (1 / 2) (1 / 2)
      (by decide) (by decide)).2.1,
    by norm_num [mouseCallback]⟩

end ClaimPad
